import Mathlib

/-! ZIO: vmalloc ring allocator, block exchange queue, swaps and registries

Shallow embedding of `buffers/zio-buf-vmalloc.c` (ring allocator, block
operations, creation and destruction of an instance, page faults of a
mapping); from `objects.c`, of the reconfiguration code (the swaps of the
buffer and of the trigger of a channel set), of the registries of buffer and
trigger types, and of the construction of a channel set; and, from `zio.h`,
of the iteration over the enabled channels of a set.

Conventions of the embedding:

* `unsigned long` and `size_t` values are natural numbers; every C addition on
  them is written with the explicit reduction modulo `ULONG_MOD = 2 ^ 64`
  (LP64 kernel).
* A function that reports failure through a distinguished return value
  (`-1`, `NULL`, `ERR_PTR`) returns an `Option` or an `Except`.
* Spin locks protect a single mutator; the embedding is sequential and the
  lock/unlock pairs are omitted.
* Calls that leave the embedded code are recorded, in order, in a list of
  events; their outcomes are given by an environment record.
-/

namespace Zio

/-! ## Ring allocator (`zbk_alloc_data`, `zbk_free_data`) -/

/-- Number of values of an `unsigned long` (and of a `size_t`). -/
def ULONG_MOD : Nat := 2 ^ 64

/-- The allocator fields of `struct zbk_instance`: `size`, `head`, `tail`. -/
structure zbk_ring where
  size : Nat
  head : Nat
  tail : Nat
deriving DecidableEq, Repr

/-- A ring as `zbk_create` leaves it: `kzalloc` zeroes `head` and `tail`. -/
def zbk_fresh (size : Nat) : zbk_ring := { size := size, head := 0, tail := 0 }

/-- Embedding of `zbk_alloc_data`. The result `none` is the `out_oom` exit
(the C function returns `-1`), `some res` is the `out` exit returning `res`. -/
def zbk_alloc_data (zbki : zbk_ring) (size : Nat) : Option Nat × zbk_ring :=
  let res := zbki.head
  let next := (zbki.head + size) % ULONG_MOD
  if next > zbki.size then
    -- wrap
    if zbki.tail < size then (none, zbki)
    else (some 0, { zbki with head := size })
  else if zbki.head < zbki.tail then
    if next > zbki.tail then (none, zbki)
    else (some res, { zbki with head := next })
  else
    -- easy case
    (some res, { zbki with head := next })

/-- Embedding of `zbk_free_data`. -/
def zbk_free_data (zbki : zbk_ring) (offset : Nat) (size : Nat) : zbk_ring :=
  if offset = 0 then { zbki with tail := size }
  else { zbki with tail := (zbki.tail + size) % ULONG_MOD }

/-- Reference definition of `allocate` written from section 4.1 of the
specification: `next` is the sum `head + len` of the two numbers; when `next`
exceeds `size` the request wraps to offset `0` and succeeds only if
`tail >= len`; otherwise it succeeds unless `head < tail` and `next > tail`.
A failure (`none`, the `OutOfSpace` condition) returns the state it was
given. -/
def allocate (st : zbk_ring) (len : Nat) : Option Nat × zbk_ring :=
  let next := st.head + len
  if st.size < next then
    if len ≤ st.tail then (some 0, { size := st.size, head := len, tail := st.tail })
    else (none, st)
  else if st.head < st.tail ∧ st.tail < next then (none, st)
  else (some st.head, { size := st.size, head := next, tail := st.tail })

/-- Operations of an allocator client: request `len` bytes, or give back the
oldest allocation still outstanding. -/
inductive ring_op where
  | alloc (len : Nat)
  | free
deriving DecidableEq, Repr

/-- One client step. The second component is the list of outstanding
allocations `(offset, len)`, oldest first. A successful allocation is appended
with the offset the allocator returned; `free` hands the oldest one back with
exactly that offset and length. A `free` with nothing outstanding is not a
step (`none`). -/
def ring_step (st : zbk_ring × List (Nat × Nat)) :
    ring_op → Option (zbk_ring × List (Nat × Nat))
  | .alloc len =>
    match zbk_alloc_data st.1 len with
    | (some off, r) => some (r, st.2 ++ [(off, len)])
    | (none, r) => some (r, st.2)
  | .free =>
    match st.2 with
    | [] => none
    | (off, len) :: rest => some (zbk_free_data st.1 off len, rest)

/-- Run a sequence of client steps. -/
def ring_run (st : zbk_ring × List (Nat × Nat)) :
    List ring_op → Option (zbk_ring × List (Nat × Nat))
  | [] => some st
  | op :: ops =>
    match ring_step st op with
    | none => none
    | some st' => ring_run st' ops

/-- Allocate `len` and, when the allocation succeeded, free it at once with
the returned offset. Returns what `zbk_alloc_data` returned. -/
def alloc_then_free (zbki : zbk_ring) (len : Nat) : Option Nat × zbk_ring :=
  match zbk_alloc_data zbki len with
  | (some off, r) => (some off, zbk_free_data r off len)
  | (none, r) => (none, r)

/-- Run `alloc_then_free` over a list of lengths, collecting the results of
the allocations. -/
def alloc_free_run (zbki : zbk_ring) : List Nat → List (Option Nat) × zbk_ring
  | [] => ([], zbki)
  | len :: lens =>
    let r := alloc_then_free zbki len
    let rest := alloc_free_run r.2 lens
    (r.1 :: rest.1, rest.2)

/-- Value of `tail` once every outstanding allocation of `pending` (oldest
first) has been handed to `zbk_free_data`, starting from `tail`. -/
def drain_tail (tail : Nat) : List (Nat × Nat) → Nat
  | [] => tail
  | (off, len) :: rest =>
    drain_tail (zbk_free_data ⟨0, 0, tail⟩ off len).tail rest

/-! ## Block exchange queue (`zbk_store_block`, `zbk_retr_block`) -/

/-- Object flags of `enum zio_obj_flags`. -/
def ZIO_STATUS : Nat := 0x1
def ZIO_ENABLED : Nat := 0x0
def ZIO_DISABLED : Nat := 0x1
def ZIO_DIR : Nat := 0x2
def ZIO_DIR_INPUT : Nat := 0x0
def ZIO_DIR_OUTPUT : Nat := 0x2

/-- Errno values used by the embedded code. -/
def EINVAL : Int := 22
def ENOMEM : Int := 12
def EBUSY : Int := 16
def ENODEV : Int := 19

/-- The `struct zio_block`: `ctrl_flags` holds the control pointer, with the
"cdone" mark in bit 0. -/
structure zio_block where
  ctrl_flags : Nat
  data : Nat
  datalen : Nat
  uoff : Nat
deriving DecidableEq, Repr

/-- The `zio_get_ctrl(block)` accessor: `ctrl_flags & ~1` on an `unsigned long`;
`0` is the `NULL` control. -/
def zio_get_ctrl (block : zio_block) : Nat := block.ctrl_flags &&& (ULONG_MOD - 2)

/-- The part of `struct zio_ti` the buffer looks at: its `flags`, and whatever
else the timing plugin keeps (`priv`). -/
structure zio_ti (τ : Type) where
  flags : Nat
  priv : τ

/-- The two hooks of `ti->t_op` used by the buffer. They belong to the timing
plugin, so they are parameters of the embedding: a hook receives the timing
instance and the channel index, and returns its `int` result and the timing
instance as it leaves it; it has no access to the item list of the buffer
instance. `pull_block` is optional (a `NULL` entry is `none`). -/
structure zio_trigger_operations (τ : Type) where
  push_block : zio_ti τ → Nat → zio_block → Int × zio_ti τ
  pull_block : Option (zio_ti τ → Nat → Int × zio_ti τ)

/-- What a call of `zbk_store_block` or `zbk_retr_block` does to the outside:
calls of the timing hooks and `wake_up_interruptible(&bi->q)`. -/
inductive zbk_event where
  | push_block (block : zio_block) (ret : Int)
  | pull_block
  | wake_up
deriving DecidableEq, Repr

/-- The state `zbk_store_block` and `zbk_retr_block` work on: the
`struct zbk_instance` (item list, allocator fields, base address `data` of the
region) with the flags and the channel of its `zio_bi`, and the timing
instance `bi->cset->ti` with its operations. -/
structure zbk_instance (τ : Type) where
  flags : Nat
  chan : Nat
  list : List zio_block
  ring : zbk_ring
  data : Nat
  ti : zio_ti τ
  t_op : zio_trigger_operations τ

/-- Embedding of `__try_push`: returns `0` or `1`, the timing instance after
the call, and the hook calls made. -/
def __try_push {τ : Type} (t_op : zio_trigger_operations τ) (ti : zio_ti τ) (chan : Nat)
    (block : zio_block) : Nat × zio_ti τ × List zbk_event :=
  -- check if trigger is disabled
  if (ti.flags &&& ZIO_STATUS) = ZIO_DISABLED then (0, ti, [])
  else
    let r := t_op.push_block ti chan block
    if r.1 < 0 then (0, r.2, [zbk_event.push_block block r.1])
    else (1, r.2, [zbk_event.push_block block r.1])

/-- Embedding of `zbk_store_block`: the `int` result, the instance after the
call and the outside calls made, in order. -/
def zbk_store_block {τ : Type} (bi : zbk_instance τ) (block : zio_block) :
    Int × zbk_instance τ × List zbk_event :=
  if zio_get_ctrl block = 0 then (-EINVAL, bi, [])
  else
    let output : Bool := (bi.flags &&& ZIO_DIR) = ZIO_DIR_OUTPUT
    -- add to the buffer instance or push to the trigger
    let st : Nat × Nat × zio_ti τ × List zbk_event :=
      if bi.list.isEmpty then
        if output then
          let r := __try_push bi.t_op bi.ti bi.chan block
          (0, r.1, r.2.1, r.2.2)
        else (1, 0, bi.ti, [])
      else (0, 0, bi.ti, [])
    let awake := st.1
    let pushed := st.2.1
    let list := if pushed = 0 then bi.list ++ [block] else bi.list
    -- if input, awake user space
    let wake := if awake ≠ 0 ∧ (bi.flags &&& ZIO_DIR) = ZIO_DIR_INPUT
      then [zbk_event.wake_up] else []
    (0, { bi with list := list, ti := st.2.2.1 }, st.2.2.2 ++ wake)

/-- Embedding of `zbk_retr_block`: the block returned (`none` is `NULL`), the
instance after the call and the outside calls made. -/
def zbk_retr_block {τ : Type} (bi : zbk_instance τ) :
    Option zio_block × zbk_instance τ × List zbk_event :=
  match bi.list with
  | item :: rest =>
    let wake := if (bi.flags &&& ZIO_DIR) = ZIO_DIR_OUTPUT
      then [zbk_event.wake_up] else []
    (some item, { bi with list := rest }, wake)
  | [] =>
    -- there is no data in buffer, and we may pull to have data soon
    if (bi.flags &&& ZIO_DIR) = ZIO_DIR_INPUT then
      match bi.t_op.pull_block with
      | some pull_block =>
        -- check if trigger is disabled
        if (bi.ti.flags &&& ZIO_STATUS) = ZIO_DISABLED then (none, bi, [])
        else (none, { bi with ti := (pull_block bi.ti bi.chan).2 }, [zbk_event.pull_block])
      | none => (none, bi, [])
    else (none, bi, [])

/-- Store the blocks one after the other. -/
def store_blocks {τ : Type} (bi : zbk_instance τ) : List zio_block → zbk_instance τ
  | [] => bi
  | b :: bs => store_blocks (zbk_store_block bi b).2.1 bs

/-- Call `zbk_retr_block` `n` times, collecting what it returned. -/
def retr_blocks {τ : Type} (bi : zbk_instance τ) :
    Nat → List (Option zio_block) × zbk_instance τ
  | 0 => ([], bi)
  | n + 1 =>
    let r := zbk_retr_block bi
    let rest := retr_blocks r.2.1 n
    (r.1 :: rest.1, rest.2)

/-- A timing plugin whose `push_block` accepts every block (returns `0`) and
which has no `pull_block`. -/
def accepting_t_op : zio_trigger_operations Unit :=
  { push_block := fun ti _ _ => (0, ti), pull_block := none }

/-- A timing plugin whose `push_block` refuses every block (returns `-EBUSY`)
and whose `pull_block` counts its calls in `priv`. -/
def counting_t_op : zio_trigger_operations Nat :=
  { push_block := fun ti _ _ => (-EBUSY, ti),
    pull_block := some (fun ti _ => (0, { ti with priv := ti.priv + 1 })) }

/-- An output instance with an empty list and a fresh region of 128 kB, bound
to the enabled timing instance of `accepting_t_op`. -/
def output_accepting : zbk_instance Unit :=
  { flags := ZIO_DIR_OUTPUT, chan := 0, list := [], ring := zbk_fresh (1024 * 128),
    data := 0, ti := ⟨ZIO_ENABLED, ()⟩, t_op := accepting_t_op }

/-- An instance of direction `dir` with list `list`, bound to a timing
instance of `counting_t_op` with flags `tflags` that has seen no pull yet. -/
def counting_instance (dir tflags : Nat) (list : List zio_block) : zbk_instance Nat :=
  { flags := dir, chan := 0, list := list, ring := zbk_fresh (1024 * 128), data := 0,
    ti := ⟨tflags, 0⟩, t_op := counting_t_op }

/-- Three blocks with distinct controls. -/
def blockA : zio_block := ⟨0x1000, 0, 16, 0⟩
def blockB : zio_block := ⟨0x2000, 16, 16, 0⟩
def blockC : zio_block := ⟨0x3000, 32, 16, 0⟩

/-- The `int` result and the outside calls of each `zbk_store_block` made by
`store_blocks`, in order. -/
def store_blocks_log {τ : Type} (bi : zbk_instance τ) :
    List zio_block → List (Int × List zbk_event)
  | [] => []
  | b :: bs =>
    let r := zbk_store_block bi b
    (r.1, r.2.2) :: store_blocks_log r.2.1 bs

/-- A timing plugin whose `push_block` accepts the first block it is handed
(returns `0` and notes it in `priv`) and refuses every later one with
`-EBUSY`; it has no `pull_block`. -/
def accept_once_t_op : zio_trigger_operations Nat :=
  { push_block := fun ti _ _ =>
      if ti.priv = 0 then (0, { ti with priv := 1 }) else (-EBUSY, ti),
    pull_block := none }

/-- An output instance with an empty list, bound to the enabled timing
instance of `accept_once_t_op` that has accepted nothing yet. -/
def output_accept_once : zbk_instance Nat :=
  { flags := ZIO_DIR_OUTPUT, chan := 0, list := [], ring := zbk_fresh (1024 * 128),
    data := 0, ti := ⟨ZIO_ENABLED, 0⟩, t_op := accept_once_t_op }

/-! ## Transport swap (`zio_change_current_buffer`) -/

/-- A kernel error code: the `int` value `-code` with `1 ≤ code ≤ MAX_ERRNO`
(what `ERR_PTR`/`IS_ERR` can carry). -/
structure zio_errno where
  code : Nat
  pos : 0 < code
  le : code ≤ 4095
deriving DecidableEq, Repr

/-- The `int` a function returns for the error `e`. -/
def zio_errno.toInt (e : zio_errno) : Int := -(e.code : Int)

/-- The fields of `struct zio_buffer_type` the swap reads: the name in its
head, the owning module, and the identity of its operation table. -/
structure zio_buffer_type where
  name : String
  owner : Nat
  b_op : Nat
deriving DecidableEq, Repr

/-- An entry of a global object list (`struct zio_object_list_item`). -/
structure zio_object_list_item (α : Type) where
  name : String
  owner : Nat
  obj : α

/-- A `struct zio_bi` as the swap sees it. `addr` is the address of the
instance, that is, the value of a pointer to it; `b_op` names the operation
table copied from its type; `dev_name` is the name given with `dev_set_name`
or `device_rename`; `chan` is set by `__bi_register`. The composite name in
the head, the file and vm operation tables and the wait queue play no part in
the swap and are left out. -/
structure zio_bi where
  addr : Nat
  flags : Nat
  use_count : Int
  b_op : Nat
  dev_name : String
  chan : Option Nat
deriving DecidableEq, Repr

/-- A channel of the set with the buffer instance `chan->bi` points to. -/
structure zio_channel where
  index : Nat
  flags : Nat
  bi : zio_bi
deriving DecidableEq, Repr

/-- The value of the pointer `chan->bi`. -/
def zio_channel.binding (chan : zio_channel) : Nat := chan.bi.addr

/-- The fields of `struct zio_trigger_type` the swap reads: the name in its
head, the owning module, and the identity of its operation table. -/
structure zio_trigger_type where
  name : String
  owner : Nat
  t_op : Nat
deriving DecidableEq, Repr

/-- A timing instance at its address: what `t_op->create` returns. -/
structure zio_ti_obj (τ : Type) where
  addr : Nat
  ti : zio_ti τ

/-- The fields of `struct zio_cset` the swaps touch; `n_chan` is the length of
`chan`. The pointer `cset->ti` is given by its value `ti_addr` and by the
instance `ti` found there. -/
structure zio_cset (τ : Type) where
  zdev_owner : Nat
  zbuf : zio_buffer_type
  ti : zio_ti τ
  flags : Nat
  index : Nat
  chan : List zio_channel
  trig : zio_trigger_type
  ti_addr : Nat

/-- What surrounds a call of `zio_change_current_buffer` or of
`zio_change_current_trigger`: the global lists of buffer and trigger types,
and the outcome of every call that leaves `objects.c`. A failing call yields
its error code. `ZIO_OBJ_NAME_LEN` comes from a header that is not among the
sources. `kzalloc` tells whether the allocation of `bi_vector` succeeds.
`b_create` is `zbuf->b_op->create` for the channel of the given index.
`zio_trigger_abort_disable`, `zio_cset_is_self_timed` and `zio_arm_trigger`
are helpers of the trigger code: `zio_trigger_abort_disable` returns the flags
to restore and the timing instance as it leaves it. `t_create` is
`trig->t_op->create`; the calls on a timing instance are told apart by its
address; `ctrl_update_nsamples` is the helper `__ctrl_update_nsamples`. -/
structure zio_env (τ : Type) where
  ZIO_OBJ_NAME_LEN : Nat
  all_buffer_types : List (zio_object_list_item zio_buffer_type)
  try_module_get : Nat → Bool
  kzalloc : Bool
  b_create : zio_buffer_type → Nat → Except zio_errno zio_bi
  zattr_set_copy : zio_bi → Option zio_errno
  zattr_set_create : zio_bi → Option zio_errno
  device_register : zio_bi → Option zio_errno
  device_rename : zio_bi → String → Option zio_errno
  zio_trigger_abort_disable : zio_ti τ → Nat × zio_ti τ
  zio_cset_is_self_timed : zio_cset τ → Bool
  zio_arm_trigger : zio_ti τ → zio_ti τ
  all_trigger_types : List (zio_object_list_item zio_trigger_type)
  t_create : zio_trigger_type → Except zio_errno (zio_ti_obj τ)
  ti_zattr_set_copy : Nat → Option zio_errno
  ti_zattr_set_create : Nat → Option zio_errno
  ti_device_register : Nat → Option zio_errno
  ti_device_rename : Nat → String → Option zio_errno
  ctrl_update_nsamples : zio_ti τ → zio_ti τ

/-- The calls leaving `objects.c` that a swap makes, in order. Instances are
named by their address and types by their operation table. `b_create` and
`t_create` carry the address of the instance the plugin returned (`none` when
it returned an error); `list_add` and `list_del` are the updates of the
instance list of a type; `trig_init_ctrl` is `__zattr_trig_init_ctrl` on the
current control of a channel. -/
inductive zio_event where
  | module_get (owner : Nat)
  | module_put (owner : Nat)
  | b_create (b_op : Nat) (chan : Nat) (bi : Option Nat)
  | b_destroy (b_op : Nat) (bi : Nat)
  | zattr_set_copy (bi : Nat)
  | zattr_set_free (bi : Nat)
  | zattr_set_create (bi : Nat)
  | zattr_set_remove (bi : Nat)
  | device_register (bi : Nat)
  | device_unregister (bi : Nat)
  | device_rename (bi : Nat) (name : String)
  | list_add (b_op : Nat) (bi : Nat)
  | list_del (b_op : Nat) (bi : Nat)
  | kfree_vector
  | trigger_abort_disable
  | arm_trigger
  | t_create (t_op : Nat) (ti : Option Nat)
  | t_destroy (t_op : Nat) (ti : Nat)
  | ctrl_update_nsamples (ti : Nat)
  | trig_init_ctrl (ti : Nat) (chan : Nat)
  | dev_set_name (obj : Nat) (name : String)
deriving DecidableEq, Repr

/-- Embedding of `__find_by_name`. -/
def __find_by_name {α : Type} (zobj_list : List (zio_object_list_item α))
    (name : Option String) : Option (zio_object_list_item α) :=
  match name with
  | none => none
  | some n => zobj_list.find? (fun cur => cur.name == n)

/-- Embedding of `__zio_object_get`. -/
def __zio_object_get {α : Type} (try_module_get : Nat → Bool) (zdev_owner : Nat)
    (zobj_list : List (zio_object_list_item α)) (name : Option String) :
    Option (zio_object_list_item α) × List zio_event :=
  match __find_by_name zobj_list name with
  | none => (none, [])
  | some list_item =>
    -- if different owner, try to increment its use count
    if zdev_owner ≠ list_item.owner then
      if try_module_get list_item.owner then
        (some list_item, [zio_event.module_get list_item.owner])
      else (none, [])
    else (some list_item, [])

/-- Embedding of `zio_buffer_get`; the error is the value in the `ERR_PTR`. -/
def zio_buffer_get {τ : Type} (env : zio_env τ) (cset : zio_cset τ) (name : Option String) :
    Except Int zio_buffer_type × List zio_event :=
  match name with
  | none => (.error (-EINVAL), [])
  | some n =>
    if n.utf8ByteSize > env.ZIO_OBJ_NAME_LEN then (.error (-EINVAL), [])
    else
      match __zio_object_get env.try_module_get cset.zdev_owner env.all_buffer_types
          (some n) with
      | (none, ev) => (.error (-ENODEV), ev)
      | (some list_item, ev) => (.ok list_item.obj, ev)

/-- Embedding of `zio_buffer_put`. -/
def zio_buffer_put (zbuf : zio_buffer_type) (dev_owner : Nat) : List zio_event :=
  if zbuf.owner ≠ dev_owner then [zio_event.module_put zbuf.owner] else []

/-- Embedding of `__bi_create_and_init`. -/
def __bi_create_and_init {τ : Type} (env : zio_env τ) (zbuf : zio_buffer_type)
    (chan : zio_channel) : Except zio_errno zio_bi × List zio_event :=
  match env.b_create zbuf chan.index with
  | .error e => (.error e, [zio_event.b_create zbuf.b_op chan.index none])
  | .ok bi0 =>
    -- initialize buffer
    let bi : zio_bi :=
      { bi0 with use_count := 0, b_op := zbuf.b_op,
                 flags := bi0.flags ||| (chan.flags &&& ZIO_DIR) }
    -- copy sysfs attribute from buffer type
    match env.zattr_set_copy bi with
    | some err =>
      (.error err, [zio_event.b_create zbuf.b_op chan.index (some bi0.addr),
        zio_event.zattr_set_copy bi.addr, zio_event.b_destroy zbuf.b_op bi.addr])
    | none =>
      (.ok bi, [zio_event.b_create zbuf.b_op chan.index (some bi0.addr),
        zio_event.zattr_set_copy bi.addr])

/-- Embedding of `__bi_destroy`. -/
def __bi_destroy (zbuf : zio_buffer_type) (bi : zio_bi) : List zio_event :=
  [zio_event.b_destroy zbuf.b_op bi.addr, zio_event.zattr_set_free bi.addr]

/-- Embedding of `__bi_register`: the error if any, the instance as the call
leaves it, and the calls made. -/
def __bi_register {τ : Type} (env : zio_env τ) (zbuf : zio_buffer_type) (chan : zio_channel)
    (bi : zio_bi) (name : String) : Option zio_errno × zio_bi × List zio_event :=
  let bi1 : zio_bi := { bi with dev_name := name }
  -- create attributes
  match env.zattr_set_create bi1 with
  | some err => (some err, bi1, [zio_event.zattr_set_create bi.addr])
  | none =>
    -- register buffer instance
    match env.device_register bi1 with
    | some err =>
      (some err, bi1, [zio_event.zattr_set_create bi.addr,
        zio_event.device_register bi.addr, zio_event.zattr_set_remove bi.addr])
    | none =>
      -- add to buffer instance list
      (none, { bi1 with chan := some chan.index },
        [zio_event.zattr_set_create bi.addr, zio_event.device_register bi.addr,
         zio_event.list_add zbuf.b_op bi.addr])

/-- Embedding of `__bi_unregister`. -/
def __bi_unregister (zbuf : zio_buffer_type) (bi : zio_bi) : List zio_event :=
  [zio_event.list_del zbuf.b_op bi.addr, zio_event.device_unregister bi.addr,
   zio_event.zattr_set_remove bi.addr]

/-- Reduction of an integer to the range of a C `int` (two's complement). -/
def wrap_int (x : Int) : Int := (x + 2 ^ 31) % 2 ^ 32 - 2 ^ 31

/-- The first loop of the busy check: mark every instance disabled and add
its `use_count` to `j`. -/
def busy_mark : List zio_channel → Int → List zio_channel × Int
  | [], j => ([], j)
  | chan :: rest, j =>
    let r := busy_mark rest (wrap_int (j + chan.bi.use_count))
    ({ chan with bi := { chan.bi with flags := chan.bi.flags ||| ZIO_DISABLED } } :: r.1, r.2)

/-- The second loop of the busy check: if busy, clear the disabled flag. -/
def busy_clear (j : Int) : List zio_channel → List zio_channel
  | [] => []
  | chan :: rest =>
    (if j ≠ 0 then
      { chan with bi := { chan.bi with
          flags := chan.bi.flags &&& (ULONG_MOD - 1 - ZIO_DISABLED) } }
     else chan) :: busy_clear j rest

/-- Outcome of the loop creating the new instances: the error that stopped it
if any, the entries `bi_vector[0..i-1]` filled before it stopped, and the
calls made. -/
structure create_result where
  err : Option zio_errno
  bi_vector : List zio_bi
  events : List zio_event

/-- The loop "create a new buffer instance for each channel of the cset". -/
def create_instances {τ : Type} (env : zio_env τ) (zbuf : zio_buffer_type) :
    List zio_channel → create_result
  | [] => ⟨none, [], []⟩
  | chan :: rest =>
    match __bi_create_and_init env zbuf chan with
    | (.error e, ev1) => ⟨some e, [], ev1⟩
    | (.ok bi, ev1) =>
      match __bi_register env zbuf chan bi "buffer-tmp" with
      | (some e, bi1, ev2) => ⟨some e, [], ev1 ++ ev2 ++ __bi_destroy zbuf bi1⟩
      | (none, bi1, ev2) =>
        let r := create_instances env zbuf rest
        ⟨r.err, bi1 :: r.bi_vector, ev1 ++ ev2 ++ r.events⟩

/-- The loop at `out_create`: from `j = i - 1` down to `0`, unregister and
destroy `bi_vector[j]`. -/
def unwind_instances (zbuf : zio_buffer_type) (bi_vector : List zio_bi) : List zio_event :=
  bi_vector.reverse.flatMap (fun bi => __bi_unregister zbuf bi ++ __bi_destroy zbuf bi)

/-- The loop replacing the instances: for every channel, delete the old
instance, assign the new one and rename it to "buffer" (a failing rename only
warns). -/
def replace_instances {τ : Type} (env : zio_env τ) (zbuf_old : zio_buffer_type) :
    List zio_channel → List zio_bi → List zio_channel × List zio_event
  | chan :: rest, bi :: bis =>
    let r := replace_instances env zbuf_old rest bis
    let bi1 : zio_bi :=
      match env.device_rename bi "buffer" with
      | none => { bi with dev_name := "buffer" }
      | some _ => bi
    ({ chan with bi := bi1 } :: r.1,
      __bi_unregister zbuf_old chan.bi ++ __bi_destroy zbuf_old chan.bi ++
        [zio_event.device_rename bi.addr "buffer"] ++ r.2)
  | chans, _ => (chans, [])

/-- Embedding of `zio_change_current_buffer`: the `int` result, the channel
set after the call, and the calls made. -/
def zio_change_current_buffer {τ : Type} (env : zio_env τ) (cset : zio_cset τ)
    (name : String) : Int × zio_cset τ × List zio_event :=
  let zbuf_old := cset.zbuf
  if name = cset.zbuf.name then (0, cset, []) -- it is the current buffer
  else
    match zio_buffer_get env cset (some name) with
    | (.error e, ev0) => (e, cset, ev0)
    | (.ok zbuf, ev0) =>
      if env.kzalloc = false then
        (-ENOMEM, cset, ev0 ++ zio_buffer_put zbuf cset.zdev_owner)
      else
        -- if any of the instances are busy, refuse the change
        let marked := busy_mark cset.chan 0
        let j := marked.2
        -- if busy, clear the disabled thing and let it run
        let cset1 : zio_cset τ := { cset with chan := busy_clear j marked.1 }
        if j ≠ 0 then
          (-EBUSY, cset1, ev0 ++ zio_buffer_put zbuf cset.zdev_owner)
        else
          -- create a new buffer instance for each channel of the cset
          let cr := create_instances env zbuf cset1.chan
          match cr.err with
          | some err =>
            (err.toInt, cset1,
              ev0 ++ cr.events ++ unwind_instances zbuf cr.bi_vector ++
                [zio_event.kfree_vector] ++ zio_buffer_put zbuf cset.zdev_owner)
          | none =>
            let q := env.zio_trigger_abort_disable cset1.ti
            let tflags := q.1
            let rep := replace_instances env zbuf_old cset1.chan cr.bi_vector
            let cset2 : zio_cset τ := { cset1 with chan := rep.1, zbuf := zbuf, ti := q.2 }
            -- exit the disabled region: keep it disabled if needed
            let ti1 : zio_ti τ :=
              { q.2 with flags := (q.2.flags &&& (ULONG_MOD - 1 - ZIO_DISABLED)) ||| tflags }
            let cset3 : zio_cset τ := { cset2 with ti := ti1 }
            -- finally, arm the trigger if so needed
            let armed := env.zio_cset_is_self_timed cset3
            (0, { cset3 with ti := if armed then env.zio_arm_trigger ti1 else ti1 },
              ev0 ++ cr.events ++ [zio_event.trigger_abort_disable] ++ rep.2 ++
                [zio_event.kfree_vector] ++ zio_buffer_put zbuf_old cset.zdev_owner ++
                if armed then [zio_event.arm_trigger] else [])

/-- Two registered buffer types, owned by the modules `1` and `2`. -/
def vmalloc_type : zio_buffer_type := ⟨"vmalloc", 1, 1⟩
def kmalloc_type : zio_buffer_type := ⟨"kmalloc", 2, 2⟩

/-- Two registered trigger types, owned by the modules `3` and `4`. -/
def user_trig : zio_trigger_type := ⟨"user", 3, 3⟩
def timer_trig : zio_trigger_type := ⟨"timer", 4, 4⟩

/-- The error `-ENOMEM` as an error code. -/
def enomem : zio_errno := ⟨12, by decide, by decide⟩

/-- A sample environment. Both types are registered; module references are
always granted; the temporary vector is allocated iff `kzalloc`; the plugin
returns for channel `i` a disabled instance at address `200 + i`, except that
`create` fails at channel `create_err`, the attribute copy at channel
`copy_err` and the device registration at channel `reg_err`, each with
`-ENOMEM`. Quiescing returns the status bit and sets the disabled flag. Both
trigger types are registered, and the trigger plugin returns a disabled
instance at address `400`; no call on a timing instance fails. -/
def sample_env (kzalloc : Bool) (create_err copy_err reg_err : Option Nat) : zio_env Unit :=
  { ZIO_OBJ_NAME_LEN := 12
    all_buffer_types := [⟨"kmalloc", 2, kmalloc_type⟩, ⟨"vmalloc", 1, vmalloc_type⟩]
    try_module_get := fun _ => true
    kzalloc := kzalloc
    b_create := fun zbuf i =>
      if create_err = some i then .error enomem
      else .ok ⟨200 + i, ZIO_DISABLED, 0, zbuf.b_op, "", none⟩
    zattr_set_copy := fun bi => if copy_err = some (bi.addr - 200) then some enomem else none
    zattr_set_create := fun _ => none
    device_register := fun bi => if reg_err = some (bi.addr - 200) then some enomem else none
    device_rename := fun _ _ => none
    zio_trigger_abort_disable := fun ti =>
      (ti.flags &&& ZIO_STATUS, { ti with flags := ti.flags ||| ZIO_DISABLED })
    zio_cset_is_self_timed := fun cset => cset.flags &&& 0x100 ≠ 0
    zio_arm_trigger := fun ti => ti
    all_trigger_types := [⟨"timer", 4, timer_trig⟩, ⟨"user", 3, user_trig⟩]
    t_create := fun _ => .ok ⟨400, ⟨ZIO_DISABLED, ()⟩⟩
    ti_zattr_set_copy := fun _ => none
    ti_zattr_set_create := fun _ => none
    ti_device_register := fun _ => none
    ti_device_rename := fun _ _ => none
    ctrl_update_nsamples := fun ti => ti }

/-- A sample input channel set of a device owned by module `0`, bound to
`vmalloc_type`, with two channels whose instances live at the addresses `100`
and `101` and have the use counts `u0` and `u1`; its timing instance, of type
`user_trig`, lives at address `300`. -/
def sample_cset (u0 u1 : Int) : zio_cset Unit :=
  { zdev_owner := 0, zbuf := vmalloc_type, ti := ⟨ZIO_ENABLED, ()⟩, flags := 0, index := 0,
    chan := [⟨0, 0, ⟨100, ZIO_ENABLED, u0, 1, "buffer", some 0⟩⟩,
             ⟨1, 0, ⟨101, ZIO_ENABLED, u1, 1, "buffer", some 1⟩⟩],
    trig := user_trig, ti_addr := 300 }

/-- The instance a call returned, if the call is a successful `create` of the
operation table `b_op`. -/
def zio_event.created (b_op : Nat) : zio_event → Option Nat
  | .b_create b _ (some bi) => if b = b_op then some bi else none
  | _ => none

/-- The instance a call destroyed, if the call is a `destroy`. -/
def zio_event.destroyed : zio_event → Option Nat
  | .b_destroy _ bi => some bi
  | _ => none

/-- Addresses of the instances the operation table `b_op` created, in order. -/
def created_addrs (b_op : Nat) (events : List zio_event) : List Nat :=
  events.filterMap (zio_event.created b_op)

/-- Addresses of the instances handed to a `destroy` operation, in order. -/
def destroyed_addrs (events : List zio_event) : List Nat :=
  events.filterMap zio_event.destroyed

/-! ## Timing swap (`zio_change_current_trigger`) -/

/-- Embedding of `zio_trigger_get`; the error is the value in the `ERR_PTR`. -/
def zio_trigger_get {τ : Type} (env : zio_env τ) (cset : zio_cset τ) (name : Option String) :
    Except Int zio_trigger_type × List zio_event :=
  match name with
  | none => (.error (-EINVAL), [])
  | some n =>
    if n.utf8ByteSize > env.ZIO_OBJ_NAME_LEN then (.error (-EINVAL), [])
    else
      match __zio_object_get env.try_module_get cset.zdev_owner env.all_trigger_types
          (some n) with
      | (none, ev) => (.error (-ENODEV), ev)
      | (some list_item, ev) => (.ok list_item.obj, ev)

/-- Embedding of `zio_trigger_put`. -/
def zio_trigger_put (trig : zio_trigger_type) (dev_owner : Nat) : List zio_event :=
  if trig.owner ≠ dev_owner then [zio_event.module_put trig.owner] else []

/-- Embedding of `__ti_create_and_init`. -/
def __ti_create_and_init {τ : Type} (env : zio_env τ) (trig : zio_trigger_type)
    (cset : zio_cset τ) : Except zio_errno (zio_ti_obj τ) × List zio_event :=
  match env.t_create trig with
  | .error e => (.error e, [zio_event.t_create trig.t_op none])
  | .ok ti0 =>
    -- initialize trigger
    let ti : zio_ti_obj τ :=
      { ti0 with ti := { ti0.ti with flags := ti0.ti.flags ||| (cset.flags &&& ZIO_DIR) } }
    -- copy sysfs attribute from trigger type
    match env.ti_zattr_set_copy ti.addr with
    | some err =>
      (.error err, [zio_event.t_create trig.t_op (some ti0.addr),
        zio_event.zattr_set_copy ti.addr, zio_event.t_destroy trig.t_op ti.addr])
    | none =>
      -- special case: nsamples
      (.ok { ti with ti := env.ctrl_update_nsamples ti.ti },
        [zio_event.t_create trig.t_op (some ti0.addr), zio_event.zattr_set_copy ti.addr,
         zio_event.ctrl_update_nsamples ti.addr])

/-- Embedding of `__ti_destroy`, for the instance at address `ti`. -/
def __ti_destroy (trig : zio_trigger_type) (ti : Nat) : List zio_event :=
  [zio_event.t_destroy trig.t_op ti, zio_event.zattr_set_free ti]

/-- Embedding of `__ti_register`, for the instance at address `ti`: the error
if any and the calls made. -/
def __ti_register {τ : Type} (env : zio_env τ) (trig : zio_trigger_type) (ti : Nat)
    (name : String) : Option zio_errno × List zio_event :=
  -- create attributes
  match env.ti_zattr_set_create ti with
  | some err => (some err, [zio_event.dev_set_name ti name, zio_event.zattr_set_create ti])
  | none =>
    -- register trigger instance
    match env.ti_device_register ti with
    | some err =>
      (some err, [zio_event.dev_set_name ti name, zio_event.zattr_set_create ti,
        zio_event.device_register ti, zio_event.zattr_set_remove ti])
    | none =>
      -- add to trigger instance list
      (none, [zio_event.dev_set_name ti name, zio_event.zattr_set_create ti,
        zio_event.device_register ti, zio_event.list_add trig.t_op ti])

/-- Embedding of `__ti_unregister`, for the instance at address `ti`. -/
def __ti_unregister (trig : zio_trigger_type) (ti : Nat) : List zio_event :=
  [zio_event.list_del trig.t_op ti, zio_event.device_unregister ti,
   zio_event.zattr_set_remove ti]

/-- Embedding of `zio_change_current_trigger`: the `int` result, the channel
set after the call, and the calls made. The old instance is quiesced and then
destroyed, so what the quiesce leaves of it, and the clearing of its `cset`
pointer, are not kept. -/
def zio_change_current_trigger {τ : Type} (env : zio_env τ) (cset : zio_cset τ)
    (name : String) : Int × zio_cset τ × List zio_event :=
  let trig_old := cset.trig
  let ti_old := cset.ti_addr
  if name = trig_old.name then (0, cset, []) -- it is the current trigger
  else
    match zio_trigger_get env cset (some name) with
    | (.error e, ev0) => (e, cset, ev0)
    | (.ok trig, ev0) =>
      -- create and register the new trigger instance
      match __ti_create_and_init env trig cset with
      | (.error err, ev1) =>
        (err.toInt, cset, ev0 ++ ev1 ++ zio_trigger_put trig cset.zdev_owner)
      | (.ok ti, ev1) =>
        match __ti_register env trig ti.addr "trigger-tmp" with
        | (some err, ev2) =>
          (err.toInt, cset,
            ev0 ++ ev1 ++ ev2 ++ __ti_destroy trig ti.addr ++
              zio_trigger_put trig cset.zdev_owner)
        | (none, ev2) =>
          -- ok, we are done. Kill the current trigger to replace it
          let ev3 := [zio_event.trigger_abort_disable] ++ __ti_unregister trig_old ti_old ++
            __ti_destroy trig_old ti_old ++ zio_trigger_put trig_old cset.zdev_owner
          -- set new trigger and rename "trigger-tmp" to "trigger" (a failure only warns)
          let ev4 := [zio_event.device_rename ti.addr "trigger"]
          -- update current control for each channel
          let ev5 := cset.chan.map (fun chan => zio_event.trig_init_ctrl ti.addr chan.index)
          -- enable this new trigger
          let ti1 : zio_ti τ :=
            { ti.ti with flags := ti.ti.flags &&& (ULONG_MOD - 1 - ZIO_DISABLED) }
          let cset1 : zio_cset τ := { cset with trig := trig, ti := ti1, ti_addr := ti.addr }
          -- finally, arm it if so needed
          let armed := env.zio_cset_is_self_timed cset1
          (0, { cset1 with ti := if armed then env.zio_arm_trigger ti1 else ti1 },
            ev0 ++ ev1 ++ ev2 ++ ev3 ++ ev4 ++ ev5 ++
              if armed then [zio_event.arm_trigger] else [])

/-- The timing instance a call returned, if the call is a successful `create`
of a trigger plugin. -/
def zio_event.t_created : zio_event → Option Nat
  | .t_create _ (some ti) => some ti
  | _ => none

/-- The timing instance a call destroyed, if the call is a `destroy` of a
trigger plugin. -/
def zio_event.t_destroyed : zio_event → Option Nat
  | .t_destroy _ ti => some ti
  | _ => none

/-- Addresses of the timing instances created, in order. -/
def ti_created_addrs (events : List zio_event) : List Nat :=
  events.filterMap zio_event.t_created

/-- Addresses of the timing instances destroyed, in order. -/
def ti_destroyed_addrs (events : List zio_event) : List Nat :=
  events.filterMap zio_event.t_destroyed

/-- Whether a call takes an instance off its type's list or unregisters its
device. -/
def zio_event.unregisters : zio_event → Bool
  | .list_del _ _ => true
  | .device_unregister _ => true
  | _ => false

/-- Net change of the reference count of module `m` made by the calls:
`try_module_get` successes minus `module_put` calls. -/
def ref_delta (m : Nat) (events : List zio_event) : Int :=
  (events.count (zio_event.module_get m) : Int) - (events.count (zio_event.module_put m) : Int)

/-- The sample environment with the temporary vector allocated and no failure
on the buffer side, where the trigger plugin's `create` fails if `create_err`,
the attribute copy of the new timing instance fails if `copy_err`, and its
device registration fails if `reg_err`, each with `-ENOMEM`. -/
def sample_trig_env (create_err copy_err reg_err : Bool) : zio_env Unit :=
  { sample_env true none none none with
    t_create := fun _ => if create_err then .error enomem else .ok ⟨400, ⟨ZIO_DISABLED, ()⟩⟩
    ti_zattr_set_copy := fun _ => if copy_err then some enomem else none
    ti_device_register := fun _ => if reg_err then some enomem else none }

/-- What a failed timing swap with error `e` must satisfy: the result `r` of
the call carries `e`, the channel set is the one given, no quiesce was made,
nothing was taken off a list or unregistered, and the timing instances
destroyed are the ones created during the call. -/
def ti_swap_failed_cleanly {τ : Type} (cset : zio_cset τ) (e : Int)
    (r : Int × zio_cset τ × List zio_event) : Prop :=
  r.1 = e ∧ r.2.1 = cset ∧
  zio_event.trigger_abort_disable ∉ r.2.2 ∧
  (∀ ev ∈ r.2.2, zio_event.unregisters ev = false) ∧
  ti_destroyed_addrs r.2.2 = ti_created_addrs r.2.2

/-- Whether a call takes or drops a module reference. -/
def zio_event.is_module : zio_event → Bool
  | .module_get _ => true
  | .module_put _ => true
  | _ => false

/-- What a type owned by module `owner` contributes to the reference count of
module `m` while it is bound to a channel set of a device owned by
`dev_owner`: one reference, unless the device's module owns the type. -/
def owner_gain (dev_owner m owner : Nat) : Int :=
  if owner ≠ dev_owner ∧ m = owner then 1 else 0

/-- The sample channel set where the instance of channel 0 is disabled and
idle and a transfer is in flight on the enabled instance of channel 1. -/
def sample_cset_mixed : zio_cset Unit :=
  { sample_cset 0 0 with
    chan := [⟨0, 0, ⟨100, ZIO_DISABLED, 0, 1, "buffer", some 0⟩⟩,
             ⟨1, 0, ⟨101, ZIO_ENABLED, 1, 1, "buffer", some 1⟩⟩] }

/-- The idle sample channel set, self-timed for `sample_env` (flag `0x100`). -/
def sample_cset_self_timed : zio_cset Unit :=
  { sample_cset 0 0 with flags := 0x100 }

/-- The `ZIO_DISABLED` bit of the buffer instance of every channel, in order. -/
def disabled_bits {τ : Type} (cset : zio_cset τ) : List Nat :=
  cset.chan.map (fun chan => chan.bi.flags &&& ZIO_DISABLED)

/-- Whether a call is one of those made on a buffer instance while it is
created, registered, renamed, unregistered or destroyed. -/
def zio_event.is_instance_call : zio_event → Bool
  | .b_create _ _ _ => true
  | .b_destroy _ _ => true
  | .zattr_set_copy _ => true
  | .zattr_set_free _ => true
  | .zattr_set_create _ => true
  | .zattr_set_remove _ => true
  | .device_register _ => true
  | .device_unregister _ => true
  | .device_rename _ _ => true
  | .list_add _ _ => true
  | .list_del _ _ => true
  | _ => false

/-! ## Type registries (`zio_register_buf`, `zio_register_trig`) -/

/-- The bytes of the UTF-8 form of a character. -/
def utf8_bytes (c : Char) : List Nat :=
  let v := c.toNat
  if v < 0x80 then [v]
  else if v < 0x800 then [0xC0 + v / 0x40, 0x80 + v % 0x40]
  else if v < 0x10000 then [0xE0 + v / 0x1000, 0x80 + v / 0x40 % 0x40, 0x80 + v % 0x40]
  else [0xF0 + v / 0x40000, 0x80 + v / 0x1000 % 0x40, 0x80 + v / 0x40 % 0x40,
    0x80 + v % 0x40]

/-- The C string that a `const char *name` given as a text points to: the
bytes of the text's UTF-8 form up to the first zero byte. A C string is
written as a `String` that holds one character per byte (the character whose
code is the byte), so that its `length` is `strlen` and its `data` are the
bytes; for an ASCII text without a zero this is the text itself. The name in a
head and the name of a list item are C strings in this form. -/
def c_str (name : String) : String :=
  ⟨((name.data.flatMap utf8_bytes).takeWhile (fun b => b ≠ 0)).map Char.ofNat⟩

/-- The C string left in `dst` by `strncpy(dst, src, n)`, for a destination
array that is larger than `n` and holds zeroes after the terminator of its
string: a source of fewer than `n` bytes is copied with its terminator, a
longer one gives its first `n` bytes, followed by what the destination held
from position `n` on. Both are C strings in the form of `c_str`. -/
def strncpy (dst src : String) (n : Nat) : String :=
  if src.length < n then src else ⟨src.data.take n ++ dst.data.drop n⟩

/-- What surrounds a registration: `ZIO_OBJ_NAME_LEN`, from a header that is
not among the sources; whether the `kmalloc` of the list item succeeds;
`item_tail`, the bytes that follow the first `ZIO_OBJ_NAME_LEN` bytes of the
name in the memory of the item `kmalloc` returned, up to the first zero byte
(`kmalloc` does not clear the item, and `strncpy` writes no terminator when
the name has `ZIO_OBJ_NAME_LEN` bytes or more); and the outcome of the helper
`zio_init_buffer_fops`. -/
structure zobj_env where
  ZIO_OBJ_NAME_LEN : Nat
  kmalloc : Bool
  item_tail : String
  zio_init_buffer_fops : zio_buffer_type → Option zio_errno

/-- A `struct zio_buffer_type` as registration sees it: the fields the swap
reads (`type`: the name in the head, the owner, with `0` for `NULL`, and the
operation table), whether `f_op` is set, whether the file operations built by
`zio_init_buffer_fops` are in place, and the instances on `zbuf->list`, by
address. The attribute count and the lock play no part and are left out. -/
structure zio_buffer_descr where
  type : zio_buffer_type
  f_op : Bool
  fops_ready : Bool
  list : List Nat
deriving DecidableEq, Repr

/-- A `struct zio_trigger_type` as registration sees it: the fields the swap
reads, the modes of the `ZIO_ATTR_TRIG_POST_SAMP` and `ZIO_ATTR_TRIG_PRE_SAMP`
standard attributes (`none` when `std_zattr` is `NULL`), and the instances on
`trig->list`, by address. -/
structure zio_trigger_descr where
  type : zio_trigger_type
  std_zattr : Option (Nat × Nat)
  list : List Nat
deriving DecidableEq, Repr

/-- An entry of a list holds the object `obj_head` points to by value, as the
object is now; an object is told by its value. When a registration writes the
name in the head of the object `old`, which makes it `new`, the entries that
point to that object read the new name: this is the list after the write. -/
def zobj_head_written {α : Type} [DecidableEq α] (zlist : List (zio_object_list_item α))
    (old new : α) : List (zio_object_list_item α) :=
  zlist.map (fun item => if item.obj = old then { item with obj := new } else item)

/-- Embedding of `zobj_unique_name`: `-EINVAL`, or the number of entries of the
list whose object bears the name. `head_name` reads `obj_head->name`, the name
the object has now. -/
def zobj_unique_name {α : Type} (head_name : α → String)
    (zobj_list : List (zio_object_list_item α)) (name : Option String) : Int :=
  match name with
  | none => -EINVAL
  | some n =>
    if (c_str n).length = 0 then -EINVAL
    else
      -- a name longer than ZIO_OBJ_NAME_LEN only gets a warning
      ((zobj_list.countP (fun cur => head_name cur.obj == c_str n) : Nat) : Int)

/-- Embedding of `zobj_register`: the result and the list after the call; the
new item goes to the front of the list. `strncpy(item->name, head->name,
ZIO_OBJ_NAME_LEN)` writes into an item that `kmalloc` did not clear: a head
name of fewer than `ZIO_OBJ_NAME_LEN` bytes is copied with its terminator; of
a longer one the first `ZIO_OBJ_NAME_LEN` bytes are copied and no terminator
is written, so that the item's name reads on into `item_tail`. -/
def zobj_register {α : Type} (env : zobj_env) (zlist : List (zio_object_list_item α))
    (head : α) (head_name : String) (owner : Nat) : Int × List (zio_object_list_item α) :=
  if owner = 0 then (-EINVAL, zlist)
  else if env.kmalloc = false then (-ENOMEM, zlist)
  else
    let item_name : String :=
      if head_name.length < env.ZIO_OBJ_NAME_LEN then head_name
      else ⟨head_name.data.take env.ZIO_OBJ_NAME_LEN ++ env.item_tail.data⟩
    (0, ⟨item_name, owner, head⟩ :: zlist)

/-- Embedding of `zobj_unregister`: the first item holding the object is taken
off the list. An object is told by its value. -/
def zobj_unregister {α : Type} [DecidableEq α] (zlist : List (zio_object_list_item α))
    (head : Option α) : List (zio_object_list_item α) :=
  match head with
  | none => zlist
  | some h => zlist.eraseP (fun item => decide (item.obj = h))

/-- Embedding of `zio_register_buf`: the result, the descriptor and the list of
buffer types after the call. -/
def zio_register_buf (env : zobj_env)
    (all_buffer_types : List (zio_object_list_item zio_buffer_type))
    (zbuf : Option zio_buffer_descr) (name : Option String) :
    Int × Option zio_buffer_descr × List (zio_object_list_item zio_buffer_type) :=
  match zbuf with
  | none => (-EINVAL, none, all_buffer_types)
  | some zbuf =>
    if zbuf.f_op = false then (-EINVAL, some zbuf, all_buffer_types)
    else
      -- verify if it is a valid name
      let err := zobj_unique_name (fun z => z.name) all_buffer_types name
      if err ≠ 0 then ((if err < 0 then err else -EBUSY), some zbuf, all_buffer_types)
      else
        match name with
        | none => (-EINVAL, some zbuf, all_buffer_types) -- a NULL name is refused above
        | some n =>
          let zbuf1 : zio_buffer_descr :=
            { zbuf with
              type := { zbuf.type with
                name := strncpy zbuf.type.name (c_str n) env.ZIO_OBJ_NAME_LEN } }
          -- the entries that point to this object read the name now in its head
          let types1 := zobj_head_written all_buffer_types zbuf.type zbuf1.type
          match env.zio_init_buffer_fops zbuf1.type with
          | some e => (e.toInt, some zbuf1, types1)
          | none =>
            let zbuf2 : zio_buffer_descr := { zbuf1 with fops_ready := true }
            let r := zobj_register env types1 zbuf2.type zbuf2.type.name
              zbuf2.type.owner
            if r.1 ≠ 0 then (r.1, some { zbuf2 with fops_ready := false }, r.2)
            else (0, some { zbuf2 with list := [] }, r.2)

/-- Embedding of `zio_unregister_buf`: the descriptor and the list of buffer
types after the call. -/
def zio_unregister_buf (all_buffer_types : List (zio_object_list_item zio_buffer_type))
    (zbuf : Option zio_buffer_descr) :
    Option zio_buffer_descr × List (zio_object_list_item zio_buffer_type) :=
  match zbuf with
  | none => (none, all_buffer_types)
  | some zbuf =>
    (some { zbuf with fops_ready := false }, zobj_unregister all_buffer_types (some zbuf.type))

/-- Embedding of `zio_register_trig`: the result, the descriptor and the list
of trigger types after the call. -/
def zio_register_trig (env : zobj_env)
    (all_trigger_types : List (zio_object_list_item zio_trigger_type))
    (trig : Option zio_trigger_descr) (name : Option String) :
    Int × Option zio_trigger_descr × List (zio_object_list_item zio_trigger_type) :=
  match trig with
  | none => (-EINVAL, none, all_trigger_types)
  | some trig =>
    match trig.std_zattr with
    | none => (-EINVAL, some trig, all_trigger_types)
    | some (post_samp, pre_samp) =>
      -- the trigger must define how many samples to acquire
      if post_samp = 0 ∧ pre_samp = 0 then (-EINVAL, some trig, all_trigger_types)
      else
        -- verify if it is a valid name
        let err := zobj_unique_name (fun t => t.name) all_trigger_types name
        if err ≠ 0 then ((if err < 0 then err else -EBUSY), some trig, all_trigger_types)
        else
          match name with
          | none => (-EINVAL, some trig, all_trigger_types) -- a NULL name is refused above
          | some n =>
            let trig1 : zio_trigger_descr :=
              { trig with
                type := { trig.type with
                  name := strncpy trig.type.name (c_str n) env.ZIO_OBJ_NAME_LEN } }
            -- the entries that point to this object read the name now in its head
            let types1 := zobj_head_written all_trigger_types trig.type trig1.type
            let r := zobj_register env types1 trig1.type trig1.type.name
              trig1.type.owner
            if r.1 ≠ 0 then (r.1, some trig1, r.2)
            else (0, some { trig1 with list := [] }, r.2)

/-- Embedding of `zio_unregister_trig`: the list of trigger types after the
call. -/
def zio_unregister_trig (all_trigger_types : List (zio_object_list_item zio_trigger_type))
    (trig : Option zio_trigger_descr) : List (zio_object_list_item zio_trigger_type) :=
  match trig with
  | none => all_trigger_types
  | some trig => zobj_unregister all_trigger_types (some trig.type)

/-- A registration environment where nothing fails, with names of up to 12
bytes, and where the byte that follows the name in a new item is zero. -/
def sample_zobj_env : zobj_env :=
  { ZIO_OBJ_NAME_LEN := 12, kmalloc := true, item_tail := "",
    zio_init_buffer_fops := fun _ => none }

/-- A fresh buffer type of module `owner` with the operation table `b_op`: no
name in its head yet, file operations given, no instance. -/
def fresh_buffer (owner b_op : Nat) : zio_buffer_descr :=
  { type := ⟨"", owner, b_op⟩, f_op := true, fops_ready := false, list := [] }

/-- A fresh trigger type of module `owner` with the operation table `t_op`,
with a post-sample attribute. -/
def fresh_trigger (owner t_op : Nat) : zio_trigger_descr :=
  { type := ⟨"", owner, t_op⟩, std_zattr := some (0o644, 0), list := [] }

/-- Register one buffer type again and again, under the names given, each
call taking the descriptor and the registry as the call before left them: the
results of the calls, and the registry at the end. -/
def register_again (env : zobj_env) :
    List (zio_object_list_item zio_buffer_type) → Option zio_buffer_descr → List String →
    List Int × List (zio_object_list_item zio_buffer_type)
  | types, _, [] => ([], types)
  | types, zbuf, n :: ns =>
    let r := zio_register_buf env types zbuf (some n)
    let rest := register_again env r.2.2 r.2.1 ns
    (r.1 :: rest.1, rest.2)

/-- The names of the entries of a registry, in order. -/
def registry_names {α : Type} (zobj_list : List (zio_object_list_item α)) : List String :=
  zobj_list.map (fun item => item.name)

/-- The buffer type `vmalloc_type` as its module holds it while the two
instances of the sample channel set are on its list. -/
def vmalloc_in_use : zio_buffer_descr :=
  { type := vmalloc_type, f_op := true, fops_ready := true, list := [100, 101] }

/-- The trigger type `user_trig` as its module holds it while the timing
instance of the sample channel set is on its list. -/
def user_trig_in_use : zio_trigger_descr :=
  { type := user_trig, std_zattr := some (0o644, 0), list := [300] }

/-! ## Construction of a channel set (`cset_register`) -/

def ZIO_CSET_CHAN_TEMPLATE : Nat := 0x80

/-- The function `zio_buffer_get` on what it reads of the channel set, the
owner of its device. -/
def zio_buffer_get_for {τ : Type} (env : zio_env τ) (zdev_owner : Nat)
    (name : Option String) : Except Int zio_buffer_type × List zio_event :=
  match name with
  | none => (.error (-EINVAL), [])
  | some n =>
    if n.utf8ByteSize > env.ZIO_OBJ_NAME_LEN then (.error (-EINVAL), [])
    else
      match __zio_object_get env.try_module_get zdev_owner env.all_buffer_types (some n) with
      | (none, ev) => (.error (-ENODEV), ev)
      | (some list_item, ev) => (.ok list_item.obj, ev)

/-- The function `zio_trigger_get` on what it reads of the channel set, the
owner of its device. -/
def zio_trigger_get_for {τ : Type} (env : zio_env τ) (zdev_owner : Nat)
    (name : Option String) : Except Int zio_trigger_type × List zio_event :=
  match name with
  | none => (.error (-EINVAL), [])
  | some n =>
    if n.utf8ByteSize > env.ZIO_OBJ_NAME_LEN then (.error (-EINVAL), [])
    else
      match __zio_object_get env.try_module_get zdev_owner env.all_trigger_types (some n) with
      | (none, ev) => (.error (-ENODEV), ev)
      | (some list_item, ev) => (.ok list_item.obj, ev)

/-- The function `__ti_create_and_init` on what it reads of the channel set,
its flags. -/
def __ti_create_and_init_for {τ : Type} (env : zio_env τ) (trig : zio_trigger_type)
    (cset_flags : Nat) : Except zio_errno (zio_ti_obj τ) × List zio_event :=
  match env.t_create trig with
  | .error e => (.error e, [zio_event.t_create trig.t_op none])
  | .ok ti0 =>
    let ti : zio_ti_obj τ :=
      { ti0 with ti := { ti0.ti with flags := ti0.ti.flags ||| (cset_flags &&& ZIO_DIR) } }
    match env.ti_zattr_set_copy ti.addr with
    | some err =>
      (.error err, [zio_event.t_create trig.t_op (some ti0.addr),
        zio_event.zattr_set_copy ti.addr, zio_event.t_destroy trig.t_op ti.addr])
    | none =>
      (.ok { ti with ti := env.ctrl_update_nsamples ti.ti },
        [zio_event.t_create trig.t_op (some ti0.addr), zio_event.zattr_set_copy ti.addr,
         zio_event.ctrl_update_nsamples ti.addr])

/-- The function `__bi_create_and_init` on what it reads of the channel, its
index and its flags. -/
def __bi_create_and_init_for {τ : Type} (env : zio_env τ) (zbuf : zio_buffer_type)
    (index flags : Nat) : Except zio_errno zio_bi × List zio_event :=
  match env.b_create zbuf index with
  | .error e => (.error e, [zio_event.b_create zbuf.b_op index none])
  | .ok bi0 =>
    let bi : zio_bi :=
      { bi0 with use_count := 0, b_op := zbuf.b_op,
                 flags := bi0.flags ||| (flags &&& ZIO_DIR) }
    match env.zattr_set_copy bi with
    | some err =>
      (.error err, [zio_event.b_create zbuf.b_op index (some bi0.addr),
        zio_event.zattr_set_copy bi.addr, zio_event.b_destroy zbuf.b_op bi.addr])
    | none =>
      (.ok bi, [zio_event.b_create zbuf.b_op index (some bi0.addr),
        zio_event.zattr_set_copy bi.addr])

/-- The function `__bi_register` on what it reads of the channel, its index. -/
def __bi_register_for {τ : Type} (env : zio_env τ) (zbuf : zio_buffer_type) (index : Nat)
    (bi : zio_bi) (name : String) : Option zio_errno × zio_bi × List zio_event :=
  let bi1 : zio_bi := { bi with dev_name := name }
  match env.zattr_set_create bi1 with
  | some err => (some err, bi1, [zio_event.zattr_set_create bi.addr])
  | none =>
    match env.device_register bi1 with
    | some err =>
      (some err, bi1, [zio_event.zattr_set_create bi.addr,
        zio_event.device_register bi.addr, zio_event.zattr_set_remove bi.addr])
    | none =>
      (none, { bi1 with chan := some index },
        [zio_event.zattr_set_create bi.addr, zio_event.device_register bi.addr,
         zio_event.list_add zbuf.b_op bi.addr])

/-- A `struct zio_cset` as `cset_register` receives it, with its device: the
pointers `zbuf` and `trig` may be `NULL` (`none`), and so may the default and
preferred names and the channel template, of which the flags are kept; `init`
tells whether the private initialization function is set. -/
structure zio_cset_new where
  zdev_owner : Nat
  index : Nat
  flags : Nat
  n_chan : Nat
  zbuf : Option zio_buffer_type
  trig : Option zio_trigger_type
  default_zbuf : Option String
  default_trig : Option String
  preferred_buffer : Option String
  preferred_trigger : Option String
  chan_template : Option Nat
  init : Bool

/-- What surrounds a call of `cset_register`: the surroundings `zio` of the
calls it shares with the swaps; the constants `ZIO_DEFAULT_BUFFER`,
`ZIO_DEFAULT_TRIGGER` and `ZIO_HAS_BINARY_CONTROL`, from headers that are not
among the sources; whether the template has channels (`cset_t->chan`); and the
outcome of every other call that leaves `objects.c`, those on a channel being
told apart by its index. A failing call yields its error code;
`zio_minorbase_get` yields its `int`; `kzalloc_chan` and `zio_alloc_control`
tell whether the allocation succeeds. -/
structure cset_env (τ : Type) where
  zio : zio_env τ
  ZIO_DEFAULT_BUFFER : String
  ZIO_DEFAULT_TRIGGER : String
  ZIO_HAS_BINARY_CONTROL : Bool
  cset_t_chan : Bool
  zio_minorbase_get : Int
  cset_zattr_set_copy : Option zio_errno
  cset_zattr_set_create : Option zio_errno
  cset_check_dev_zattr : Option zio_errno
  cset_device_register : Option zio_errno
  kzalloc_chan : Bool
  chan_zattr_set_copy : Nat → Option zio_errno
  chan_zattr_set_create : Nat → Option zio_errno
  chan_check_cset_zattr : Nat → Option zio_errno
  chan_check_zdev_zattr : Nat → Option zio_errno
  zio_alloc_control : Nat → Bool
  chan_device_register : Nat → Option zio_errno
  sysfs_create_bin_file : Nat → Option zio_errno
  zio_create_chan_devices : Nat → Option zio_errno
  cset_init : Option zio_errno

/-- The calls leaving `objects.c` that `cset_register` makes, in order: the
ones it shares with the swaps (`call`), the ones on the channel set itself,
and the ones on the channel of a given index. -/
inductive cset_event where
  | call (e : zio_event)
  | zio_minorbase_get
  | zio_minorbase_put
  | cset_zattr_set_copy
  | cset_zattr_set_free
  | cset_zattr_set_create
  | cset_zattr_set_remove
  | cset_check_dev_zattr
  | cset_device_register
  | cset_device_unregister
  | kzalloc_chan
  | kfree_chan
  | chan_zattr_set_copy (chan : Nat)
  | chan_zattr_set_free (chan : Nat)
  | chan_zattr_set_create (chan : Nat)
  | chan_zattr_set_remove (chan : Nat)
  | chan_check_dev_zattr (chan : Nat)
  | zio_alloc_control (chan : Nat)
  | zio_free_control (chan : Nat)
  | chan_device_register (chan : Nat)
  | chan_device_unregister (chan : Nat)
  | sysfs_create_bin_file (chan : Nat)
  | sysfs_remove_bin_file (chan : Nat)
  | zio_create_chan_devices (chan : Nat)
  | zio_destroy_chan_devices (chan : Nat)
  | cset_init
  | list_add_cset
deriving DecidableEq, Repr

/-- Embedding of `cset_set_buffer`: the type found, or the error. -/
def cset_set_buffer {τ : Type} (env : cset_env τ) (cset : zio_cset_new) :
    Except Int zio_buffer_type × List zio_event :=
  if cset.zbuf.isSome then (.error (-EINVAL), [])
  else
    let name0 : Option String := none
    -- cset default
    let name1 := if cset.default_zbuf.isSome then cset.default_zbuf else name0
    -- preferred device buffer
    let name := if cset.preferred_buffer.isSome then cset.preferred_buffer else name1
    match zio_buffer_get_for env.zio cset.zdev_owner name with
    | (.ok zbuf, ev) => (.ok zbuf, ev)
    | (.error _, ev) =>
      match zio_buffer_get_for env.zio cset.zdev_owner (some env.ZIO_DEFAULT_BUFFER) with
      | (.ok zbuf, ev1) => (.ok zbuf, ev ++ ev1)
      | (.error e, ev1) => (.error e, ev ++ ev1)

/-- Embedding of `cset_set_trigger`: the type found, or the error. -/
def cset_set_trigger {τ : Type} (env : cset_env τ) (cset : zio_cset_new) :
    Except Int zio_trigger_type × List zio_event :=
  if cset.trig.isSome then (.error (-EINVAL), [])
  else
    let name0 : Option String := none
    -- cset default
    let name1 := if cset.default_trig.isSome then cset.default_trig else name0
    -- preferred device trigger
    let name := if cset.preferred_trigger.isSome then cset.preferred_trigger else name1
    match zio_trigger_get_for env.zio cset.zdev_owner name with
    | (.ok trig, ev) => (.ok trig, ev)
    | (.error _, ev) =>
      match zio_trigger_get_for env.zio cset.zdev_owner (some env.ZIO_DEFAULT_TRIGGER) with
      | (.ok trig, ev1) => (.ok trig, ev ++ ev1)
      | (.error e, ev1) => (.error e, ev ++ ev1)

/-- Embedding of `chan_register` for the channel of index `index`, whose flags
are `flags`; `chan_t` holds the flags of the channel template, if there is
one. The result is the error, or the channel with its buffer instance. The
current control only shows by its allocation and release. -/
def chan_register {τ : Type} (env : cset_env τ) (zbuf : zio_buffer_type) (index flags : Nat)
    (chan_t : Option Nat) : Except zio_errno zio_channel × List cset_event :=
  let chan_flags : Nat :=
    match chan_t with
    | some f => flags ||| f
    | none => flags
  let out_zattr_create : List cset_event :=
    if chan_t.isSome then [cset_event.chan_zattr_set_free index] else []
  let out_zattr_check : List cset_event :=
    cset_event.chan_zattr_set_remove index :: out_zattr_create
  let out_ctrl_bits : List cset_event := cset_event.zio_free_control index :: out_zattr_check
  let out_bin_attr : List cset_event :=
    cset_event.chan_device_unregister index :: out_ctrl_bits
  let out_buf_create : List cset_event :=
    (if env.ZIO_HAS_BINARY_CONTROL then [cset_event.sysfs_remove_bin_file index] else []) ++
      out_bin_attr
  -- copy from template, initialize and verify zio attributes
  let ev0 : List cset_event :=
    if chan_t.isSome then [cset_event.chan_zattr_set_copy index] else []
  match (if chan_t.isSome then env.chan_zattr_set_copy index else none) with
  | some e => (.error e, ev0)
  | none =>
    let ev1 := ev0 ++ [cset_event.chan_zattr_set_create index]
    match env.chan_zattr_set_create index with
    | some e => (.error e, ev1 ++ out_zattr_create)
    | none =>
      -- check attribute hierarchy
      let ev2 := ev1 ++ [cset_event.chan_check_dev_zattr index]
      match env.chan_check_cset_zattr index with
      | some e => (.error e, ev2 ++ out_zattr_check)
      | none =>
        let ev3 := ev2 ++ [cset_event.chan_check_dev_zattr index]
        match env.chan_check_zdev_zattr index with
        | some e => (.error e, ev3 ++ out_zattr_check)
        | none =>
          -- allocate, initialize and assign a current control for channel
          let ev4 := ev3 ++ [cset_event.zio_alloc_control index]
          if env.zio_alloc_control index = false then (.error enomem, ev4 ++ out_zattr_check)
          else
            -- initialize and register channel device
            let ev5 := ev4 ++ [cset_event.chan_device_register index]
            match env.chan_device_register index with
            | some e => (.error e, ev5 ++ out_ctrl_bits)
            | none =>
              let ev6 := ev5 ++
                (if env.ZIO_HAS_BINARY_CONTROL then [cset_event.sysfs_create_bin_file index]
                 else [])
              match (if env.ZIO_HAS_BINARY_CONTROL then env.sysfs_create_bin_file index
                     else none) with
              | some e => (.error e, ev6 ++ out_bin_attr)
              | none =>
                -- create buffer
                match __bi_create_and_init_for env.zio zbuf index chan_flags with
                | (.error e, evc) =>
                  (.error e, ev6 ++ evc.map cset_event.call ++ out_buf_create)
                | (.ok bi, evc) =>
                  match __bi_register_for env.zio zbuf index bi "buffer" with
                  | (some e, bi1, evr) =>
                    (.error e, ev6 ++ (evc ++ evr ++ __bi_destroy zbuf bi1).map cset_event.call
                      ++ out_buf_create)
                  | (none, bi1, evr) =>
                    -- assign the buffer instance to this channel, create char devices
                    let ev7 := ev6 ++ (evc ++ evr).map cset_event.call ++
                      [cset_event.zio_create_chan_devices index]
                    match env.zio_create_chan_devices index with
                    | some e =>
                      (.error e, ev7 ++
                        (__bi_unregister zbuf bi1 ++ __bi_destroy zbuf bi1).map cset_event.call
                        ++ out_buf_create)
                    | none => (.ok ⟨index, chan_flags, bi1⟩, ev7)

/-- Embedding of `chan_unregister`, for a channel of a set with the flags
`cset_flags`. -/
def chan_unregister {τ : Type} (env : cset_env τ) (zbuf : zio_buffer_type) (cset_flags : Nat)
    (chan : zio_channel) : List cset_event :=
  [cset_event.zio_destroy_chan_devices chan.index] ++
    (__bi_unregister zbuf chan.bi ++ __bi_destroy zbuf chan.bi).map cset_event.call ++
    (if env.ZIO_HAS_BINARY_CONTROL then [cset_event.sysfs_remove_bin_file chan.index]
     else []) ++
    [cset_event.chan_device_unregister chan.index, cset_event.zio_free_control chan.index,
     cset_event.chan_zattr_set_remove chan.index] ++
    (if cset_flags &&& ZIO_CSET_CHAN_TEMPLATE ≠ 0
     then [cset_event.chan_zattr_set_free chan.index] else [])

/-- The loop "register all child channels", from channel `i` on, with `n`
channels left: the error that stopped it if any, the channels registered, and
the calls made. The vector comes zeroed from `kzalloc`, so a channel starts
with the direction bit of the set as its flags; its template is the channel
template of the set, or else, when the template of the set has channels, the
channel itself. -/
def register_channels {τ : Type} (env : cset_env τ) (zbuf : zio_buffer_type)
    (cset : zio_cset_new) : Nat → Nat → Option zio_errno × List zio_channel × List cset_event
  | _, 0 => (none, [], [])
  | i, n + 1 =>
    let flags := cset.flags &&& ZIO_DIR
    let chan_tmp : Option Nat :=
      match cset.chan_template with
      | some f => some f
      | none => if env.cset_t_chan then some flags else none
    match chan_register env zbuf i flags chan_tmp with
    | (.error e, ev) => (some e, [], ev)
    | (.ok chan, ev) =>
      let r := register_channels env zbuf cset (i + 1) n
      (r.1, chan :: r.2.1, ev ++ r.2.2)

/-- Embedding of `cset_register`. The result is `none` when the call
dereferences a `NULL` pointer (it does not return); otherwise it holds the
`int` returned, the channel set as the swaps see it when it has been built and
left registered (`none` when everything was undone), and the calls made. -/
def cset_register {τ : Type} (env : cset_env τ) (cset : zio_cset_new) :
    Option (Int × Option (zio_cset τ) × List cset_event) :=
  let out_zattr_copy : List cset_event := [cset_event.zio_minorbase_put]
  let out_zattr_create : List cset_event := cset_event.cset_zattr_set_free :: out_zattr_copy
  let out_zattr_check : List cset_event := cset_event.cset_zattr_set_remove :: out_zattr_create
  let out_buf : List cset_event := cset_event.cset_device_unregister :: out_zattr_check
  -- get an available minor base
  if env.zio_minorbase_get < 0 then
    some (env.zio_minorbase_get, none, [cset_event.zio_minorbase_get])
  else
    -- copy from template, initialize and verify zio attributes
    match env.cset_zattr_set_copy with
    | some e =>
      some (e.toInt, none,
        [cset_event.zio_minorbase_get, cset_event.cset_zattr_set_copy] ++ out_zattr_copy)
    | none =>
      match env.cset_zattr_set_create with
      | some e =>
        some (e.toInt, none,
          [cset_event.zio_minorbase_get, cset_event.cset_zattr_set_copy,
           cset_event.cset_zattr_set_create] ++ out_zattr_create)
      | none =>
        match env.cset_check_dev_zattr with
        | some e =>
          some (e.toInt, none,
            [cset_event.zio_minorbase_get, cset_event.cset_zattr_set_copy,
             cset_event.cset_zattr_set_create, cset_event.cset_check_dev_zattr]
              ++ out_zattr_check)
        | none =>
          -- initialize and register zio device
          let ev_a : List cset_event :=
            [cset_event.zio_minorbase_get, cset_event.cset_zattr_set_copy,
             cset_event.cset_zattr_set_create, cset_event.cset_check_dev_zattr,
             cset_event.cset_device_register]
          match env.cset_device_register with
          | some e => some (e.toInt, none, ev_a ++ out_zattr_check)
          | none =>
            -- the cset must have a buffer type
            match cset_set_buffer env cset with
            | (.error e, evb) => some (e, none, ev_a ++ evb.map cset_event.call ++ out_buf)
            | (.ok zbuf, evb) =>
              let out_trig (trig : zio_trigger_type) : List cset_event :=
                (zio_trigger_put trig cset.zdev_owner ++
                  zio_buffer_put zbuf cset.zdev_owner).map cset_event.call ++ out_buf
              -- the cset must have a trigger type
              match cset_set_trigger env cset with
              | (.error e, evt) =>
                -- out_trig reads `cset->trig->owner`, and `cset->trig` is as on entry
                match cset.trig with
                | none => none
                | some trig =>
                  some (e, none, ev_a ++ (evb ++ evt).map cset_event.call ++ out_trig trig)
              | (.ok trig, evt) =>
                match __ti_create_and_init_for env.zio trig cset.flags with
                | (.error e, evc) =>
                  some (e.toInt, none,
                    ev_a ++ (evb ++ evt ++ evc).map cset_event.call ++ out_trig trig)
                | (.ok ti, evc) =>
                  match __ti_register env.zio trig ti.addr "trigger" with
                  | (some e, evr) =>
                    some (e.toInt, none,
                      ev_a ++ (evb ++ evt ++ evc ++ evr ++
                        __ti_destroy trig ti.addr).map cset_event.call ++ out_trig trig)
                  | (none, evr) =>
                    let ev_b : List cset_event :=
                      ev_a ++ (evb ++ evt ++ evc ++ evr).map cset_event.call ++
                        [cset_event.kzalloc_chan]
                    let out_n_chan : List cset_event :=
                      (__ti_unregister trig ti.addr ++
                        __ti_destroy trig ti.addr).map cset_event.call ++ out_trig trig
                    -- allocate a new vector of channels for the new zio cset instance
                    if env.kzalloc_chan = false then
                      -- `err` still holds the 0 that `__ti_register` returned
                      some (0, none, ev_b ++ out_n_chan)
                    else
                      let flags1 : Nat :=
                        if cset.chan_template.isSome ∨ env.cset_t_chan = true
                        then cset.flags ||| ZIO_CSET_CHAN_TEMPLATE else cset.flags
                      -- register all child channels
                      let rc := register_channels env zbuf { cset with flags := flags1 } 0
                        cset.n_chan
                      let out_reg : List cset_event :=
                        rc.2.1.reverse.flatMap (chan_unregister env zbuf flags1) ++
                          [cset_event.kfree_chan] ++ out_n_chan
                      match rc.1 with
                      | some e => some (e.toInt, none, ev_b ++ rc.2.2 ++ out_reg)
                      | none =>
                        -- private initialization function
                        match (if cset.init then env.cset_init else none) with
                        | some e =>
                          some (e.toInt, none,
                            ev_b ++ rc.2.2 ++ [cset_event.cset_init] ++ out_reg)
                        | none =>
                          let ev_c : List cset_event :=
                            ev_b ++ rc.2.2 ++
                              (if cset.init then [cset_event.cset_init] else []) ++
                              [cset_event.list_add_cset]
                          -- finally, enable the trigger and arm it if needed
                          let ti1 : zio_ti τ :=
                            { ti.ti with
                              flags := ti.ti.flags &&& (ULONG_MOD - 1 - ZIO_DISABLED) }
                          let built : zio_cset τ :=
                            { zdev_owner := cset.zdev_owner, zbuf := zbuf, ti := ti1,
                              flags := flags1, index := cset.index, chan := rc.2.1,
                              trig := trig, ti_addr := ti.addr }
                          let armed := env.zio.zio_cset_is_self_timed built
                          some (0,
                            some { built with
                              ti := if armed then env.zio.zio_arm_trigger ti1 else ti1 },
                            ev_c ++
                              if armed then [cset_event.call zio_event.arm_trigger] else [])

/-- A sample environment for `cset_register`, on top of the sample
environment of the swaps: the default buffer is "kmalloc" and the default
trigger "user", there is no binary control and no channel in the template;
the vector of channels is allocated iff `kzalloc_chan`, and the current
control of the channel `ctrl_err` cannot be allocated; nothing else fails. -/
def sample_cset_env (kzalloc_chan : Bool) (ctrl_err : Option Nat) : cset_env Unit :=
  { zio := sample_env true none none none
    ZIO_DEFAULT_BUFFER := "kmalloc"
    ZIO_DEFAULT_TRIGGER := "user"
    ZIO_HAS_BINARY_CONTROL := false
    cset_t_chan := false
    zio_minorbase_get := 0
    cset_zattr_set_copy := none
    cset_zattr_set_create := none
    cset_check_dev_zattr := none
    cset_device_register := none
    kzalloc_chan := kzalloc_chan
    chan_zattr_set_copy := fun _ => none
    chan_zattr_set_create := fun _ => none
    chan_check_cset_zattr := fun _ => none
    chan_check_zdev_zattr := fun _ => none
    zio_alloc_control := fun i => decide (ctrl_err ≠ some i)
    chan_device_register := fun _ => none
    sysfs_create_bin_file := fun _ => none
    zio_create_chan_devices := fun _ => none
    cset_init := none }

/-- A channel set of two input channels to register, of a device owned by
module `0`, with no type chosen and no default or preferred name. -/
def sample_cset_new : zio_cset_new :=
  { zdev_owner := 0, index := 0, flags := 0, n_chan := 2, zbuf := none, trig := none,
    default_zbuf := none, default_trig := none, preferred_buffer := none,
    preferred_trigger := none, chan_template := none, init := false }

/-! ## Ring allocator: outstanding allocations and region bounds -/

/-- Whether the byte ranges `[off, off + len)` of two allocations share a
byte. -/
def ranges_overlap (a b : Nat × Nat) : Bool :=
  decide (a.1 < b.1 + b.2) && decide (b.1 < a.1 + a.2)

/-- Whether, along a run of client steps, no sum `head + len` computed by an
allocation exceeds the machine word. -/
def ring_no_overflow : zbk_ring × List (Nat × Nat) → List ring_op → Bool
  | _, [] => true
  | st, op :: ops =>
    (match op with
      | .alloc len => decide (st.1.head + len < ULONG_MOD)
      | .free => true) &&
    (match ring_step st op with
      | none => true
      | some st' => ring_no_overflow st' ops)

/-- The outstanding allocations `pending` (oldest first) lie in a region of
`size` bytes and follow one another: each one starts at offset `0` or where
the one before it ends, the first one at `0` or at `tail`, and the last one
ends at `head` (with nothing outstanding, `tail` is `head`). -/
def ring_chain (size : Nat) : Nat → List (Nat × Nat) → Nat → Prop
  | tail, [], head => tail = head
  | tail, (off, len) :: rest, head =>
    (off = 0 ∨ off = tail) ∧ off + len ≤ size ∧ ring_chain size (off + len) rest head

/-! ## Blocks of the vmalloc buffer (`zbk_alloc_block`, `zbk_free_block`, `zbk_destroy`) -/

/-- The value of an `unsigned long` read as a `long` (two's complement). -/
def to_long (x : Nat) : Int :=
  if x % ULONG_MOD < 2 ^ 63 then ((x % ULONG_MOD : Nat) : Int)
  else ((x % ULONG_MOD : Nat) : Int) - 2 ^ 64

/-- The `long` that the C function `zbk_alloc_data` returns: `-1` at the
`out_oom` exit, and `res`, the `unsigned long` offset stored in a `long`, at
the `out` exit. -/
def zbk_alloc_data_ret : Option Nat → Int
  | none => -1
  | some res => to_long res

/-- The calls leaving the file that the block operations and `zbk_destroy`
make. An item is told by its address when `zbk_alloc_block` gives it back
(`none` is `NULL`), and by its block once it holds one. -/
inductive zbk_mem_event where
  | kmem_cache_free_item (item : Option Nat)
  | zio_free_control (ctrl : Nat)
  | kmem_cache_free (block : zio_block)
  | vfree (data : Nat)
  | kfree
deriving DecidableEq, Repr

/-- Embedding of `zbk_alloc_block`. `item` is what `kmem_cache_alloc`
returned (`none` is `NULL`) and `ctrl` the address of the control. The result
is the error in the `ERR_PTR`, or the block with the value stored in
`ctrl->mem_offset`; then the instance after the call and the calls made. The
data pointer stays within the address space. -/
def zbk_alloc_block {τ : Type} (bi : zbk_instance τ) (item : Option Nat) (ctrl : Nat)
    (datalen : Nat) : Except Int (zio_block × Nat) × zbk_instance τ × List zbk_mem_event :=
  -- alloc item and data
  let r := zbk_alloc_data bi.ring datalen
  let offset : Int := zbk_alloc_data_ret r.1
  let bi1 : zbk_instance τ := { bi with ring := r.2 }
  if item.isNone ∨ offset < 0 then
    (.error (-ENOMEM), bi1, [zbk_mem_event.kmem_cache_free_item item])
  else
    (.ok (⟨ctrl, bi.data + offset.toNat, datalen, 0⟩, offset.toNat), bi1, [])

/-- Embedding of `zbk_free_block`; `mem_offset` reads `ctrl->mem_offset` of the
control at an address. The result is `none` when the block has no control:
the call reads `mem_offset` through the `NULL` pointer. -/
def zbk_free_block {τ : Type} (mem_offset : Nat → Nat) (bi : zbk_instance τ)
    (block : zio_block) : Option (zbk_instance τ × List zbk_mem_event) :=
  let ctrl := zio_get_ctrl block
  if ctrl = 0 then none
  else
    some ({ bi with ring := zbk_free_data bi.ring (mem_offset ctrl) block.datalen },
      [zbk_mem_event.zio_free_control ctrl, zbk_mem_event.kmem_cache_free block])

/-- The loop of `zbk_destroy` over the items of the list. -/
def zbk_destroy_loop {τ : Type} (mem_offset : Nat → Nat) (bi : zbk_instance τ) :
    List zio_block → Option (zbk_instance τ × List zbk_mem_event)
  | [] => some (bi, [])
  | block :: rest =>
    match zbk_free_block mem_offset bi block with
    | none => none
    | some (bi1, ev) =>
      match zbk_destroy_loop mem_offset bi1 rest with
      | none => none
      | some (bi2, ev2) => some (bi2, ev ++ ev2)

/-- Embedding of `zbk_destroy`: the calls made, in order. -/
def zbk_destroy {τ : Type} (mem_offset : Nat → Nat) (bi : zbk_instance τ) :
    Option (List zbk_mem_event) :=
  match zbk_destroy_loop mem_offset bi bi.list with
  | none => none
  | some (bi1, ev) => some (ev ++ [zbk_mem_event.vfree bi1.data, zbk_mem_event.kfree])

/-- The calls of one `zbk_free_block` on every block of a list, in order. -/
def free_block_calls (blocks : List zio_block) : List zbk_mem_event :=
  blocks.flatMap (fun b =>
    [zbk_mem_event.zio_free_control (zio_get_ctrl b), zbk_mem_event.kmem_cache_free b])

/-- The blocks whose item a trace gives back, in order. -/
def freed_blocks (events : List zbk_mem_event) : List zio_block :=
  events.filterMap (fun e =>
    match e with
    | .kmem_cache_free b => some b
    | _ => none)

/-! ## Creation of a vmalloc instance (`zbk_create`) -/

/-- A `struct zbk_instance` as `zbk_create` builds it: its `zio_bi`, the
allocator fields, the item list and the base address of the region. -/
structure zbk_created where
  bi : zio_bi
  ring : zbk_ring
  list : List zio_block
  data : Nat
deriving DecidableEq, Repr

/-- Embedding of `zbk_create`. `kzalloc` and `vmalloc` are the addresses the
allocations return (`none` is `NULL`); `size` is the value the code computes
from the `ZATTR_ZBUF_MAXKB` attribute. `kzalloc` zeroes the instance. -/
def zbk_create (kzalloc vmalloc : Option Nat) (size : Nat) : Except zio_errno zbk_created :=
  match kzalloc with
  | none => .error enomem
  | some zbki =>
    match vmalloc with
    | none => .error enomem
    | some data =>
      -- all the fields of zio_bi are initialized by the caller
      .ok { bi := ⟨zbki, 0, 0, 0, "", none⟩, ring := ⟨size, 0, 0⟩, list := [], data := data }

/-- The surroundings `env` with `zbk_create` as the `create` operation of the
buffer type. -/
def with_zbk_create {τ : Type} (env : zio_env τ) (kzalloc vmalloc : Option Nat)
    (size : Nat) : zio_env τ :=
  { env with
    b_create := fun _ _ =>
      match zbk_create kzalloc vmalloc size with
      | .ok zbki => .ok zbki.bi
      | .error e => .error e }

/-- What `__bi_create_and_init` returns over the vmalloc buffer: the instance
`zbk_create` built, with its `zio_bi` as `__bi_create_and_init` leaves it. -/
def zbk_create_and_init {τ : Type} (env : zio_env τ) (kzalloc vmalloc : Option Nat)
    (size : Nat) (zbuf : zio_buffer_type) (chan : zio_channel) :
    Except zio_errno zbk_created × List zio_event :=
  match zbk_create kzalloc vmalloc size,
      __bi_create_and_init (with_zbk_create env kzalloc vmalloc size) zbuf chan with
  | .ok zbki, (.ok bi, ev) => (.ok { zbki with bi := bi }, ev)
  | .ok _, (.error e, ev) => (.error e, ev)
  | .error e, (_, ev) => (.error e, ev)

/-! ## Page faults on a mapping (`zbk_fault`) -/

/-- What `zbk_fault` returns: `VM_FAULT_SIGBUS`, or 0 with the page of the
address `addr` in `vmf->page`. -/
inductive zbk_fault_result where
  | sigbus
  | page (addr : Nat)
deriving DecidableEq, Repr

/-- Embedding of `zbk_fault` for an instance with the region `data` of `size`
bytes. `PAGE_SIZE` comes from the kernel headers; `ctrl` tells whether the
file is the control device (`priv->type == ZIO_CDEV_CTRL`). The product is
computed on `unsigned long` and compared with `size` as an `unsigned long`. -/
def zbk_fault (PAGE_SIZE : Nat) (ctrl : Bool) (data size pgoff : Nat) : zbk_fault_result :=
  let off := (pgoff * PAGE_SIZE) % ULONG_MOD
  if ctrl then zbk_fault_result.sigbus
  else if off > size then zbk_fault_result.sigbus
  else zbk_fault_result.page ((data + off) % ULONG_MOD)

/-! ## Enabled channels of a set (`zio_first_enabled_chan`, `chan_for_each`) -/

/-- Number of values of an `unsigned int`. -/
def UINT_MOD : Nat := 2 ^ 32

/-- Whether the `ZIO_DISABLED` flag of a channel is clear. -/
def chan_enabled (chan : zio_channel) : Bool := decide (chan.flags &&& ZIO_DISABLED = 0)

/-- The loop of `zio_first_enabled_chan` with `chan` at position `p`, where
`chans` is the array from that position on: the position of the channel
returned (`some none` is `NULL`), or `none` when `chan++` has left the
array. -/
def first_enabled_scan (n_chan : Nat) : List zio_channel → Nat → Option (Option Nat)
  | [], _ => none
  | chan :: rest, p =>
    if chan.flags &&& ZIO_DISABLED = 0 then some (some p) -- if is enabled, use this
    else if (chan.index + 1) % UINT_MOD = n_chan then some none -- no more channels
    else first_enabled_scan n_chan rest (p + 1)

/-- Embedding of `zio_first_enabled_chan`, the channel being given and
returned by its position in `cset->chan`. -/
def zio_first_enabled_chan {τ : Type} (cset : zio_cset τ) (p : Nat) : Option (Option Nat) :=
  if p ≥ cset.chan.length then some none
  else first_enabled_scan cset.chan.length (cset.chan.drop p) p

/-- The iteration `chan_for_each` from position `p` on, for `fuel` evaluations
of its condition at most: the positions for which the body runs, in order;
`none` when the fuel is used up or a walk has left the array. -/
def chan_for_each {τ : Type} (cset : zio_cset τ) : Nat → Nat → Option (List Nat)
  | 0, _ => none
  | fuel + 1, p =>
    match zio_first_enabled_chan cset p with
    | none => none
    | some none => some []
    | some (some q) =>
      match chan_for_each cset fuel (q + 1) with
      | none => none
      | some visited => some (q :: visited)

/-- Embedding of `zio_get_n_chan_enabled`: the `unsigned int` counter after
the iteration. -/
def zio_get_n_chan_enabled {τ : Type} (cset : zio_cset τ) (fuel : Nat) : Option Nat :=
  match chan_for_each cset fuel 0 with
  | none => none
  | some visited => some (visited.length % UINT_MOD)

/-- Whether the channels of `chans` carry the indexes `p`, `p + 1`, ... -/
def indexed_from : Nat → List zio_channel → Bool
  | _, [] => true
  | p, chan :: rest => decide (chan.index = p) && indexed_from (p + 1) rest

/-- The sample channel set with four channels, of which those of index 1 and
3 are disabled. -/
def sample_cset_four : zio_cset Unit :=
  { sample_cset 0 0 with
    chan := [⟨0, ZIO_ENABLED, ⟨100, 0, 0, 1, "buffer", some 0⟩⟩,
             ⟨1, ZIO_DISABLED, ⟨101, 0, 0, 1, "buffer", some 1⟩⟩,
             ⟨2, ZIO_ENABLED, ⟨102, 0, 0, 1, "buffer", some 2⟩⟩,
             ⟨3, ZIO_DISABLED, ⟨103, 0, 0, 1, "buffer", some 3⟩⟩] }

/-! ## The timing instance of the channels (`chan[i].ti`) -/

/-- A channel set together with the pointers `chan[i].ti` of its channels,
by address. -/
structure zio_cset_links (τ : Type) where
  cset : zio_cset τ
  chan_ti : List Nat

/-- The function `cset_register` with the pointers `chan[i].ti` it sets: the
loop over the channels stores `cset->ti` in every channel. -/
def cset_register_links {τ : Type} (env : cset_env τ) (cset : zio_cset_new) :
    Option (Int × Option (zio_cset_links τ) × List cset_event) :=
  match cset_register env cset with
  | none => none
  | some (err, built, events) =>
    some (err,
      match built with
      | none => none
      | some c => some ⟨c, c.chan.map (fun _ => c.ti_addr)⟩,
      events)

/-- The function `zio_change_current_trigger` with the pointers `chan[i].ti`:
it has no assignment to them. -/
def zio_change_current_trigger_links {τ : Type} (env : zio_env τ) (st : zio_cset_links τ)
    (name : String) : Int × zio_cset_links τ × List zio_event :=
  let r := zio_change_current_trigger env st.cset name
  (r.1, { st with cset := r.2.1 }, r.2.2)

/-- The function `zio_change_current_buffer` with the pointers `chan[i].ti`:
it has no assignment to them. -/
def zio_change_current_buffer_links {τ : Type} (env : zio_env τ) (st : zio_cset_links τ)
    (name : String) : Int × zio_cset_links τ × List zio_event :=
  let r := zio_change_current_buffer env st.cset name
  (r.1, { st with cset := r.2.1 }, r.2.2)

/-- The sample environment for `cset_register` where the trigger plugin of
operation table `t_op` returns its instance at address `400 + t_op`. -/
def sample_cset_env_addr : cset_env Unit :=
  { sample_cset_env true none with
    zio := { sample_env true none none none with
      t_create := fun trig => .ok ⟨400 + trig.t_op, ⟨ZIO_DISABLED, ()⟩⟩ } }

/-! ## Theorems: ring allocator -/

theorem zbk_alloc_data_tail (zbki : zbk_ring) (len : Nat) :
    (zbk_alloc_data zbki len).2.tail = zbki.tail := by
  unfold zbk_alloc_data
  simp only
  split_ifs <;> rfl

theorem zbk_alloc_data_size (zbki : zbk_ring) (len : Nat) :
    (zbk_alloc_data zbki len).2.size = zbki.size := by
  unfold zbk_alloc_data
  simp only
  split_ifs <;> rfl

theorem zbk_alloc_data_eq (zbki : zbk_ring) (len : Nat)
    (hno : zbki.head + len < ULONG_MOD) :
    zbk_alloc_data zbki len = allocate zbki len := by
  unfold zbk_alloc_data allocate
  rw [Nat.mod_eq_of_lt hno]
  simp only
  split_ifs <;> first | rfl | omega

theorem drain_tail_append (t : Nat) (q : List (Nat × Nat)) (off len : Nat) :
    drain_tail t (q ++ [(off, len)]) =
      (zbk_free_data ⟨0, 0, drain_tail t q⟩ off len).tail := by
  induction q generalizing t with
  | nil => rfl
  | cons p q ih =>
    obtain ⟨o, l⟩ := p
    simp only [List.cons_append, drain_tail]
    exact ih _

theorem zbk_free_data_tail (zbki : zbk_ring) (off len : Nat) :
    (zbk_free_data zbki off len).tail = (zbk_free_data ⟨0, 0, zbki.tail⟩ off len).tail := by
  unfold zbk_free_data
  split_ifs <;> rfl

theorem zbk_free_data_head (zbki : zbk_ring) (off len : Nat) :
    (zbk_free_data zbki off len).head = zbki.head := by
  unfold zbk_free_data
  split_ifs <;> rfl

/-- Freeing everything outstanding brings `tail` to `head`: the invariant kept
by every client step. -/
theorem ring_step_drain (st st' : zbk_ring × List (Nat × Nat)) (op : ring_op)
    (hlen : ∀ len, op = ring_op.alloc len → len < ULONG_MOD)
    (hinv : drain_tail st.1.tail st.2 = st.1.head)
    (hstep : ring_step st op = some st') :
    drain_tail st'.1.tail st'.2 = st'.1.head := by
  obtain ⟨s, q⟩ := st
  cases op with
  | alloc len =>
    have hl : len < ULONG_MOD := hlen len rfl
    simp only [ring_step] at hstep
    simp only at hinv
    unfold zbk_alloc_data at hstep
    simp only at hstep
    unfold ULONG_MOD at hl hstep
    split_ifs at hstep with h1 h2 h3 h4 <;>
      simp only [Option.some.injEq] at hstep <;> subst hstep <;>
      simp only [drain_tail_append, zbk_free_data, ULONG_MOD] <;>
      first
        | exact hinv
        | (split_ifs <;> simp only [hinv] <;> omega)
  | free =>
    cases q with
    | nil => simp [ring_step] at hstep
    | cons p q =>
      obtain ⟨o, l⟩ := p
      simp only [ring_step, Option.some.injEq] at hstep
      subst hstep
      simp only [drain_tail] at hinv
      simp only [zbk_free_data_head]
      rw [zbk_free_data_tail]
      exact hinv

theorem ring_run_drain (ops : List ring_op) (st st' : zbk_ring × List (Nat × Nat))
    (hlen : ∀ len, ring_op.alloc len ∈ ops → len < ULONG_MOD)
    (hinv : drain_tail st.1.tail st.2 = st.1.head)
    (hrun : ring_run st ops = some st') :
    drain_tail st'.1.tail st'.2 = st'.1.head := by
  induction ops generalizing st with
  | nil =>
    simp only [ring_run, Option.some.injEq] at hrun
    subst hrun
    exact hinv
  | cons op ops ih =>
    simp only [ring_run] at hrun
    cases hs : ring_step st op with
    | none => simp [hs] at hrun
    | some st1 =>
      simp only [hs] at hrun
      refine ih st1 (fun len hm => hlen len (List.mem_cons_of_mem _ hm)) ?_ hrun
      exact ring_step_drain st st1 op
        (fun len he => hlen len (he ▸ List.mem_cons_self _ _)) hinv hs

/-- With nothing outstanding (`head = tail`), an allocation that fits before
the end of the region or is no longer than `head` succeeds, and freeing it
leaves `head = tail` again. -/
theorem alloc_then_free_ok (s : zbk_ring) (l : Nat)
    (hs : s.size < 2 ^ 63) (hh : s.head = s.tail) (hle : s.head ≤ s.size)
    (hl : l ≤ s.size) (hfit : l ≤ s.head ∨ s.head + l ≤ s.size) :
    (alloc_then_free s l).1 ≠ none ∧
    (alloc_then_free s l).2.size = s.size ∧
    (alloc_then_free s l).2.head = (alloc_then_free s l).2.tail ∧
    (alloc_then_free s l).2.head ≤ s.size ∧
    l ≤ (alloc_then_free s l).2.head := by
  obtain ⟨size, head, tail⟩ := s
  simp only at hs hh hle hl hfit
  subst hh
  have hmod : (head + l) % 2 ^ 64 = head + l := Nat.mod_eq_of_lt (by omega)
  unfold alloc_then_free zbk_alloc_data
  simp only [ULONG_MOD, hmod]
  split_ifs with h1 h2 h3 h4 <;>
    simp only [zbk_free_data, ULONG_MOD] <;>
    first
      | omega
      | (split_ifs <;> simp <;> omega)

theorem alloc_free_run_ok (lens : List Nat) (s : zbk_ring) (prev : Nat)
    (hs : s.size < 2 ^ 63) (hh : s.head = s.tail) (hle : s.head ≤ s.size)
    (hprev : prev ≤ s.head)
    (hchain : List.Chain (fun a b => b ≤ a ∨ 2 * b ≤ s.size) prev lens)
    (hall : ∀ l ∈ lens, l ≤ s.size) :
    none ∉ (alloc_free_run s lens).1 ∧
    (alloc_free_run s lens).2.head = (alloc_free_run s lens).2.tail := by
  induction lens generalizing s prev with
  | nil => simpa [alloc_free_run] using hh
  | cons l lens ih =>
    have hl : l ≤ s.size := hall l (List.mem_cons_self _ _)
    obtain ⟨hrel, hrest⟩ := List.chain_cons.mp hchain
    have hfit : l ≤ s.head ∨ s.head + l ≤ s.size := by omega
    obtain ⟨h1, h2, h3, h4, h5⟩ := alloc_then_free_ok s l hs hh hle hl hfit
    have key := ih (alloc_then_free s l).2 l (by rw [h2]; exact hs) h3
      (by rw [h2]; exact h4) h5 (by rw [h2]; exact hrest)
      (fun x hx => by rw [h2]; exact hall x (List.mem_cons_of_mem _ hx))
    simp only [alloc_free_run, List.mem_cons, not_or]
    exact ⟨⟨fun h => h1 h.symm, key.1⟩, key.2⟩

/-! ## Claims on the ring allocator -/

/-- C1 as stated fails: the code adds `head + len` in an unsigned long with no
overflow check. On the ring `(size, head, tail) = (100, 10, 0)` a request of
`2^64 - 1` bytes makes the machine sum `9`, so `zbk_alloc_data` returns offset
`10` and sets `head = 9`, while the reference `allocate`, whose `next` is the
sum `2^64 + 9 > size`, requires `tail >= len` and answers OutOfSpace with the
state unchanged. -/
theorem zbk_alloc_data_overflow_differs :
    zbk_alloc_data ⟨100, 10, 0⟩ (2 ^ 64 - 1) = (some 10, ⟨100, 9, 0⟩) ∧
    allocate ⟨100, 10, 0⟩ (2 ^ 64 - 1) = (none, ⟨100, 10, 0⟩) ∧
    zbk_alloc_data ⟨100, 10, 0⟩ (2 ^ 64 - 1) ≠ allocate ⟨100, 10, 0⟩ (2 ^ 64 - 1) := by
  refine ⟨by decide, by decide, by decide⟩

/-- C1 amended: on every state `(size, head, tail)` and every `len` whose sum
`head + len` fits the machine word (is below `2^64`), `zbk_alloc_data` is the
reference `allocate` of the specification, with `next = head + len`: when
`next > size` it succeeds iff `tail >= len`, returning offset `0` with
`head = len`; when `next <= size` it fails iff `head < tail` and
`next > tail`, and otherwise returns the old `head` with `head = next`. For
every `len`, overflowing or not, it never changes `tail` or `size`. On a fresh
ring of size 1024 the sequence allocate 600, allocate 600, free(0, 600),
allocate 600 gives offset 0, OutOfSpace, `tail = 600`, and offset 0 with
`head = 600`. -/
theorem zbk_alloc_data_refines_allocate (zbki : zbk_ring) (len : Nat) :
    (zbki.head + len < ULONG_MOD → zbk_alloc_data zbki len = allocate zbki len) ∧
    (zbk_alloc_data zbki len).2.tail = zbki.tail ∧
    (zbk_alloc_data zbki len).2.size = zbki.size ∧
    zbk_alloc_data (zbk_fresh 1024) 600 = (some 0, ⟨1024, 600, 0⟩) ∧
    zbk_alloc_data ⟨1024, 600, 0⟩ 600 = (none, ⟨1024, 600, 0⟩) ∧
    zbk_free_data ⟨1024, 600, 0⟩ 0 600 = ⟨1024, 600, 600⟩ ∧
    zbk_alloc_data ⟨1024, 600, 600⟩ 600 = (some 0, ⟨1024, 600, 600⟩) := by
  refine ⟨zbk_alloc_data_eq zbki len, zbk_alloc_data_tail zbki len,
    zbk_alloc_data_size zbki len, ?_, ?_, ?_, ?_⟩ <;> decide

theorem zbk_alloc_data_refines_allocate_witness :
    (⟨1024, 600, 600⟩ : zbk_ring).head + 600 < ULONG_MOD ∧
    zbk_alloc_data ⟨1024, 600, 600⟩ 600 = allocate ⟨1024, 600, 600⟩ 600 ∧
    allocate ⟨1024, 600, 600⟩ 600 = (some 0, ⟨1024, 600, 600⟩) :=
  ⟨by decide,
    (zbk_alloc_data_refines_allocate ⟨1024, 600, 600⟩ 600).1 (by decide), by decide⟩

/-- C5: ring allocator round trip. From a fresh ring, after any sequence of
allocations (of `size_t` lengths) and frees in which every free returns the
oldest outstanding allocation with its own offset and length, once nothing is
outstanding the allocator has `head = tail`. -/
theorem ring_round_trip (size : Nat) (ops : List ring_op) (r : zbk_ring)
    (hlen : ∀ len, ring_op.alloc len ∈ ops → len < ULONG_MOD)
    (hrun : ring_run (zbk_fresh size, []) ops = some (r, [])) :
    r.head = r.tail := by
  have h := ring_run_drain ops (zbk_fresh size, []) (r, []) hlen rfl hrun
  simpa [drain_tail] using h.symm

theorem ring_round_trip_witness :
    ring_run (zbk_fresh 1024, [])
        [.alloc 600, .alloc 300, .free, .alloc 200, .free, .free]
      = some (⟨1024, 200, 200⟩, []) ∧
    (⟨1024, 200, 200⟩ : zbk_ring).head = (⟨1024, 200, 200⟩ : zbk_ring).tail :=
  ⟨by decide,
   ring_round_trip 1024 [.alloc 600, .alloc 300, .free, .alloc 200, .free, .free]
     ⟨1024, 200, 200⟩
     (by
       intro len h
       simp only [List.mem_cons, ring_op.alloc.injEq, List.mem_singleton, reduceCtorEq,
         or_false, false_or, List.not_mem_nil] at h
       rcases h with h | h | h <;> subst h <;> decide)
     (by decide)⟩

/-- C6 as stated fails: on a fresh ring of size 1024, allocating and freeing
600 bytes and then asking for 700 bytes (both at most the ring size, nothing
outstanding) makes the second allocation report OutOfSpace. -/
theorem alloc_free_premature_oom :
    600 ≤ 1024 ∧ 700 ≤ 1024 ∧
    alloc_free_run (zbk_fresh 1024) [600, 700] =
      ([some 0, none], ⟨1024, 600, 600⟩) := by
  refine ⟨by decide, by decide, by decide⟩

/-- C6 amended: on a fresh ring whose size is below `2 ^ 63`, allocating and
immediately freeing lengths `len_i <= size` never reports OutOfSpace provided
every length after the first is no larger than the one before it or is at
most half of the ring size. -/
theorem alloc_free_never_oom (size : Nat) (lens : List Nat)
    (hsize : size < 2 ^ 63) (hall : ∀ l ∈ lens, l ≤ size)
    (hchain : List.Chain' (fun a b => b ≤ a ∨ 2 * b ≤ size) lens) :
    none ∉ (alloc_free_run (zbk_fresh size) lens).1 := by
  cases lens with
  | nil => simp [alloc_free_run]
  | cons l lens =>
    have hl : l ≤ size := hall l (List.mem_cons_self _ _)
    obtain ⟨h1, h2, h3, h4, h5⟩ :=
      alloc_then_free_ok (zbk_fresh size) l hsize rfl (Nat.zero_le _) hl
        (Or.inr (by simpa [zbk_fresh] using hl))
    have key := alloc_free_run_ok lens (alloc_then_free (zbk_fresh size) l).2 l
      (by rw [h2]; exact hsize) h3 (by rw [h2]; exact h4) h5
      (by rw [h2]; exact hchain)
      (fun x hx => by rw [h2]; exact hall x (List.mem_cons_of_mem _ hx))
    simp only [alloc_free_run, List.mem_cons, not_or]
    exact ⟨fun h => h1 h.symm, key.1⟩

theorem alloc_free_never_oom_witness :
    none ∉ (alloc_free_run (zbk_fresh 1024) [600, 600, 300, 512]).1 :=
  alloc_free_never_oom 1024 [600, 600, 300, 512] (by decide) (by decide) (by simp)

/-- C7: allocation failure is atomic. Whenever `zbk_alloc_data` reports
OutOfSpace (the `-1` exit), `head`, `tail` and `size` are what they were. -/
theorem zbk_alloc_data_oom_unchanged (zbki : zbk_ring) (len : Nat)
    (hoom : (zbk_alloc_data zbki len).1 = none) :
    (zbk_alloc_data zbki len).2 = zbki := by
  unfold zbk_alloc_data at hoom ⊢
  simp only at hoom ⊢
  split_ifs at hoom ⊢ <;> simp_all

theorem zbk_alloc_data_oom_unchanged_witness :
    (zbk_alloc_data ⟨1024, 600, 0⟩ 600).1 = none ∧
    (zbk_alloc_data ⟨1024, 600, 0⟩ 600).2 = ⟨1024, 600, 0⟩ :=
  ⟨by decide, zbk_alloc_data_oom_unchanged ⟨1024, 600, 0⟩ 600 (by decide)⟩

/-! ## Theorems: block exchange queue -/

theorem zbk_store_block_flags {τ : Type} (bi : zbk_instance τ) (b : zio_block) :
    (zbk_store_block bi b).2.1.flags = bi.flags := by
  unfold zbk_store_block
  split_ifs <;> rfl

/-- A store of a block with a control either appends the block or, on an empty
list of an output instance, leaves the list empty. -/
theorem zbk_store_block_list {τ : Type} (bi : zbk_instance τ) (b : zio_block)
    (hb : zio_get_ctrl b ≠ 0) :
    (zbk_store_block bi b).2.1.list = bi.list ++ [b] ∨
    (bi.list = [] ∧ (bi.flags &&& ZIO_DIR) = ZIO_DIR_OUTPUT ∧
      (zbk_store_block bi b).2.1.list = []) := by
  unfold zbk_store_block
  rw [if_neg hb]
  cases hl : bi.list with
  | nil =>
    by_cases ho : (bi.flags &&& ZIO_DIR) = ZIO_DIR_OUTPUT
    · simp only [List.isEmpty_nil, if_true, ho, decide_True]
      by_cases hp : (__try_push bi.t_op bi.ti bi.chan b).1 = 0
      · left; simp [hp]
      · right; simp [hp]
    · left; simp [ho]
  | cons x xs => left; simp

theorem zbk_store_block_append {τ : Type} (bi : zbk_instance τ) (b : zio_block)
    (hb : zio_get_ctrl b ≠ 0)
    (h : bi.list ≠ [] ∨ (bi.flags &&& ZIO_DIR) = ZIO_DIR_INPUT) :
    (zbk_store_block bi b).2.1.list = bi.list ++ [b] := by
  rcases zbk_store_block_list bi b hb with h1 | ⟨h1, h2, _⟩
  · exact h1
  · rcases h with h | h
    · exact absurd h1 h
    · rw [h] at h2
      exact absurd h2 (by decide)

theorem store_blocks_append {τ : Type} (bs : List zio_block) (bi : zbk_instance τ)
    (hb : ∀ b ∈ bs, zio_get_ctrl b ≠ 0)
    (h : bi.list ≠ [] ∨ (bi.flags &&& ZIO_DIR) = ZIO_DIR_INPUT) :
    (store_blocks bi bs).list = bi.list ++ bs := by
  induction bs generalizing bi with
  | nil => simp [store_blocks]
  | cons b bs ih =>
    have hb0 := hb b (List.mem_cons_self _ _)
    have h1 := zbk_store_block_append bi b hb0 h
    simp only [store_blocks]
    rw [ih _ (fun x hx => hb x (List.mem_cons_of_mem _ hx)) (by rw [h1]; left; simp), h1]
    simp

theorem zbk_store_block_cases {τ : Type} (bi : zbk_instance τ) (b : zio_block)
    (hb : zio_get_ctrl b ≠ 0) :
    ((zbk_store_block bi b).2.1.list = bi.list ++ [b] ∧ (zbk_store_block bi b).1 = 0 ∧
      ∀ r, 0 ≤ r → zbk_event.push_block b r ∉ (zbk_store_block bi b).2.2) ∨
    (bi.list = [] ∧ (bi.flags &&& ZIO_DIR) = ZIO_DIR_OUTPUT ∧
      (zbk_store_block bi b).2.1.list = [] ∧
      ∃ r, 0 ≤ r ∧ (zbk_store_block bi b).1 = 0 ∧
        (zbk_store_block bi b).2.2 = [zbk_event.push_block b r]) := by
  unfold zbk_store_block
  rw [if_neg hb]
  cases hl : bi.list with
  | nil =>
    by_cases ho : (bi.flags &&& ZIO_DIR) = ZIO_DIR_OUTPUT
    · simp only [List.isEmpty_nil, if_true, ho, decide_True]
      unfold __try_push
      by_cases hd : (bi.ti.flags &&& ZIO_STATUS) = ZIO_DISABLED
      · left; simp [hd, ZIO_DIR_OUTPUT, ZIO_DIR_INPUT]
      · by_cases hr : (bi.t_op.push_block bi.ti bi.chan b).1 < 0
        · left
          simp only [hd, if_false, hr, if_true]
          refine ⟨by simp, trivial, ?_⟩
          intro r h0 hmem
          simp [ZIO_DIR_OUTPUT, ZIO_DIR_INPUT] at hmem
          omega
        · right
          simp only [hd, if_false, hr]
          refine ⟨trivial, trivial, by simp, (bi.t_op.push_block bi.ti bi.chan b).1,
            by omega, trivial, by simp [ZIO_DIR_OUTPUT, ZIO_DIR_INPUT]⟩
    · left; simp [ho]
  | cons x xs => left; simp

theorem store_blocks_log_append {τ : Type} (bs : List zio_block) (bi : zbk_instance τ)
    (hb : ∀ b ∈ bs, zio_get_ctrl b ≠ 0)
    (h : bi.list ≠ [] ∨ (bi.flags &&& ZIO_DIR) = ZIO_DIR_INPUT) :
    List.Forall₂ (fun b e => e.1 = 0 ∧ ∀ r, 0 ≤ r → zbk_event.push_block b r ∉ e.2)
      bs (store_blocks_log bi bs) := by
  induction bs generalizing bi with
  | nil => exact List.Forall₂.nil
  | cons b bs ih =>
    have hb0 := hb b (List.mem_cons_self _ _)
    have h1 := zbk_store_block_append bi b hb0 h
    simp only [store_blocks_log]
    refine List.Forall₂.cons ?_ (ih _ (fun x hx => hb x (List.mem_cons_of_mem _ hx))
      (by rw [h1]; left; simp))
    rcases zbk_store_block_cases bi b hb0 with ⟨_, h2, h3⟩ | ⟨h2, h3, _⟩
    · exact ⟨h2, h3⟩
    · rcases h with h | h
      · exact absurd h2 h
      · rw [h] at h3
        exact absurd h3 (by decide)

theorem store_blocks_pushed {τ : Type} (bs : List zio_block) (bi : zbk_instance τ)
    (hb : ∀ b ∈ bs, zio_get_ctrl b ≠ 0) (hl : bi.list = []) :
    ∃ k, k ≤ bs.length ∧ (store_blocks bi bs).list = bs.drop k ∧
      List.Forall₂ (fun b e => ∃ r, 0 ≤ r ∧ e = (0, [zbk_event.push_block b r]))
        (bs.take k) ((store_blocks_log bi bs).take k) ∧
      List.Forall₂ (fun b e => e.1 = 0 ∧ ∀ r, 0 ≤ r → zbk_event.push_block b r ∉ e.2)
        (bs.drop k) ((store_blocks_log bi bs).drop k) ∧
      (0 < k → (bi.flags &&& ZIO_DIR) = ZIO_DIR_OUTPUT) := by
  induction bs generalizing bi with
  | nil =>
    exact ⟨0, le_refl _, by simpa [store_blocks] using hl, by simp [store_blocks_log],
      by simp [store_blocks_log], fun h => absurd h (by decide)⟩
  | cons b bs ih =>
    have hb0 := hb b (List.mem_cons_self _ _)
    have hbs : ∀ x ∈ bs, zio_get_ctrl x ≠ 0 := fun x hx => hb x (List.mem_cons_of_mem _ hx)
    rcases zbk_store_block_cases bi b hb0 with ⟨h1, h2, h3⟩ | ⟨_, h2, h3, r, hr, h4, h5⟩
    · refine ⟨0, Nat.zero_le _, ?_, by simp, ?_, fun h => absurd h (by decide)⟩
      · simp only [store_blocks]
        rw [store_blocks_append bs _ hbs (by rw [h1]; left; simp), h1, hl]
        simp
      · simp only [List.drop_zero, store_blocks_log]
        exact List.Forall₂.cons ⟨h2, h3⟩
          (store_blocks_log_append bs _ hbs (by rw [h1]; left; simp))
    · obtain ⟨k, hk, hlist, hpush, hrest, _⟩ := ih (zbk_store_block bi b).2.1 hbs h3
      refine ⟨k + 1, by simpa using hk, ?_, ?_, ?_, fun _ => h2⟩
      · simpa [store_blocks] using hlist
      · simp only [store_blocks_log, List.take_succ_cons]
        exact List.Forall₂.cons ⟨r, hr, Prod.ext h4 h5⟩ hpush
      · simpa [store_blocks_log] using hrest

theorem zbk_retr_block_nil {τ : Type} (bi : zbk_instance τ) (hl : bi.list = []) :
    (zbk_retr_block bi).1 = none ∧ (zbk_retr_block bi).2.1.list = [] := by
  unfold zbk_retr_block
  rw [hl]
  simp only
  split_ifs <;> (try split) <;> simp [hl]

theorem retr_blocks_take {τ : Type} (n : Nat) (bi : zbk_instance τ) :
    (retr_blocks bi n).1 =
      (bi.list.take n).map some ++ List.replicate (n - bi.list.length) none := by
  induction n generalizing bi with
  | zero => simp [retr_blocks]
  | succ n ih =>
    cases hl : bi.list with
    | nil =>
      obtain ⟨h1, h2⟩ := zbk_retr_block_nil bi hl
      simp only [retr_blocks, ih, h1, h2]
      simp [List.replicate_succ]
    | cons x xs =>
      have h1 : zbk_retr_block bi = (some x, { bi with list := xs },
          if (bi.flags &&& ZIO_DIR) = ZIO_DIR_OUTPUT then [zbk_event.wake_up] else []) := by
        unfold zbk_retr_block
        rw [hl]
      simp only [retr_blocks, ih, h1]
      simp

/-! ## Claims on the block exchange queue -/

/-- C2 as stated fails: on an output instance whose timing instance is enabled
and accepts pushed blocks, a block stored on the empty list is handed to the
push hook and never queued, so the next retrieve returns no block. -/
theorem fifo_bypassed_by_push :
    zio_get_ctrl ⟨8, 0, 4, 0⟩ ≠ 0 ∧
    (store_blocks output_accepting [⟨8, 0, 4, 0⟩]).list = [] ∧
    (retr_blocks (store_blocks output_accepting [⟨8, 0, 4, 0⟩]) 1).1 = [none] := by
  refine ⟨by decide, by decide, by decide⟩

/-- C2 amended: FIFO delivery of the queued blocks. For every instance whose
ready list is initially empty and blocks `B1..Bn` each carrying a control,
there is a `k <= n` such that: each of the first `k` stores hands its block to
the push hook of the timing instance, the hook accepts it (returns `r >= 0`),
and the store returns 0 having made that one call and nothing else; none of
the later stores has an accepted push of its block, and each returns 0; after
the `n` stores the ready list is `B(k+1), ..., Bn`, and the next `n` retrieves
return `B(k+1), ..., Bn` in exactly that order followed by `k` times no block.
`k > 0` only on an output-direction instance: on an input-direction instance
all of `B1..Bn` come back in order. -/
theorem fifo_delivery {τ : Type} (bi : zbk_instance τ) (blocks : List zio_block)
    (hempty : bi.list = [])
    (hctrl : ∀ b ∈ blocks, zio_get_ctrl b ≠ 0) :
    ∃ k, k ≤ blocks.length ∧
      List.Forall₂ (fun b e => ∃ r, 0 ≤ r ∧ e = (0, [zbk_event.push_block b r]))
        (blocks.take k) ((store_blocks_log bi blocks).take k) ∧
      List.Forall₂ (fun b e => e.1 = 0 ∧ ∀ r, 0 ≤ r → zbk_event.push_block b r ∉ e.2)
        (blocks.drop k) ((store_blocks_log bi blocks).drop k) ∧
      (store_blocks bi blocks).list = blocks.drop k ∧
      (retr_blocks (store_blocks bi blocks) blocks.length).1 =
        (blocks.drop k).map some ++ List.replicate k none ∧
      (0 < k → (bi.flags &&& ZIO_DIR) = ZIO_DIR_OUTPUT) ∧
      ((bi.flags &&& ZIO_DIR) = ZIO_DIR_INPUT → k = 0) := by
  obtain ⟨k, hk, hlist, hpush, hrest, hout⟩ := store_blocks_pushed blocks bi hctrl hempty
  refine ⟨k, hk, hpush, hrest, hlist, ?_, hout, ?_⟩
  · rw [retr_blocks_take, hlist]
    have h1 : (blocks.drop k).take blocks.length = blocks.drop k :=
      List.take_of_length_le (by simp)
    have h2 : blocks.length - (blocks.drop k).length = k := by
      simp only [List.length_drop]
      omega
    rw [h1, h2]
  · intro hin
    by_contra hk0
    have := hout (Nat.pos_of_ne_zero hk0)
    rw [hin] at this
    exact absurd this (by decide)

theorem fifo_delivery_witness :
    (∃ k, k ≤ [blockA, blockB, blockC].length ∧
      List.Forall₂ (fun b e => ∃ r, 0 ≤ r ∧ e = (0, [zbk_event.push_block b r]))
        ([blockA, blockB, blockC].take k)
        ((store_blocks_log output_accept_once [blockA, blockB, blockC]).take k) ∧
      List.Forall₂ (fun b e => e.1 = 0 ∧ ∀ r, 0 ≤ r → zbk_event.push_block b r ∉ e.2)
        ([blockA, blockB, blockC].drop k)
        ((store_blocks_log output_accept_once [blockA, blockB, blockC]).drop k) ∧
      (store_blocks output_accept_once [blockA, blockB, blockC]).list
        = [blockA, blockB, blockC].drop k ∧
      (retr_blocks (store_blocks output_accept_once [blockA, blockB, blockC])
          [blockA, blockB, blockC].length).1 =
        ([blockA, blockB, blockC].drop k).map some ++ List.replicate k none ∧
      (0 < k → (output_accept_once.flags &&& ZIO_DIR) = ZIO_DIR_OUTPUT) ∧
      ((output_accept_once.flags &&& ZIO_DIR) = ZIO_DIR_INPUT → k = 0)) ∧
    store_blocks_log output_accept_once [blockA, blockB, blockC] =
      [(0, [zbk_event.push_block blockA 0]), (0, [zbk_event.push_block blockB (-EBUSY)]),
        (0, [])] ∧
    (store_blocks output_accept_once [blockA, blockB, blockC]).list = [blockB, blockC] ∧
    (retr_blocks (store_blocks output_accept_once [blockA, blockB, blockC]) 3).1 =
      [some blockB, some blockC, none] :=
  ⟨fifo_delivery output_accept_once [blockA, blockB, blockC] rfl (by decide),
    by decide, by decide, by decide⟩

/-- C8: store on an output-direction instance, for a block carrying a control.
(1) List empty, timing instance enabled and push hook accepting: the hook is
called once, the block is not queued (the list stays empty) and store returns
0. (2) Timing instance disabled: the hook is not called and the block is
appended to the tail. (3) List empty, timing instance enabled and push hook
failing: the block is appended to the tail. (4) List non-empty: the block is
appended to the tail and the hook is not called. -/
theorem zbk_store_block_output {τ : Type} (bi : zbk_instance τ) (block : zio_block)
    (hctrl : zio_get_ctrl block ≠ 0)
    (hout : (bi.flags &&& ZIO_DIR) = ZIO_DIR_OUTPUT) :
    (bi.list = [] → (bi.ti.flags &&& ZIO_STATUS) ≠ ZIO_DISABLED →
      0 ≤ (bi.t_op.push_block bi.ti bi.chan block).1 →
      zbk_store_block bi block =
        (0, { bi with list := [], ti := (bi.t_op.push_block bi.ti bi.chan block).2 },
          [zbk_event.push_block block (bi.t_op.push_block bi.ti bi.chan block).1])) ∧
    ((bi.ti.flags &&& ZIO_STATUS) = ZIO_DISABLED →
      zbk_store_block bi block = (0, { bi with list := bi.list ++ [block] }, [])) ∧
    (bi.list = [] → (bi.ti.flags &&& ZIO_STATUS) ≠ ZIO_DISABLED →
      (bi.t_op.push_block bi.ti bi.chan block).1 < 0 →
      zbk_store_block bi block =
        (0, { bi with list := [block], ti := (bi.t_op.push_block bi.ti bi.chan block).2 },
          [zbk_event.push_block block (bi.t_op.push_block bi.ti bi.chan block).1])) ∧
    (bi.list ≠ [] →
      zbk_store_block bi block = (0, { bi with list := bi.list ++ [block] }, [])) := by
  refine ⟨?_, ?_, ?_, ?_⟩
  · intro hl hen hacc
    have hnot : ¬ (bi.t_op.push_block bi.ti bi.chan block).1 < 0 := not_lt.mpr hacc
    simp [zbk_store_block, __try_push, hctrl, hout, hl, hen, hnot]
  · intro hdis
    cases hl : bi.list <;>
      simp [zbk_store_block, __try_push, hctrl, hout, hl, hdis]
  · intro hl hen hrej
    simp [zbk_store_block, __try_push, hctrl, hout, hl, hen, hrej]
  · intro hl
    cases hl' : bi.list with
    | nil => exact absurd hl' hl
    | cons x xs => simp [zbk_store_block, hctrl, hl']

theorem zbk_store_block_output_witness :
    zbk_store_block output_accepting blockA =
      (0, output_accepting, [zbk_event.push_block blockA 0]) ∧
    zbk_store_block (counting_instance ZIO_DIR_OUTPUT ZIO_DISABLED []) blockA =
      (0, counting_instance ZIO_DIR_OUTPUT ZIO_DISABLED [blockA], []) ∧
    zbk_store_block (counting_instance ZIO_DIR_OUTPUT ZIO_ENABLED []) blockA =
      (0, counting_instance ZIO_DIR_OUTPUT ZIO_ENABLED [blockA],
        [zbk_event.push_block blockA (-EBUSY)]) ∧
    zbk_store_block (counting_instance ZIO_DIR_OUTPUT ZIO_ENABLED [blockA]) blockB =
      (0, counting_instance ZIO_DIR_OUTPUT ZIO_ENABLED [blockA, blockB], []) :=
  ⟨(zbk_store_block_output output_accepting blockA (by decide) (by decide)).1
      rfl (by decide) (by decide),
   (zbk_store_block_output (counting_instance ZIO_DIR_OUTPUT ZIO_DISABLED []) blockA
      (by decide) (by decide)).2.1 (by decide),
   (zbk_store_block_output (counting_instance ZIO_DIR_OUTPUT ZIO_ENABLED []) blockA
      (by decide) (by decide)).2.2.1 rfl (by decide) (by decide),
   (zbk_store_block_output (counting_instance ZIO_DIR_OUTPUT ZIO_ENABLED [blockA]) blockB
      (by decide) (by decide)).2.2.2 (by decide)⟩

/-- C9: store on an input-direction instance. A block carrying a control is
appended to the tail of the ready list (the blocks already queued keep their
order), the timing instance and its push hook are left alone, store returns 0
and the waiting consumer is woken exactly when the list was empty before the
call. A block without control is rejected with `-EINVAL` and nothing changes. -/
theorem zbk_store_block_input {τ : Type} (bi : zbk_instance τ) (block : zio_block)
    (hin : (bi.flags &&& ZIO_DIR) = ZIO_DIR_INPUT) :
    (zio_get_ctrl block ≠ 0 →
      zbk_store_block bi block =
        (0, { bi with list := bi.list ++ [block] },
          if bi.list = [] then [zbk_event.wake_up] else [])) ∧
    (zio_get_ctrl block = 0 → zbk_store_block bi block = (-EINVAL, bi, [])) := by
  have hne : ¬ ZIO_DIR_INPUT = ZIO_DIR_OUTPUT := by decide
  refine ⟨?_, ?_⟩
  · intro hctrl
    cases hl : bi.list <;> simp [zbk_store_block, hctrl, hin, hne, hl]
  · intro hctrl
    simp [zbk_store_block, hctrl]

theorem zbk_store_block_input_witness :
    zbk_store_block (counting_instance ZIO_DIR_INPUT ZIO_ENABLED []) blockA =
      (0, counting_instance ZIO_DIR_INPUT ZIO_ENABLED [blockA], [zbk_event.wake_up]) ∧
    zbk_store_block (counting_instance ZIO_DIR_INPUT ZIO_ENABLED [blockA]) blockB =
      (0, counting_instance ZIO_DIR_INPUT ZIO_ENABLED [blockA, blockB], []) ∧
    zbk_store_block (counting_instance ZIO_DIR_INPUT ZIO_ENABLED [blockA]) ⟨1, 0, 0, 0⟩ =
      (-EINVAL, counting_instance ZIO_DIR_INPUT ZIO_ENABLED [blockA], []) :=
  ⟨(zbk_store_block_input (counting_instance ZIO_DIR_INPUT ZIO_ENABLED []) blockA
      (by decide)).1 (by decide),
   (zbk_store_block_input (counting_instance ZIO_DIR_INPUT ZIO_ENABLED [blockA]) blockB
      (by decide)).1 (by decide),
   (zbk_store_block_input (counting_instance ZIO_DIR_INPUT ZIO_ENABLED [blockA]) ⟨1, 0, 0, 0⟩
      (by decide)).2 (by decide)⟩

/-- C10: retrieve. On an empty ready list it returns no block, leaves the list
empty, and calls the pull hook exactly once when the instance is
input-direction, the timing type has a pull hook and the timing instance is
not disabled; in every other case it makes no hook call at all. On a
non-empty list it removes and returns the head block and does not call the
pull hook. -/
theorem zbk_retr_block_spec {τ : Type} (bi : zbk_instance τ) :
    (bi.list = [] →
      (zbk_retr_block bi).1 = none ∧
      (zbk_retr_block bi).2.1.list = [] ∧
      (zbk_retr_block bi).2.2 =
        if (bi.flags &&& ZIO_DIR) = ZIO_DIR_INPUT ∧ bi.t_op.pull_block.isSome = true ∧
            (bi.ti.flags &&& ZIO_STATUS) ≠ ZIO_DISABLED
        then [zbk_event.pull_block] else []) ∧
    (∀ item rest, bi.list = item :: rest →
      (zbk_retr_block bi).1 = some item ∧
      (zbk_retr_block bi).2.1 = { bi with list := rest } ∧
      zbk_event.pull_block ∉ (zbk_retr_block bi).2.2) := by
  refine ⟨?_, ?_⟩
  · intro hl
    refine ⟨(zbk_retr_block_nil bi hl).1, (zbk_retr_block_nil bi hl).2, ?_⟩
    unfold zbk_retr_block
    rw [hl]
    simp only
    by_cases hin : (bi.flags &&& ZIO_DIR) = ZIO_DIR_INPUT
    · cases hp : bi.t_op.pull_block with
      | none => simp [hin]
      | some f =>
        by_cases hd : (bi.ti.flags &&& ZIO_STATUS) = ZIO_DISABLED <;> simp [hin, hd]
    · simp [hin]
  · intro item rest hl
    unfold zbk_retr_block
    rw [hl]
    refine ⟨rfl, rfl, ?_⟩
    simp only
    split_ifs <;> simp

theorem zbk_retr_block_spec_witness :
    zbk_retr_block (zbk_store_block (counting_instance ZIO_DIR_INPUT ZIO_ENABLED []) blockA).2.1
      = (some blockA, counting_instance ZIO_DIR_INPUT ZIO_ENABLED [], []) ∧
    (zbk_retr_block (counting_instance ZIO_DIR_INPUT ZIO_ENABLED [])).1 = none ∧
    (zbk_retr_block (counting_instance ZIO_DIR_INPUT ZIO_ENABLED [])).2.1.list = [] ∧
    (zbk_retr_block (counting_instance ZIO_DIR_INPUT ZIO_ENABLED [])).2.1.ti.priv = 1 ∧
    (zbk_retr_block (counting_instance ZIO_DIR_INPUT ZIO_ENABLED [])).2.2 =
      [zbk_event.pull_block] ∧
    (zbk_retr_block (counting_instance ZIO_DIR_INPUT ZIO_DISABLED [])).2.2 = [] ∧
    (zbk_retr_block (counting_instance ZIO_DIR_OUTPUT ZIO_ENABLED [])).2.2 = [] :=
  ⟨rfl,
   ((zbk_retr_block_spec (counting_instance ZIO_DIR_INPUT ZIO_ENABLED [])).1 rfl).1,
   ((zbk_retr_block_spec (counting_instance ZIO_DIR_INPUT ZIO_ENABLED [])).1 rfl).2.1,
   by decide,
   ((zbk_retr_block_spec (counting_instance ZIO_DIR_INPUT ZIO_ENABLED [])).1 rfl).2.2,
   ((zbk_retr_block_spec (counting_instance ZIO_DIR_INPUT ZIO_DISABLED [])).1 rfl).2.2,
   ((zbk_retr_block_spec (counting_instance ZIO_DIR_OUTPUT ZIO_ENABLED [])).1 rfl).2.2⟩

/-! ## Theorems: transport swap -/

theorem zio_buffer_get_events {τ : Type} (env : zio_env τ) (cset : zio_cset τ)
    (name : Option String) :
    ∀ e ∈ (zio_buffer_get env cset name).2, ∃ m, e = zio_event.module_get m := by
  unfold zio_buffer_get __zio_object_get
  intro e he
  split at he
  · simp at he
  · split_ifs at he
    · simp at he
    · split at he <;> rename_i heq <;> split at heq <;>
        (try split_ifs at heq) <;>
        simp only [Prod.mk.injEq] at heq <;> obtain ⟨_, h2⟩ := heq <;> subst h2 <;>
        simp at he <;> exact ⟨_, he⟩

theorem zio_buffer_put_events (zbuf : zio_buffer_type) (owner : Nat) :
    ∀ e ∈ zio_buffer_put zbuf owner, e = zio_event.module_put zbuf.owner := by
  unfold zio_buffer_put
  intro e he
  split_ifs at he <;> simp at he
  exact he

theorem busy_mark_binding (chans : List zio_channel) (j : Int) :
    (busy_mark chans j).1.map zio_channel.binding = chans.map zio_channel.binding := by
  induction chans generalizing j with
  | nil => rfl
  | cons c cs ih => simp [busy_mark, ih, zio_channel.binding]

theorem busy_clear_binding (chans : List zio_channel) (j : Int) :
    (busy_clear j chans).map zio_channel.binding = chans.map zio_channel.binding := by
  induction chans with
  | nil => rfl
  | cons c cs ih =>
    simp only [busy_clear, List.map_cons, ih]
    split_ifs <;> simp [zio_channel.binding]

/-- Without wrap-around the busy check adds up the use counts. -/
theorem busy_mark_count (chans : List zio_channel) (j : Int) (hj : 0 ≤ j)
    (hnn : ∀ c ∈ chans, 0 ≤ c.bi.use_count)
    (hsum : j + (chans.map (fun c => c.bi.use_count)).sum < 2 ^ 31) :
    (busy_mark chans j).2 = j + (chans.map (fun c => c.bi.use_count)).sum := by
  induction chans generalizing j with
  | nil => simp [busy_mark]
  | cons c cs ih =>
    have hc : 0 ≤ c.bi.use_count := hnn c (List.mem_cons_self _ _)
    have hcs : ∀ x ∈ cs, 0 ≤ x.bi.use_count := fun x hx => hnn x (List.mem_cons_of_mem _ hx)
    have hs : 0 ≤ (cs.map (fun c => c.bi.use_count)).sum :=
      List.sum_nonneg (by simpa using hcs)
    simp only [List.map_cons, List.sum_cons] at hsum
    have hw : wrap_int (j + c.bi.use_count) = j + c.bi.use_count := by
      unfold wrap_int
      omega
    simp only [busy_mark, hw, List.map_cons, List.sum_cons]
    rw [ih (j + c.bi.use_count) (by omega) hcs (by omega)]
    omega

/-- Non-negative use counts that are not all zero and add up to less than
`2 ^ 31` make the busy check find `j` nonzero. -/
theorem busy_mark_ne_zero (chans : List zio_channel)
    (hnn : ∀ c ∈ chans, 0 ≤ c.bi.use_count)
    (hsum : (chans.map (fun c => c.bi.use_count)).sum < 2 ^ 31)
    (hbusy : ∃ c ∈ chans, c.bi.use_count ≠ 0) :
    (busy_mark chans 0).2 ≠ 0 := by
  rw [busy_mark_count chans 0 (le_refl _) hnn (by simpa using hsum)]
  obtain ⟨c, hc, hne⟩ := hbusy
  have h1 : c.bi.use_count ≤ (chans.map (fun c => c.bi.use_count)).sum :=
    List.single_le_sum (by simpa using hnn) _ (List.mem_map_of_mem _ hc)
  have h2 := hnn c hc
  omega

theorem busy_clear_zero (chans : List zio_channel) : busy_clear 0 chans = chans := by
  induction chans with
  | nil => rfl
  | cons c cs ih => simp [busy_clear, ih]

theorem create_instances_busy_mark {τ : Type} (env : zio_env τ) (zbuf : zio_buffer_type)
    (chans : List zio_channel) (j : Int) :
    create_instances env zbuf (busy_mark chans j).1 = create_instances env zbuf chans := by
  induction chans generalizing j with
  | nil => rfl
  | cons c cs ih =>
    simp only [busy_mark, create_instances, __bi_create_and_init, __bi_register, ih]

theorem created_addrs_append (b : Nat) (l₁ l₂ : List zio_event) :
    created_addrs b (l₁ ++ l₂) = created_addrs b l₁ ++ created_addrs b l₂ := by
  simp [created_addrs]

theorem destroyed_addrs_append (l₁ l₂ : List zio_event) :
    destroyed_addrs (l₁ ++ l₂) = destroyed_addrs l₁ ++ destroyed_addrs l₂ := by
  simp [destroyed_addrs]

theorem zio_buffer_get_created {τ : Type} (env : zio_env τ) (cset : zio_cset τ)
    (name : Option String) (b : Nat) :
    created_addrs b (zio_buffer_get env cset name).2 = [] ∧
    destroyed_addrs (zio_buffer_get env cset name).2 = [] := by
  have h := zio_buffer_get_events env cset name
  generalize (zio_buffer_get env cset name).2 = ev at h
  induction ev with
  | nil => exact ⟨rfl, rfl⟩
  | cons e es ih =>
    obtain ⟨m, hm⟩ := h e (List.mem_cons_self _ _)
    have := ih (fun x hx => h x (List.mem_cons_of_mem _ hx))
    subst hm
    simpa [created_addrs, destroyed_addrs, zio_event.created, zio_event.destroyed] using this

theorem zio_buffer_put_created (zbuf : zio_buffer_type) (owner b : Nat) :
    created_addrs b (zio_buffer_put zbuf owner) = [] ∧
    destroyed_addrs (zio_buffer_put zbuf owner) = [] := by
  unfold zio_buffer_put
  split_ifs <;>
    simp [created_addrs, destroyed_addrs, zio_event.created, zio_event.destroyed]

theorem unwind_instances_created (zbuf : zio_buffer_type) (b : Nat) (bis : List zio_bi) :
    created_addrs b (unwind_instances zbuf bis) = [] ∧
    destroyed_addrs (unwind_instances zbuf bis) = (bis.map (fun bi => bi.addr)).reverse := by
  unfold unwind_instances
  rw [← List.map_reverse]
  generalize bis.reverse = l
  induction l with
  | nil => exact ⟨rfl, rfl⟩
  | cons x xs ih =>
    simp only [List.flatMap_cons, created_addrs_append, destroyed_addrs_append, ih.1, ih.2,
      List.map_cons]
    simp [created_addrs, destroyed_addrs, zio_event.created, zio_event.destroyed,
      __bi_unregister, __bi_destroy]

theorem bi_create_and_init_spec {τ : Type} (env : zio_env τ) (zbuf : zio_buffer_type)
    (chan : zio_channel) :
    (∀ e ev, __bi_create_and_init env zbuf chan = (.error e, ev) →
      created_addrs zbuf.b_op ev = destroyed_addrs ev) ∧
    (∀ bi ev, __bi_create_and_init env zbuf chan = (.ok bi, ev) →
      created_addrs zbuf.b_op ev = [bi.addr] ∧ destroyed_addrs ev = [] ∧
      bi.b_op = zbuf.b_op) := by
  unfold __bi_create_and_init
  refine ⟨?_, ?_⟩
  · intro e ev h
    split at h
    · simp only [Prod.mk.injEq] at h
      obtain ⟨_, h2⟩ := h
      subst h2
      simp [created_addrs, destroyed_addrs, zio_event.created, zio_event.destroyed]
    · dsimp only at h
      split at h <;> simp only [Prod.mk.injEq, reduceCtorEq, false_and] at h
      obtain ⟨_, h2⟩ := h
      subst h2
      simp [created_addrs, destroyed_addrs, zio_event.created, zio_event.destroyed]
  · intro bi ev h
    split at h
    · simp at h
    · dsimp only at h
      split at h <;> simp only [Prod.mk.injEq, reduceCtorEq, false_and] at h
      obtain ⟨h1, h2⟩ := h
      subst h2
      simp only [Except.ok.injEq] at h1
      subst h1
      simp [created_addrs, destroyed_addrs, zio_event.created, zio_event.destroyed]

theorem bi_register_spec {τ : Type} (env : zio_env τ) (zbuf : zio_buffer_type)
    (chan : zio_channel) (bi : zio_bi) (name : String) (b : Nat) :
    created_addrs b (__bi_register env zbuf chan bi name).2.2 = [] ∧
    destroyed_addrs (__bi_register env zbuf chan bi name).2.2 = [] ∧
    (__bi_register env zbuf chan bi name).2.1.addr = bi.addr ∧
    (__bi_register env zbuf chan bi name).2.1.b_op = bi.b_op := by
  unfold __bi_register
  simp only
  split
  · simp [created_addrs, destroyed_addrs, zio_event.created, zio_event.destroyed]
  · split <;>
      simp [created_addrs, destroyed_addrs, zio_event.created, zio_event.destroyed]

theorem create_instances_spec {τ : Type} (env : zio_env τ) (zbuf : zio_buffer_type)
    (chans : List zio_channel) :
    created_addrs zbuf.b_op (create_instances env zbuf chans).events =
      (create_instances env zbuf chans).bi_vector.map (fun bi => bi.addr) ++
        destroyed_addrs (create_instances env zbuf chans).events ∧
    ((create_instances env zbuf chans).err = none →
      destroyed_addrs (create_instances env zbuf chans).events = [] ∧
      (create_instances env zbuf chans).bi_vector.length = chans.length) ∧
    (∀ bi ∈ (create_instances env zbuf chans).bi_vector, bi.b_op = zbuf.b_op) := by
  induction chans with
  | nil => simp [create_instances, created_addrs, destroyed_addrs]
  | cons c cs ih =>
    obtain ⟨herr, hok⟩ := bi_create_and_init_spec env zbuf c
    unfold create_instances
    cases hc : __bi_create_and_init env zbuf c with
    | mk r ev1 =>
      cases r with
      | error e =>
        have := herr e ev1 hc
        simp [this]
      | ok bi =>
        obtain ⟨h1, h2, h3⟩ := hok bi ev1 hc
        obtain ⟨g1, g2, g3, g4⟩ := bi_register_spec env zbuf c bi "buffer-tmp" zbuf.b_op
        rcases hr : __bi_register env zbuf c bi "buffer-tmp" with ⟨re, bi1, ev2⟩
        rw [hr] at g1 g2 g3 g4
        simp only at g1 g2 g3 g4
        simp only [hr]
        cases re with
        | some e =>
          simp only [created_addrs_append, destroyed_addrs_append, h1, h2, g1, g2]
          simp [created_addrs, destroyed_addrs, zio_event.created, zio_event.destroyed,
            __bi_destroy, g3]
        | none =>
          obtain ⟨i1, i2, i3⟩ := ih
          simp only [created_addrs_append, destroyed_addrs_append, h1, h2, g1, g2, i1,
            List.map_cons, g3, List.nil_append, List.cons_append, List.length_cons,
            List.mem_cons, true_and]
          refine ⟨fun hn => ⟨(i2 hn).1, by rw [(i2 hn).2]⟩, ?_⟩
          intro x hx
          rcases hx with hx | hx
          · rw [hx, g4, h3]
          · exact i3 x hx

theorem replace_instances_spec {τ : Type} (env : zio_env τ) (zbuf_old : zio_buffer_type)
    (b : Nat) (chans : List zio_channel) (bis : List zio_bi)
    (hlen : bis.length = chans.length) :
    (replace_instances env zbuf_old chans bis).1.map zio_channel.binding
      = bis.map (fun bi => bi.addr) ∧
    (replace_instances env zbuf_old chans bis).1.length = chans.length ∧
    ((∀ bi ∈ bis, bi.b_op = b) →
      ∀ c ∈ (replace_instances env zbuf_old chans bis).1, c.bi.b_op = b) ∧
    created_addrs b (replace_instances env zbuf_old chans bis).2 = [] := by
  induction chans generalizing bis with
  | nil =>
    cases bis with
    | nil => simp [replace_instances, created_addrs]
    | cons x xs => simp at hlen
  | cons c cs ih =>
    cases bis with
    | nil => simp at hlen
    | cons x xs =>
      obtain ⟨i1, i2, i3, i4⟩ := ih xs (by simpa using hlen)
      simp only [replace_instances, List.map_cons, List.length_cons, i1, i2,
        created_addrs_append, i4, List.mem_cons]
      refine ⟨?_, trivial, ?_, ?_⟩
      · cases env.device_rename x "buffer" <;> simp [zio_channel.binding]
      · intro hb y hy
        rcases hy with hy | hy
        · subst hy
          cases env.device_rename x "buffer" <;> simp [hb x (Or.inl rfl)]
        · exact i3 (fun z hz => hb z (Or.inr hz)) y hy
      · simp [created_addrs, zio_event.created, __bi_unregister, __bi_destroy]

theorem create_instances_failed {τ : Type} (env : zio_env τ) (zbuf : zio_buffer_type)
    (chans : List zio_channel) :
    (destroyed_addrs (create_instances env zbuf chans).events).length ≤ 1 ∧
    (∀ e, (create_instances env zbuf chans).err = some e →
      (create_instances env zbuf chans).bi_vector.length < chans.length) := by
  induction chans with
  | nil => simp [create_instances, destroyed_addrs]
  | cons c cs ih =>
    obtain ⟨herr, hok⟩ := bi_create_and_init_spec env zbuf c
    unfold create_instances
    cases hc : __bi_create_and_init env zbuf c with
    | mk r ev1 =>
      cases r with
      | error e =>
        have h := herr e ev1 hc
        simp only [List.length_nil, List.length_cons, Nat.zero_lt_succ, implies_true, and_true]
        unfold __bi_create_and_init at hc
        split at hc
        · simp only [Prod.mk.injEq] at hc
          rw [← hc.2]
          simp [destroyed_addrs, zio_event.destroyed]
        · dsimp only at hc
          split at hc <;> simp only [Prod.mk.injEq, reduceCtorEq, false_and] at hc
          rw [← hc.2]
          simp [destroyed_addrs, zio_event.destroyed]
      | ok bi =>
        obtain ⟨_, h2, _⟩ := hok bi ev1 hc
        obtain ⟨_, g2, _, _⟩ := bi_register_spec env zbuf c bi "buffer-tmp" zbuf.b_op
        rcases hr : __bi_register env zbuf c bi "buffer-tmp" with ⟨re, bi1, ev2⟩
        rw [hr] at g2
        simp only at g2
        simp only [hr]
        cases re with
        | some e =>
          simp only [destroyed_addrs_append, h2, g2, List.nil_append]
          simp [destroyed_addrs, zio_event.destroyed, __bi_destroy]
        | none =>
          simp only [destroyed_addrs_append, h2, g2, List.nil_append, List.length_cons]
          exact ⟨ih.1, fun e he => Nat.succ_lt_succ (ih.2 e he)⟩

theorem zio_buffer_get_error {τ : Type} (env : zio_env τ) (cset : zio_cset τ)
    (name : Option String) (e : Int) (ev : List zio_event)
    (h : zio_buffer_get env cset name = (.error e, ev)) : e ≠ 0 := by
  unfold zio_buffer_get at h
  split at h
  · simp only [Prod.mk.injEq, Except.error.injEq] at h
    rw [← h.1]; decide
  · split_ifs at h
    · simp only [Prod.mk.injEq, Except.error.injEq] at h
      rw [← h.1]; decide
    · split at h <;> simp only [Prod.mk.injEq, Except.error.injEq, reduceCtorEq, false_and] at h
      rw [← h.1]; decide

theorem zio_errno_toInt_ne_zero (e : zio_errno) : e.toInt ≠ 0 := by
  have := e.pos
  unfold zio_errno.toInt
  omega

/-! ## Claims on the transport swap -/

/-- C3 as stated fails: the temporary instance vector is allocated before the
gate is reached. With use counts `1` and `0` (one busy channel), a requested
name `"kmalloc"` that differs from the current one and resolves to a
registered type, and the vector allocation failing, the call returns `-ENOMEM`
and not `-EBUSY`. -/
theorem busy_gate_not_always_busy :
    (sample_cset 1 0).chan.map (fun c => c.bi.use_count) = [1, 0] ∧
    "kmalloc" ≠ (sample_cset 1 0).zbuf.name ∧
    (zio_buffer_get (sample_env false none none none) (sample_cset 1 0) (some "kmalloc")).1
      = .ok kmalloc_type ∧
    (zio_change_current_buffer (sample_env false none none none) (sample_cset 1 0)
      "kmalloc").1 = -ENOMEM ∧
    (zio_change_current_buffer (sample_env false none none none) (sample_cset 1 0)
      "kmalloc").1 ≠ -EBUSY := by
  refine ⟨by decide, by decide, rfl, by decide, by decide⟩

/-- The outcome of `zio_change_current_buffer` when the sum `j` of the use
counts, as the busy check computes it, is nonzero. -/
theorem change_buffer_busy_sum {τ : Type} (env : zio_env τ) (cset : zio_cset τ)
    (name : String) (zbuf : zio_buffer_type) (ev0 : List zio_event)
    (hname : name ≠ cset.zbuf.name)
    (hget : zio_buffer_get env cset (some name) = (.ok zbuf, ev0))
    (hbusy : (busy_mark cset.chan 0).2 ≠ 0) :
    (zio_change_current_buffer env cset name).1
      = (if env.kzalloc = true then -EBUSY else -ENOMEM) ∧
    (∀ b c a, zio_event.b_create b c a ∉ (zio_change_current_buffer env cset name).2.2) ∧
    zio_event.trigger_abort_disable ∉ (zio_change_current_buffer env cset name).2.2 ∧
    (zio_change_current_buffer env cset name).2.1.ti = cset.ti ∧
    (zio_change_current_buffer env cset name).2.1.zbuf = cset.zbuf ∧
    (zio_change_current_buffer env cset name).2.1.chan.map zio_channel.binding
      = cset.chan.map zio_channel.binding := by
  have hev : ∀ e ∈ ev0 ++ zio_buffer_put zbuf cset.zdev_owner,
      (∃ m, e = zio_event.module_get m) ∨ (∃ m, e = zio_event.module_put m) := by
    intro e he
    rcases List.mem_append.mp he with h | h
    · left
      have := zio_buffer_get_events env cset (some name) e (by rw [hget]; exact h)
      exact this
    · right
      exact ⟨_, zio_buffer_put_events zbuf cset.zdev_owner e h⟩
  have hres : (zio_change_current_buffer env cset name) =
      if env.kzalloc = true then
        (-EBUSY,
          { cset with chan := (busy_clear (busy_mark cset.chan 0).2 (busy_mark cset.chan 0).1) },
          ev0 ++ zio_buffer_put zbuf cset.zdev_owner)
      else (-ENOMEM, cset, ev0 ++ zio_buffer_put zbuf cset.zdev_owner) := by
    unfold zio_change_current_buffer
    simp only [hname, if_false, hget]
    cases env.kzalloc <;> simp [hbusy]
  rw [hres]
  cases env.kzalloc
  · simp only [Bool.false_eq_true, if_false]
    refine ⟨trivial, ?_, ?_, trivial, trivial, trivial⟩
    · intro b c a hmem
      rcases hev _ hmem with ⟨m, h⟩ | ⟨m, h⟩ <;> cases h
    · intro hmem
      rcases hev _ hmem with ⟨m, h⟩ | ⟨m, h⟩ <;> cases h
  · simp only [if_true]
    refine ⟨trivial, ?_, ?_, trivial, trivial, ?_⟩
    · intro b c a hmem
      rcases hev _ hmem with ⟨m, h⟩ | ⟨m, h⟩ <;> cases h
    · intro hmem
      rcases hev _ hmem with ⟨m, h⟩ | ⟨m, h⟩ <;> cases h
    · simp only [busy_clear_binding, busy_mark_binding]

/-- C3 amended (busy gate): for every channel set whose use counts are counts
of users (none negative, their sum below `2^31`) and every requested name that
differs from the current type's name and resolves to a registered type, if at
least one channel's instance has a nonzero use count then
`zio_change_current_buffer` returns `-EBUSY`, or `-ENOMEM` when the temporary
instance vector cannot be allocated; in both cases it creates no instance,
does not quiesce the timing instance (no call, and the timing instance is as
it was), and leaves `cset->zbuf` and every `chan[i].bi` pointing where they
did. -/
theorem change_buffer_busy_gate {τ : Type} (env : zio_env τ) (cset : zio_cset τ)
    (name : String) (zbuf : zio_buffer_type) (ev0 : List zio_event)
    (hname : name ≠ cset.zbuf.name)
    (hget : zio_buffer_get env cset (some name) = (.ok zbuf, ev0))
    (hnn : ∀ c ∈ cset.chan, 0 ≤ c.bi.use_count)
    (hsum : (cset.chan.map (fun c => c.bi.use_count)).sum < 2 ^ 31)
    (hbusy : ∃ c ∈ cset.chan, c.bi.use_count ≠ 0) :
    (zio_change_current_buffer env cset name).1
      = (if env.kzalloc = true then -EBUSY else -ENOMEM) ∧
    (∀ b c a, zio_event.b_create b c a ∉ (zio_change_current_buffer env cset name).2.2) ∧
    zio_event.trigger_abort_disable ∉ (zio_change_current_buffer env cset name).2.2 ∧
    (zio_change_current_buffer env cset name).2.1.ti = cset.ti ∧
    (zio_change_current_buffer env cset name).2.1.zbuf = cset.zbuf ∧
    (zio_change_current_buffer env cset name).2.1.chan.map zio_channel.binding
      = cset.chan.map zio_channel.binding :=
  change_buffer_busy_sum env cset name zbuf ev0 hname hget
    (busy_mark_ne_zero cset.chan hnn hsum hbusy)

theorem change_buffer_busy_gate_witness :
    (∃ c ∈ (sample_cset 0 3).chan, c.bi.use_count ≠ 0) ∧
    (zio_change_current_buffer (sample_env true none none none) (sample_cset 0 3)
      "kmalloc").1 = -EBUSY ∧
    (zio_change_current_buffer (sample_env true none none none) (sample_cset 0 3)
      "kmalloc").2.1.chan.map zio_channel.binding = [100, 101] :=
  ⟨by decide,
   (change_buffer_busy_gate (sample_env true none none none) (sample_cset 0 3) "kmalloc"
      kmalloc_type [zio_event.module_get 2] (by decide) rfl (by decide) (by decide)
      (by decide)).1,
   (change_buffer_busy_gate (sample_env true none none none) (sample_cset 0 3) "kmalloc"
      kmalloc_type [zio_event.module_get 2] (by decide) rfl (by decide) (by decide)
      (by decide)).2.2.2.2.2⟩

/-- C4 as stated fails in two ways. A request for the current type succeeds
(returns 0) without creating anything, and every channel keeps its old
instance. And when the creation at channel 0 fails in the attribute copy, the
instance the plugin had returned for channel 0 is destroyed, although no
earlier channel exists and no registration failed. -/
theorem swap_success_without_new_instance :
    (zio_change_current_buffer (sample_env true none none none) (sample_cset 0 0)
      "vmalloc").1 = 0 ∧
    (zio_change_current_buffer (sample_env true none none none) (sample_cset 0 0)
      "vmalloc").2.2 = [] ∧
    (zio_change_current_buffer (sample_env true none none none) (sample_cset 0 0)
      "vmalloc").2.1.chan.map zio_channel.binding =
        (sample_cset 0 0).chan.map zio_channel.binding ∧
    (__bi_create_and_init (sample_env true none (some 0) none) kmalloc_type
      ⟨0, 0, ⟨100, ZIO_ENABLED, 0, 1, "buffer", some 0⟩⟩).1 = .error enomem ∧
    (zio_change_current_buffer (sample_env true none (some 0) none) (sample_cset 0 0)
      "kmalloc").1 = enomem.toInt ∧
    destroyed_addrs (zio_change_current_buffer (sample_env true none (some 0) none)
      (sample_cset 0 0) "kmalloc").2.2 = [200] := by
  refine ⟨by decide, by decide, by decide, rfl, by decide, by decide⟩

/-- C4 amended (atomic multi-channel swap), for a requested name that differs
from the current type's name. If `zio_change_current_buffer` returns 0 then the
name resolved to a type `zbuf`, `cset->zbuf` is `zbuf`, and the `N` channels
are bound, in order, to the `N` instances that the `create` operation of `zbuf`
returned during the call. If the creation or the registration of the new
instance fails at channel `k` with error `e`, then `k < N`, the call returns
`e`, `cset->zbuf` and every `chan[i].bi` point where they did, and the
instances destroyed are exactly the ones created during the call, each once:
those of the channels `0..k-1`, preceded by the one of channel `k` if it had
been returned by `create` (its attribute copy or its registration failed). -/
theorem change_buffer_atomic_swap {τ : Type} (env : zio_env τ) (cset : zio_cset τ)
    (name : String) (hname : name ≠ cset.zbuf.name) :
    ((zio_change_current_buffer env cset name).1 = 0 →
      ∃ zbuf ev0, zio_buffer_get env cset (some name) = (.ok zbuf, ev0) ∧
        (zio_change_current_buffer env cset name).2.1.zbuf = zbuf ∧
        (zio_change_current_buffer env cset name).2.1.chan.length = cset.chan.length ∧
        (zio_change_current_buffer env cset name).2.1.chan.map zio_channel.binding =
          created_addrs zbuf.b_op (zio_change_current_buffer env cset name).2.2 ∧
        (∀ c ∈ (zio_change_current_buffer env cset name).2.1.chan, c.bi.b_op = zbuf.b_op)) ∧
    (∀ zbuf ev0 e, zio_buffer_get env cset (some name) = (.ok zbuf, ev0) →
      env.kzalloc = true → (busy_mark cset.chan 0).2 = 0 →
      (create_instances env zbuf cset.chan).err = some e →
        (create_instances env zbuf cset.chan).bi_vector.length < cset.chan.length ∧
        (zio_change_current_buffer env cset name).1 = e.toInt ∧
        (zio_change_current_buffer env cset name).2.1.zbuf = cset.zbuf ∧
        (zio_change_current_buffer env cset name).2.1.chan.map zio_channel.binding =
          cset.chan.map zio_channel.binding ∧
        ∃ extra : List Nat, extra.length ≤ 1 ∧
          created_addrs zbuf.b_op (zio_change_current_buffer env cset name).2.2 =
            (create_instances env zbuf cset.chan).bi_vector.map (fun bi => bi.addr) ++ extra ∧
          destroyed_addrs (zio_change_current_buffer env cset name).2.2 =
            extra ++ ((create_instances env zbuf cset.chan).bi_vector.map
              (fun bi => bi.addr)).reverse) := by
  refine ⟨?_, ?_⟩
  · intro hres
    rcases hget : zio_buffer_get env cset (some name) with ⟨r, ev0⟩
    have hg1 := zio_buffer_get_created env cset (some name)
    rw [hget] at hg1
    simp only at hg1
    cases r with
    | error e =>
      have hne := zio_buffer_get_error env cset (some name) e ev0 hget
      simp [zio_change_current_buffer, hname, hget, hne] at hres
    | ok zbuf =>
      refine ⟨zbuf, ev0, rfl, ?_⟩
      cases hk : env.kzalloc with
      | false =>
        simp only [zio_change_current_buffer, hname, hget, hk, if_true, if_false] at hres
        exact absurd hres (by decide)
      | true =>
        by_cases hj : (busy_mark cset.chan 0).2 = 0
        · obtain ⟨c1, c2, c3⟩ := create_instances_spec env zbuf cset.chan
          cases hcr : (create_instances env zbuf cset.chan).err with
          | some err =>
            simp only [zio_change_current_buffer, hname, hget, hk, hj, busy_clear_zero,
              create_instances_busy_mark, hcr, if_false, ne_eq, not_true_eq_false,
              Bool.true_eq_false] at hres
            exact absurd hres (zio_errno_toInt_ne_zero err)
          | none =>
            obtain ⟨d1, d2⟩ := c2 hcr
            obtain ⟨r1, r2, r3, r4⟩ := replace_instances_spec env cset.zbuf zbuf.b_op
              (busy_mark cset.chan 0).1 (create_instances env zbuf cset.chan).bi_vector
              (by rw [d2, ← List.length_map (busy_mark cset.chan 0).1 zio_channel.binding,
                    busy_mark_binding, List.length_map])
            have hlen : (busy_mark cset.chan 0).1.length = cset.chan.length := by
              rw [← List.length_map (busy_mark cset.chan 0).1 zio_channel.binding,
                busy_mark_binding, List.length_map]
            simp only [zio_change_current_buffer, hname, hget, hk, hj, busy_clear_zero,
              create_instances_busy_mark, hcr, if_false, ne_eq, not_true_eq_false,
              Bool.true_eq_false, created_addrs_append, hg1 zbuf.b_op, c1, d1, r1, r2, r4,
              (zio_buffer_put_created cset.zbuf cset.zdev_owner zbuf.b_op).1, hlen,
              List.nil_append, List.append_nil, true_and]
            refine ⟨?_, r3 c3⟩
            have e1 : created_addrs zbuf.b_op [zio_event.trigger_abort_disable] = [] := rfl
            have e2 : created_addrs zbuf.b_op [zio_event.kfree_vector] = [] := rfl
            have e3 : ∀ c : Bool, created_addrs zbuf.b_op
                (if c = true then [zio_event.arm_trigger] else []) = [] := by
              intro c
              cases c <;> rfl
            simp [e1, e2, e3]
        · simp only [zio_change_current_buffer, hname, hget, hk, hj, if_true, if_false,
            ne_eq, not_false_eq_true, Bool.true_eq_false] at hres
          exact absurd hres (by decide)
  · intro zbuf ev0 e hget hk hj hcr
    obtain ⟨c1, _, _⟩ := create_instances_spec env zbuf cset.chan
    obtain ⟨f1, f2⟩ := create_instances_failed env zbuf cset.chan
    have hg1 := zio_buffer_get_created env cset (some name)
    rw [hget] at hg1
    simp only at hg1
    obtain ⟨u1, u2⟩ := unwind_instances_created zbuf zbuf.b_op
      (create_instances env zbuf cset.chan).bi_vector
    obtain ⟨p1, p2⟩ := zio_buffer_put_created zbuf cset.zdev_owner zbuf.b_op
    have e1 : created_addrs zbuf.b_op [zio_event.kfree_vector] = [] := rfl
    have e2 : destroyed_addrs [zio_event.kfree_vector] = [] := rfl
    simp only [zio_change_current_buffer, hname, hget, hk, hj, busy_clear_zero,
      create_instances_busy_mark, hcr, if_false, ne_eq, not_true_eq_false,
      Bool.true_eq_false, busy_mark_binding, created_addrs_append, destroyed_addrs_append,
      hg1 zbuf.b_op, c1, u1, u2, p1, p2, e1, e2, List.nil_append, List.append_nil, true_and]
    exact ⟨f2 e hcr, _, f1, rfl, rfl⟩

theorem change_buffer_atomic_swap_witness :
    (∃ zbuf ev0,
      zio_buffer_get (sample_env true none none none) (sample_cset 0 0) (some "kmalloc")
        = (.ok zbuf, ev0) ∧
      (zio_change_current_buffer (sample_env true none none none) (sample_cset 0 0)
        "kmalloc").2.1.zbuf = zbuf ∧
      (zio_change_current_buffer (sample_env true none none none) (sample_cset 0 0)
        "kmalloc").2.1.chan.length = (sample_cset 0 0).chan.length ∧
      (zio_change_current_buffer (sample_env true none none none) (sample_cset 0 0)
        "kmalloc").2.1.chan.map zio_channel.binding =
          created_addrs zbuf.b_op (zio_change_current_buffer
            (sample_env true none none none) (sample_cset 0 0) "kmalloc").2.2 ∧
      (∀ c ∈ (zio_change_current_buffer (sample_env true none none none) (sample_cset 0 0)
        "kmalloc").2.1.chan, c.bi.b_op = zbuf.b_op)) ∧
    (zio_change_current_buffer (sample_env true none none none) (sample_cset 0 0)
      "kmalloc").2.1.chan.map zio_channel.binding = [200, 201] ∧
    (zio_change_current_buffer (sample_env true none none (some 1)) (sample_cset 0 0)
      "kmalloc").1 = enomem.toInt ∧
    (zio_change_current_buffer (sample_env true none none (some 1)) (sample_cset 0 0)
      "kmalloc").2.1.chan.map zio_channel.binding =
        (sample_cset 0 0).chan.map zio_channel.binding ∧
    destroyed_addrs (zio_change_current_buffer (sample_env true none none (some 1))
      (sample_cset 0 0) "kmalloc").2.2 = [201, 200] :=
  ⟨(change_buffer_atomic_swap (sample_env true none none none) (sample_cset 0 0) "kmalloc"
      (by decide)).1 (by decide),
   by decide,
   ((change_buffer_atomic_swap (sample_env true none none (some 1)) (sample_cset 0 0)
      "kmalloc" (by decide)).2 kmalloc_type [zio_event.module_get 2] enomem rfl rfl
      (by decide) (by decide)).2.1,
   ((change_buffer_atomic_swap (sample_env true none none (some 1)) (sample_cset 0 0)
      "kmalloc" (by decide)).2 kmalloc_type [zio_event.module_get 2] enomem rfl rfl
      (by decide) (by decide)).2.2.2.1,
   by decide⟩

/-! ## Theorems: timing swap -/

theorem zio_trigger_get_events {τ : Type} (env : zio_env τ) (cset : zio_cset τ)
    (name : Option String) :
    ∀ e ∈ (zio_trigger_get env cset name).2, ∃ m, e = zio_event.module_get m := by
  unfold zio_trigger_get __zio_object_get
  intro e he
  split at he
  · simp at he
  · split_ifs at he
    · simp at he
    · split at he <;> rename_i heq <;> split at heq <;>
        (try split_ifs at heq) <;>
        simp only [Prod.mk.injEq] at heq <;> obtain ⟨_, h2⟩ := heq <;> subst h2 <;>
        simp at he <;> exact ⟨_, he⟩

theorem zio_trigger_put_events (trig : zio_trigger_type) (owner : Nat) :
    ∀ e ∈ zio_trigger_put trig owner, e = zio_event.module_put trig.owner := by
  unfold zio_trigger_put
  intro e he
  split_ifs at he <;> simp at he
  exact he

/-- A list of module calls contains no quiesce, no unregistration, no creation
and no destruction. -/
theorem module_events_inert (l : List zio_event)
    (h : ∀ e ∈ l, (∃ m, e = zio_event.module_get m) ∨ (∃ m, e = zio_event.module_put m)) :
    zio_event.trigger_abort_disable ∉ l ∧
    (∀ ev ∈ l, zio_event.unregisters ev = false) ∧
    ti_destroyed_addrs l = [] ∧ ti_created_addrs l = [] := by
  induction l with
  | nil => simp [ti_destroyed_addrs, ti_created_addrs]
  | cons x xs ih =>
    obtain ⟨i1, i2, i3, i4⟩ := ih (fun e he => h e (List.mem_cons_of_mem _ he))
    rcases h x (List.mem_cons_self _ _) with ⟨m, hm⟩ | ⟨m, hm⟩ <;> subst hm <;>
      simp_all [ti_destroyed_addrs, ti_created_addrs, zio_event.unregisters,
        zio_event.t_destroyed, zio_event.t_created]

theorem ti_created_addrs_append (l₁ l₂ : List zio_event) :
    ti_created_addrs (l₁ ++ l₂) = ti_created_addrs l₁ ++ ti_created_addrs l₂ := by
  simp [ti_created_addrs]

theorem ti_destroyed_addrs_append (l₁ l₂ : List zio_event) :
    ti_destroyed_addrs (l₁ ++ l₂) = ti_destroyed_addrs l₁ ++ ti_destroyed_addrs l₂ := by
  simp [ti_destroyed_addrs]

theorem ti_create_and_init_spec {τ : Type} (env : zio_env τ) (trig : zio_trigger_type)
    (cset : zio_cset τ) :
    (∀ e ev, __ti_create_and_init env trig cset = (.error e, ev) →
      zio_event.trigger_abort_disable ∉ ev ∧
      (∀ x ∈ ev, zio_event.unregisters x = false) ∧
      ti_destroyed_addrs ev = ti_created_addrs ev ∧
      (∀ x ∈ ev, (∀ m, x ≠ zio_event.module_get m) ∧ (∀ m, x ≠ zio_event.module_put m))) ∧
    (∀ ti ev, __ti_create_and_init env trig cset = (.ok ti, ev) →
      zio_event.trigger_abort_disable ∉ ev ∧
      (∀ x ∈ ev, zio_event.unregisters x = false) ∧
      ti_created_addrs ev = [ti.addr] ∧ ti_destroyed_addrs ev = [] ∧
      (∀ x ∈ ev, (∀ m, x ≠ zio_event.module_get m) ∧ (∀ m, x ≠ zio_event.module_put m))) := by
  unfold __ti_create_and_init
  refine ⟨?_, ?_⟩
  · intro e ev h
    split at h
    · simp only [Prod.mk.injEq] at h
      obtain ⟨_, h2⟩ := h
      subst h2
      simp [ti_created_addrs, ti_destroyed_addrs, zio_event.t_created, zio_event.t_destroyed,
        zio_event.unregisters, ref_delta]
    · dsimp only at h
      split at h <;> simp only [Prod.mk.injEq, reduceCtorEq, false_and] at h
      obtain ⟨_, h2⟩ := h
      subst h2
      simp [ti_created_addrs, ti_destroyed_addrs, zio_event.t_created, zio_event.t_destroyed,
        zio_event.unregisters, ref_delta]
  · intro ti ev h
    split at h
    · simp at h
    · dsimp only at h
      split at h <;> simp only [Prod.mk.injEq, reduceCtorEq, false_and] at h
      obtain ⟨h1, h2⟩ := h
      subst h2
      simp only [Except.ok.injEq] at h1
      subst h1
      simp [ti_created_addrs, ti_destroyed_addrs, zio_event.t_created, zio_event.t_destroyed,
        zio_event.unregisters]

theorem ti_register_spec {τ : Type} (env : zio_env τ) (trig : zio_trigger_type) (ti : Nat)
    (name : String) :
    zio_event.trigger_abort_disable ∉ (__ti_register env trig ti name).2 ∧
    (∀ x ∈ (__ti_register env trig ti name).2, zio_event.unregisters x = false) ∧
    ti_created_addrs (__ti_register env trig ti name).2 = [] ∧
    ti_destroyed_addrs (__ti_register env trig ti name).2 = [] ∧
    (∀ x ∈ (__ti_register env trig ti name).2,
      (∀ m, x ≠ zio_event.module_get m) ∧ (∀ m, x ≠ zio_event.module_put m)) := by
  unfold __ti_register
  split
  · simp [ti_created_addrs, ti_destroyed_addrs, zio_event.t_created, zio_event.t_destroyed,
      zio_event.unregisters]
  · split <;>
      simp [ti_created_addrs, ti_destroyed_addrs, zio_event.t_created,
        zio_event.t_destroyed, zio_event.unregisters]

theorem zio_trigger_get_error {τ : Type} (env : zio_env τ) (cset : zio_cset τ)
    (name : Option String) (e : Int) (ev : List zio_event)
    (h : zio_trigger_get env cset name = (.error e, ev)) : e ≠ 0 := by
  unfold zio_trigger_get at h
  split at h
  · simp only [Prod.mk.injEq, Except.error.injEq] at h
    rw [← h.1]; decide
  · split_ifs at h
    · simp only [Prod.mk.injEq, Except.error.injEq] at h
      rw [← h.1]; decide
    · split at h <;> simp only [Prod.mk.injEq, Except.error.injEq, reduceCtorEq, false_and] at h
      rw [← h.1]; decide

theorem find_by_name_some {α : Type} (l : List (zio_object_list_item α)) (n : String)
    (item : zio_object_list_item α) (h : __find_by_name l (some n) = some item) :
    item ∈ l ∧ item.name = n := by
  unfold __find_by_name at h
  simp only at h
  refine ⟨List.mem_of_find?_eq_some h, ?_⟩
  have := List.find?_some h
  simpa using this

theorem zio_trigger_get_ok {τ : Type} (env : zio_env τ) (cset : zio_cset τ) (n : String)
    (trig : zio_trigger_type) (ev : List zio_event)
    (h : zio_trigger_get env cset (some n) = (.ok trig, ev)) :
    ∃ item ∈ env.all_trigger_types, item.name = n ∧ item.obj = trig ∧
      ev = if cset.zdev_owner ≠ item.owner then [zio_event.module_get item.owner] else [] := by
  unfold zio_trigger_get __zio_object_get at h
  simp only at h
  split_ifs at h
  · simp at h
  · cases hf : __find_by_name env.all_trigger_types (some n) with
    | none => rw [hf] at h; simp at h
    | some item =>
      obtain ⟨hm, hn⟩ := find_by_name_some _ _ _ hf
      rw [hf] at h
      refine ⟨item, hm, hn, ?_⟩
      simp only at h
      split_ifs at h with h1 h2 <;> simp_all

/-! ## Claims on the timing swap -/

/-- C20: a swap to the current binding is a no-op. Called with the name of the
current timing type, `zio_change_current_trigger` returns 0, makes no call at
all (no module reference, no creation, no destruction, no quiesce) and leaves
the channel set, its channels and their instances as they are, whatever the
registries hold; and so does `zio_change_current_buffer` called with the name
of the current transport type. -/
theorem change_current_same_name {τ : Type} (env : zio_env τ) (cset : zio_cset τ) :
    zio_change_current_trigger env cset cset.trig.name = (0, cset, []) ∧
    zio_change_current_buffer env cset cset.zbuf.name = (0, cset, []) := by
  constructor
  · simp [zio_change_current_trigger]
  · simp [zio_change_current_buffer]

/-- C11 as stated fails: a requested name that is not in the registry of
timing types but is longer than `ZIO_OBJ_NAME_LEN` is refused with `-EINVAL`,
not with `-ENODEV`. -/
theorem unknown_long_trigger_name :
    "averylongtriggername" ≠ (sample_cset 0 0).trig.name ∧
    (__find_by_name (sample_env true none none none).all_trigger_types
      (some "averylongtriggername")).isNone = true ∧
    (zio_change_current_trigger (sample_env true none none none) (sample_cset 0 0)
      "averylongtriggername").1 = -EINVAL := by
  refine ⟨by decide, by decide, by decide⟩

/-- C11 amended (timing swap fails cleanly), for a requested name different
from the current timing type's name. If the name is not in the registry of
timing types the call returns `-ENODEV` when the name has at most
`ZIO_OBJ_NAME_LEN` bytes and `-EINVAL` when it is longer, and makes no call.
If the name resolves and the creation or the registration of the new timing
instance fails with error `e`, the call returns `e`. In each of these cases
the channel set (in particular `cset->trig`, `cset->ti` and the old timing
instance) is what it was, no quiesce is made, nothing is unregistered, and the
timing instances destroyed are exactly the ones created during the call. -/
theorem change_trigger_fails_cleanly {τ : Type} (env : zio_env τ) (cset : zio_cset τ)
    (name : String) (hname : name ≠ cset.trig.name) :
    (name.utf8ByteSize ≤ env.ZIO_OBJ_NAME_LEN →
      (__find_by_name env.all_trigger_types (some name)).isNone = true →
      zio_change_current_trigger env cset name = (-ENODEV, cset, [])) ∧
    (env.ZIO_OBJ_NAME_LEN < name.utf8ByteSize →
      zio_change_current_trigger env cset name = (-EINVAL, cset, [])) ∧
    (∀ trig ev0, zio_trigger_get env cset (some name) = (.ok trig, ev0) →
      (∀ e ev1, __ti_create_and_init env trig cset = (.error e, ev1) →
        ti_swap_failed_cleanly cset e.toInt (zio_change_current_trigger env cset name)) ∧
      (∀ ti ev1 e ev2, __ti_create_and_init env trig cset = (.ok ti, ev1) →
        __ti_register env trig ti.addr "trigger-tmp" = (some e, ev2) →
        ti_swap_failed_cleanly cset e.toInt (zio_change_current_trigger env cset name))) := by
  refine ⟨?_, ?_, ?_⟩
  · intro hlen hnone
    have hn : __find_by_name env.all_trigger_types (some name) = none := by
      cases h : __find_by_name env.all_trigger_types (some name) with
      | none => rfl
      | some x => simp [h] at hnone
    have hlen' : ¬ name.utf8ByteSize > env.ZIO_OBJ_NAME_LEN := Nat.not_lt.mpr hlen
    simp [zio_change_current_trigger, zio_trigger_get, __zio_object_get, hname, hlen', hn]
  · intro hlen
    simp [zio_change_current_trigger, zio_trigger_get, hname, hlen]
  · intro trig ev0 hget
    have hev0 := zio_trigger_get_events env cset (some name)
    rw [hget] at hev0
    simp only at hev0
    obtain ⟨a1, a2, a3, a4⟩ := module_events_inert ev0 (fun e he => Or.inl (hev0 e he))
    obtain ⟨p1, p2, p3, p4⟩ := module_events_inert (zio_trigger_put trig cset.zdev_owner)
      (fun e he => Or.inr ⟨_, zio_trigger_put_events trig cset.zdev_owner e he⟩)
    obtain ⟨herr, hok⟩ := ti_create_and_init_spec env trig cset
    refine ⟨?_, ?_⟩
    · intro e ev1 hc
      obtain ⟨c1, c2, c3, _⟩ := herr e ev1 hc
      unfold ti_swap_failed_cleanly
      simp only [zio_change_current_trigger, hname, if_false, hget, hc]
      refine ⟨trivial, trivial, ?_, ?_, ?_⟩
      · simp only [List.mem_append, not_or]
        exact ⟨⟨a1, c1⟩, p1⟩
      · intro ev hev
        simp only [List.mem_append] at hev
        rcases hev with (h | h) | h
        · exact a2 ev h
        · exact c2 ev h
        · exact p2 ev h
      · simp only [ti_destroyed_addrs_append, ti_created_addrs_append, a3, a4, p3, p4, c3]
    · intro ti ev1 e ev2 hc hr
      obtain ⟨c1, c2, c3, c4, _⟩ := hok ti ev1 hc
      obtain ⟨r1, r2, r3, r4, _⟩ := ti_register_spec env trig ti.addr "trigger-tmp"
      rw [hr] at r1 r2 r3 r4
      simp only at r1 r2 r3 r4
      unfold ti_swap_failed_cleanly
      simp only [zio_change_current_trigger, hname, if_false, hget, hc, hr]
      refine ⟨trivial, trivial, ?_, ?_, ?_⟩
      · simp only [List.mem_append, not_or]
        refine ⟨⟨⟨⟨a1, c1⟩, r1⟩, ?_⟩, p1⟩
        simp [__ti_destroy]
      · intro ev hev
        simp only [List.mem_append] at hev
        rcases hev with (((h | h) | h) | h) | h
        · exact a2 ev h
        · exact c2 ev h
        · exact r2 ev h
        · simp only [__ti_destroy, List.mem_cons, List.mem_singleton, List.not_mem_nil,
            or_false] at h
          rcases h with h | h <;> subst h <;> rfl
        · exact p2 ev h
      · simp only [ti_destroyed_addrs_append, ti_created_addrs_append, a3, a4, p3, p4, c3, c4,
          r3, r4]
        simp [ti_destroyed_addrs, ti_created_addrs, __ti_destroy, zio_event.t_destroyed,
          zio_event.t_created]

theorem change_trigger_fails_cleanly_witness :
    zio_change_current_trigger (sample_trig_env false false false) (sample_cset 0 0) "none"
      = (-ENODEV, sample_cset 0 0, []) ∧
    ti_swap_failed_cleanly (sample_cset 0 0) enomem.toInt
      (zio_change_current_trigger (sample_trig_env false true false) (sample_cset 0 0)
        "timer") ∧
    ti_swap_failed_cleanly (sample_cset 0 0) enomem.toInt
      (zio_change_current_trigger (sample_trig_env false false true) (sample_cset 0 0)
        "timer") :=
  ⟨(change_trigger_fails_cleanly (sample_trig_env false false false) (sample_cset 0 0) "none"
      (by decide)).1 (by decide) (by decide),
   ((change_trigger_fails_cleanly (sample_trig_env false true false) (sample_cset 0 0)
      "timer" (by decide)).2.2 timer_trig [zio_event.module_get 4] rfl).1 enomem
      [zio_event.t_create 4 (some 400), zio_event.zattr_set_copy 400,
       zio_event.t_destroy 4 400] rfl,
   ((change_trigger_fails_cleanly (sample_trig_env false false true) (sample_cset 0 0)
      "timer" (by decide)).2.2 timer_trig [zio_event.module_get 4] rfl).2 ⟨400, ⟨ZIO_DISABLED, ()⟩⟩
      [zio_event.t_create 4 (some 400), zio_event.zattr_set_copy 400,
       zio_event.ctrl_update_nsamples 400] enomem
      [zio_event.dev_set_name 400 "trigger-tmp", zio_event.zattr_set_create 400,
       zio_event.device_register 400, zio_event.zattr_set_remove 400] rfl rfl⟩

theorem ref_delta_append (m : Nat) (l₁ l₂ : List zio_event) :
    ref_delta m (l₁ ++ l₂) = ref_delta m l₁ + ref_delta m l₂ := by
  unfold ref_delta
  simp only [List.count_append]
  push_cast
  ring

theorem ref_delta_inert (m : Nat) (l : List zio_event)
    (h : ∀ x ∈ l, zio_event.is_module x = false) : ref_delta m l = 0 := by
  unfold ref_delta
  have h1 : l.count (zio_event.module_get m) = 0 := by
    rw [List.count_eq_zero]
    intro hm
    have := h _ hm
    simp [zio_event.is_module] at this
  have h2 : l.count (zio_event.module_put m) = 0 := by
    rw [List.count_eq_zero]
    intro hm
    have := h _ hm
    simp [zio_event.is_module] at this
  simp [h1, h2]

theorem not_mem_inert (l : List zio_event) (e : zio_event)
    (h : ∀ x ∈ l, zio_event.is_module x = false) (he : zio_event.is_module e = true) :
    e ∉ l := by
  intro hm
  rw [h e hm] at he
  exact absurd he (by decide)

theorem create_instances_calls {τ : Type} (env : zio_env τ) (zbuf : zio_buffer_type)
    (chans : List zio_channel) :
    ∀ x ∈ (create_instances env zbuf chans).events, zio_event.is_instance_call x = true := by
  induction chans with
  | nil => simp [create_instances]
  | cons c cs ih =>
    unfold create_instances __bi_create_and_init __bi_register __bi_destroy
    intro x hx
    split at hx
    · rename_i heq
      split at heq
      · simp only [Prod.mk.injEq] at heq
        rw [← heq.2] at hx
        simp only [List.mem_singleton] at hx
        subst hx; rfl
      · dsimp only at heq
        split at heq <;> simp only [Prod.mk.injEq, reduceCtorEq, false_and] at heq
        rw [← heq.2] at hx
        simp only [List.mem_cons, List.mem_singleton, List.not_mem_nil, or_false] at hx
        rcases hx with h | h | h <;> subst h <;> rfl
    · rename_i heq
      have hev1 : ∀ y ∈ (‹List zio_event› : List zio_event), zio_event.is_instance_call y = true := by
        split at heq
        · simp at heq
        · dsimp only at heq
          split at heq <;> simp only [Prod.mk.injEq, reduceCtorEq, false_and] at heq
          rw [← heq.2]
          intro y hy
          simp only [List.mem_cons, List.mem_singleton, List.not_mem_nil, or_false] at hy
          rcases hy with h | h <;> subst h <;> rfl
      split at hx
      · rename_i hreg
        simp only [List.mem_append] at hx
        rcases hx with (h | h) | h
        · exact hev1 x h
        · dsimp only at hreg
          split at hreg
          · simp only [Prod.mk.injEq] at hreg
            rw [← hreg.2.2] at h
            simp only [List.mem_singleton] at h
            subst h; rfl
          · split at hreg <;> simp only [Prod.mk.injEq, reduceCtorEq, false_and] at hreg
            rw [← hreg.2.2] at h
            simp only [List.mem_cons, List.mem_singleton, List.not_mem_nil, or_false] at h
            rcases h with h | h | h <;> subst h <;> rfl
        · simp only [List.mem_cons, List.mem_singleton, List.not_mem_nil, or_false] at h
          rcases h with h | h <;> subst h <;> rfl
      · rename_i hreg
        simp only [List.mem_append] at hx
        rcases hx with (h | h) | h
        · exact hev1 x h
        · dsimp only at hreg
          split at hreg
          · simp at hreg
          · split at hreg <;> simp only [Prod.mk.injEq, reduceCtorEq, false_and] at hreg
            rw [← hreg.2.2] at h
            simp only [List.mem_cons, List.mem_singleton, List.not_mem_nil, or_false] at h
            rcases h with h | h | h <;> subst h <;> rfl
        · exact ih x h

theorem instance_call_not_module (x : zio_event) (h : zio_event.is_instance_call x = true) :
    zio_event.is_module x = false := by
  cases x <;> first | rfl | simp [zio_event.is_instance_call] at h

theorem create_instances_inert {τ : Type} (env : zio_env τ) (zbuf : zio_buffer_type)
    (chans : List zio_channel) :
    ∀ x ∈ (create_instances env zbuf chans).events, zio_event.is_module x = false :=
  fun x hx => instance_call_not_module x (create_instances_calls env zbuf chans x hx)

theorem unwind_instances_inert (zbuf : zio_buffer_type) (bis : List zio_bi) :
    ∀ x ∈ unwind_instances zbuf bis, zio_event.is_module x = false := by
  unfold unwind_instances
  intro x hx
  simp only [List.mem_flatMap, List.mem_reverse, __bi_unregister, __bi_destroy,
    List.mem_append, List.mem_cons, List.mem_singleton, List.not_mem_nil, or_false] at hx
  obtain ⟨_, _, h⟩ := hx
  rcases h with (h | h | h) | h | h <;> subst h <;> rfl

theorem replace_instances_calls {τ : Type} (env : zio_env τ) (zbuf_old : zio_buffer_type)
    (chans : List zio_channel) (bis : List zio_bi) :
    ∀ x ∈ (replace_instances env zbuf_old chans bis).2, zio_event.is_instance_call x = true := by
  induction chans generalizing bis with
  | nil => cases bis <;> simp [replace_instances]
  | cons c cs ih =>
    cases bis with
    | nil => simp [replace_instances]
    | cons b bs =>
      intro x hx
      simp only [replace_instances, __bi_unregister, __bi_destroy, List.mem_append,
        List.mem_cons, List.mem_singleton, List.not_mem_nil, or_false] at hx
      rcases hx with (((h | h | h) | h | h) | h) | h
      all_goals first
        | (subst h; rfl)
        | exact ih bs x h

theorem replace_instances_inert {τ : Type} (env : zio_env τ) (zbuf_old : zio_buffer_type)
    (chans : List zio_channel) (bis : List zio_bi) :
    ∀ x ∈ (replace_instances env zbuf_old chans bis).2, zio_event.is_module x = false :=
  fun x hx => instance_call_not_module x (replace_instances_calls env zbuf_old chans bis x hx)

theorem zio_buffer_get_ok {τ : Type} (env : zio_env τ) (cset : zio_cset τ) (n : String)
    (zbuf : zio_buffer_type) (ev : List zio_event)
    (h : zio_buffer_get env cset (some n) = (.ok zbuf, ev)) :
    ∃ item ∈ env.all_buffer_types, item.name = n ∧ item.obj = zbuf ∧
      ev = if cset.zdev_owner ≠ item.owner then [zio_event.module_get item.owner] else [] := by
  unfold zio_buffer_get __zio_object_get at h
  simp only at h
  split_ifs at h
  · simp at h
  · cases hf : __find_by_name env.all_buffer_types (some n) with
    | none => rw [hf] at h; simp at h
    | some item =>
      obtain ⟨hm, hn⟩ := find_by_name_some _ _ _ hf
      rw [hf] at h
      refine ⟨item, hm, hn, ?_⟩
      simp only at h
      split_ifs at h with h1 h2 <;> simp_all

theorem zio_buffer_get_error_events {τ : Type} (env : zio_env τ) (cset : zio_cset τ)
    (name : Option String) (e : Int) (ev : List zio_event)
    (h : zio_buffer_get env cset name = (.error e, ev)) : ev = [] := by
  unfold zio_buffer_get __zio_object_get at h
  split at h
  · simp only [Prod.mk.injEq] at h
    exact h.2.symm
  · split_ifs at h
    · simp only [Prod.mk.injEq] at h
      exact h.2.symm
    · split at h <;> rename_i heq
      · split at heq
        · simp only [Prod.mk.injEq] at heq h
          rw [← h.2, ← heq.2]
        · split_ifs at heq <;> simp only [Prod.mk.injEq, reduceCtorEq, false_and] at heq h
          rw [← h.2, ← heq.2]
      · simp at h

theorem zio_trigger_get_error_events {τ : Type} (env : zio_env τ) (cset : zio_cset τ)
    (name : Option String) (e : Int) (ev : List zio_event)
    (h : zio_trigger_get env cset name = (.error e, ev)) : ev = [] := by
  unfold zio_trigger_get __zio_object_get at h
  split at h
  · simp only [Prod.mk.injEq] at h
    exact h.2.symm
  · split_ifs at h
    · simp only [Prod.mk.injEq] at h
      exact h.2.symm
    · split at h <;> rename_i heq
      · split at heq
        · simp only [Prod.mk.injEq] at heq h
          rw [← h.2, ← heq.2]
        · split_ifs at heq <;> simp only [Prod.mk.injEq, reduceCtorEq, false_and] at heq h
          rw [← h.2, ← heq.2]
      · simp at h

/-- The reference taken by a successful lookup of a type owned by `o`. -/
theorem ref_delta_get (dev m o : Nat) :
    ref_delta m (if dev ≠ o then [zio_event.module_get o] else []) = owner_gain dev m o ∧
    zio_event.module_get dev ∉ (if dev ≠ o then [zio_event.module_get o] else []) ∧
    zio_event.module_put dev ∉ (if dev ≠ o then [zio_event.module_get o] else []) := by
  unfold ref_delta owner_gain
  by_cases h : dev = o
  · subst h; simp
  · have h' : o ≠ dev := fun e => h e.symm
    by_cases hm : m = o
    · subst hm; simp [h, h']
    · have hm' : ¬ o = m := fun e => hm e.symm
      simp [h, h', hm, hm', List.count_cons]

/-- The reference dropped by a put of a type owned by `o`. -/
theorem ref_delta_put (dev m o : Nat) :
    ref_delta m (if o ≠ dev then [zio_event.module_put o] else []) = - owner_gain dev m o ∧
    zio_event.module_get dev ∉ (if o ≠ dev then [zio_event.module_put o] else []) ∧
    zio_event.module_put dev ∉ (if o ≠ dev then [zio_event.module_put o] else []) := by
  unfold ref_delta owner_gain
  by_cases h : o = dev
  · subst h; simp
  · have h' : dev ≠ o := fun e => h e.symm
    by_cases hm : m = o
    · subst hm; simp [h, h']
    · have hm' : ¬ o = m := fun e => hm e.symm
      simp [h, h', hm, hm', List.count_cons]

theorem inert_facts (l : List zio_event) (h : ∀ x ∈ l, zio_event.is_module x = false)
    (m dev : Nat) :
    ref_delta m l = 0 ∧ zio_event.module_get dev ∉ l ∧ zio_event.module_put dev ∉ l :=
  ⟨ref_delta_inert m l h, not_mem_inert l _ h rfl, not_mem_inert l _ h rfl⟩

theorem change_buffer_references {τ : Type} (env : zio_env τ) (cset : zio_cset τ)
    (name : String) (m : Nat)
    (hbuf : ∀ it ∈ env.all_buffer_types, it.owner = it.obj.owner) :
    ((zio_change_current_buffer env cset name).1 ≠ 0 →
      ref_delta m (zio_change_current_buffer env cset name).2.2 = 0) ∧
    ((zio_change_current_buffer env cset name).1 = 0 →
      ref_delta m (zio_change_current_buffer env cset name).2.2 =
        owner_gain cset.zdev_owner m (zio_change_current_buffer env cset name).2.1.zbuf.owner
          - owner_gain cset.zdev_owner m cset.zbuf.owner) ∧
    zio_event.module_get cset.zdev_owner ∉ (zio_change_current_buffer env cset name).2.2 ∧
    zio_event.module_put cset.zdev_owner ∉ (zio_change_current_buffer env cset name).2.2 := by
  by_cases hname : name = cset.zbuf.name
  · simp [zio_change_current_buffer, hname, ref_delta]
  · rcases hget : zio_buffer_get env cset (some name) with ⟨r, ev0⟩
    cases r with
    | error e =>
      have hne := zio_buffer_get_error env cset (some name) e ev0 hget
      have hnil := zio_buffer_get_error_events env cset (some name) e ev0 hget
      subst hnil
      simp [zio_change_current_buffer, hname, hget, hne, ref_delta]
    | ok zbuf =>
      obtain ⟨item, hitem, _, hiobj, hev0⟩ := zio_buffer_get_ok env cset name zbuf ev0 hget
      have hown : item.owner = zbuf.owner := by rw [← hiobj]; exact hbuf item hitem
      rw [hown] at hev0
      obtain ⟨g1, g2, g3⟩ := ref_delta_get cset.zdev_owner m zbuf.owner
      rw [← hev0] at g1 g2 g3
      obtain ⟨p1, p2, p3⟩ := ref_delta_put cset.zdev_owner m zbuf.owner
      obtain ⟨q1, q2, q3⟩ := ref_delta_put cset.zdev_owner m cset.zbuf.owner
      have hput : ∀ z : zio_buffer_type, zio_buffer_put z cset.zdev_owner =
          if z.owner ≠ cset.zdev_owner then [zio_event.module_put z.owner] else [] :=
        fun _ => rfl
      rw [← hput] at p1 p2 p3 q1 q2 q3
      cases hk : env.kzalloc with
      | false =>
        simp only [zio_change_current_buffer, hname, hget, hk, if_true, if_false,
          ref_delta_append, List.mem_append, not_or, g1, p1]
        refine ⟨fun _ => by omega, fun h => absurd h (by decide), ⟨g2, p2⟩, ⟨g3, p3⟩⟩
      | true =>
        by_cases hj : (busy_mark cset.chan 0).2 = 0
        · obtain ⟨k1, k2, k3⟩ := inert_facts _ (create_instances_inert env zbuf cset.chan)
            m cset.zdev_owner
          have f1 : ∀ d, ref_delta m [zio_event.kfree_vector] = 0 ∧
              zio_event.module_get d ∉ [zio_event.kfree_vector] ∧
              zio_event.module_put d ∉ [zio_event.kfree_vector] := by
            intro d; simp [ref_delta]
          have f2 : ∀ d, ref_delta m [zio_event.trigger_abort_disable] = 0 ∧
              zio_event.module_get d ∉ [zio_event.trigger_abort_disable] ∧
              zio_event.module_put d ∉ [zio_event.trigger_abort_disable] := by
            intro d; simp [ref_delta]
          have f3 : ∀ (c : Bool) d,
              ref_delta m (if c = true then [zio_event.arm_trigger] else []) = 0 ∧
              zio_event.module_get d ∉ (if c = true then [zio_event.arm_trigger] else []) ∧
              zio_event.module_put d ∉ (if c = true then [zio_event.arm_trigger] else []) := by
            intro c d; cases c <;> simp [ref_delta]
          cases hcr : (create_instances env zbuf cset.chan).err with
          | some err =>
            obtain ⟨u1, u2, u3⟩ := inert_facts _ (unwind_instances_inert zbuf
              (create_instances env zbuf cset.chan).bi_vector) m cset.zdev_owner
            simp only [zio_change_current_buffer, hname, hget, hk, hj, busy_clear_zero,
              create_instances_busy_mark, hcr, if_false, ne_eq, not_true_eq_false,
              Bool.true_eq_false, ref_delta_append, List.mem_append, not_or, g1, p1, k1, u1,
              (f1 cset.zdev_owner).1]
            refine ⟨fun _ => by omega,
              fun h => absurd h (zio_errno_toInt_ne_zero err),
              ⟨⟨⟨⟨g2, k2⟩, u2⟩, (f1 _).2.1⟩, p2⟩, ⟨⟨⟨⟨g3, k3⟩, u3⟩, (f1 _).2.2⟩, p3⟩⟩
          | none =>
            obtain ⟨r1, r2, r3⟩ := inert_facts _ (replace_instances_inert env cset.zbuf
              (busy_mark cset.chan 0).1 (create_instances env zbuf cset.chan).bi_vector)
              m cset.zdev_owner
            simp only [zio_change_current_buffer, hname, hget, hk, hj, busy_clear_zero,
              create_instances_busy_mark, hcr, if_false, ne_eq, not_true_eq_false,
              Bool.true_eq_false, ref_delta_append, List.mem_append, not_or, g1, q1, k1, r1,
              (f1 cset.zdev_owner).1, (f2 cset.zdev_owner).1, (f3 _ cset.zdev_owner).1]
            refine ⟨fun h => h.elim, fun _ => by omega,
              ⟨⟨⟨⟨⟨⟨g2, k2⟩, (f2 _).2.1⟩, r2⟩, (f1 _).2.1⟩, q2⟩, (f3 _ _).2.1⟩,
              ⟨⟨⟨⟨⟨⟨g3, k3⟩, (f2 _).2.2⟩, r3⟩, (f1 _).2.2⟩, q3⟩, (f3 _ _).2.2⟩⟩
        · simp only [zio_change_current_buffer, hname, hget, hk, hj, if_true, if_false,
            ne_eq, not_false_eq_true, Bool.true_eq_false, ref_delta_append, List.mem_append,
            not_or, g1, p1]
          refine ⟨fun _ => by omega, fun h => absurd h (by decide), ⟨g2, p2⟩, ⟨g3, p3⟩⟩

theorem ti_create_and_init_inert {τ : Type} (env : zio_env τ) (trig : zio_trigger_type)
    (cset : zio_cset τ) :
    ∀ x ∈ (__ti_create_and_init env trig cset).2, zio_event.is_module x = false := by
  unfold __ti_create_and_init
  intro x hx
  split at hx
  · simp only [List.mem_singleton] at hx
    subst hx; rfl
  · dsimp only at hx
    split at hx <;>
      simp only [List.mem_cons, List.mem_singleton, List.not_mem_nil, or_false] at hx <;>
      rcases hx with h | h | h <;> subst h <;> rfl

theorem ti_register_inert {τ : Type} (env : zio_env τ) (trig : zio_trigger_type) (ti : Nat)
    (name : String) :
    ∀ x ∈ (__ti_register env trig ti name).2, zio_event.is_module x = false := by
  unfold __ti_register
  intro x hx
  split at hx
  · simp only [List.mem_cons, List.mem_singleton, List.not_mem_nil, or_false] at hx
    rcases hx with h | h <;> subst h <;> rfl
  · split at hx <;>
      simp only [List.mem_cons, List.mem_singleton, List.not_mem_nil, or_false] at hx <;>
      rcases hx with h | h | h | h <;> subst h <;> rfl

theorem ti_kill_inert (trig : zio_trigger_type) (ti : Nat) :
    ∀ x ∈ [zio_event.trigger_abort_disable] ++ __ti_unregister trig ti ++ __ti_destroy trig ti,
      zio_event.is_module x = false := by
  intro x hx
  simp only [__ti_unregister, __ti_destroy, List.mem_append, List.mem_cons, List.mem_singleton,
    List.not_mem_nil, or_false] at hx
  rcases hx with (h | h | h | h) | h | h <;> subst h <;> rfl

theorem trig_init_ctrl_inert (ti : Nat) (chans : List zio_channel) :
    ∀ x ∈ chans.map (fun chan => zio_event.trig_init_ctrl ti chan.index),
      zio_event.is_module x = false := by
  intro x hx
  simp only [List.mem_map] at hx
  obtain ⟨_, _, h⟩ := hx
  subst h; rfl

theorem change_trigger_references {τ : Type} (env : zio_env τ) (cset : zio_cset τ)
    (name : String) (m : Nat)
    (htrig : ∀ it ∈ env.all_trigger_types, it.owner = it.obj.owner) :
    ((zio_change_current_trigger env cset name).1 ≠ 0 →
      ref_delta m (zio_change_current_trigger env cset name).2.2 = 0) ∧
    ((zio_change_current_trigger env cset name).1 = 0 →
      ref_delta m (zio_change_current_trigger env cset name).2.2 =
        owner_gain cset.zdev_owner m (zio_change_current_trigger env cset name).2.1.trig.owner
          - owner_gain cset.zdev_owner m cset.trig.owner) ∧
    zio_event.module_get cset.zdev_owner ∉ (zio_change_current_trigger env cset name).2.2 ∧
    zio_event.module_put cset.zdev_owner ∉ (zio_change_current_trigger env cset name).2.2 := by
  by_cases hname : name = cset.trig.name
  · simp [zio_change_current_trigger, hname, ref_delta]
  · rcases hget : zio_trigger_get env cset (some name) with ⟨r, ev0⟩
    cases r with
    | error e =>
      have hne := zio_trigger_get_error env cset (some name) e ev0 hget
      have hnil := zio_trigger_get_error_events env cset (some name) e ev0 hget
      subst hnil
      simp [zio_change_current_trigger, hname, hget, hne, ref_delta]
    | ok trig =>
      obtain ⟨item, hitem, _, hiobj, hev0⟩ := zio_trigger_get_ok env cset name trig ev0 hget
      have hown : item.owner = trig.owner := by rw [← hiobj]; exact htrig item hitem
      rw [hown] at hev0
      obtain ⟨g1, g2, g3⟩ := ref_delta_get cset.zdev_owner m trig.owner
      rw [← hev0] at g1 g2 g3
      obtain ⟨p1, p2, p3⟩ := ref_delta_put cset.zdev_owner m trig.owner
      obtain ⟨q1, q2, q3⟩ := ref_delta_put cset.zdev_owner m cset.trig.owner
      have hput : ∀ z : zio_trigger_type, zio_trigger_put z cset.zdev_owner =
          if z.owner ≠ cset.zdev_owner then [zio_event.module_put z.owner] else [] :=
        fun _ => rfl
      rw [← hput] at p1 p2 p3 q1 q2 q3
      have hc0 := ti_create_and_init_inert env trig cset
      rcases hc : __ti_create_and_init env trig cset with ⟨c, ev1⟩
      rw [hc] at hc0
      obtain ⟨c1, c2, c3⟩ := inert_facts _ hc0 m cset.zdev_owner
      cases c with
      | error err =>
        simp only [zio_change_current_trigger, hname, hget, hc, if_false,
          ref_delta_append, List.mem_append, not_or, g1, p1, c1]
        refine ⟨fun _ => by omega, fun h => absurd h (zio_errno_toInt_ne_zero err),
          ⟨⟨g2, c2⟩, p2⟩, ⟨⟨g3, c3⟩, p3⟩⟩
      | ok ti =>
        have hr0 := ti_register_inert env trig ti.addr "trigger-tmp"
        rcases hr : __ti_register env trig ti.addr "trigger-tmp" with ⟨e, ev2⟩
        rw [hr] at hr0
        obtain ⟨r1, r2, r3⟩ := inert_facts _ hr0 m cset.zdev_owner
        cases e with
        | some err =>
          obtain ⟨d1, d2, d3⟩ := inert_facts (__ti_destroy trig ti.addr)
            (by intro x hx
                simp only [__ti_destroy, List.mem_cons, List.mem_singleton, List.not_mem_nil,
                  or_false] at hx
                rcases hx with h | h <;> subst h <;> rfl) m cset.zdev_owner
          simp only [zio_change_current_trigger, hname, hget, hc, hr, if_false,
            ref_delta_append, List.mem_append, not_or, g1, p1, c1, r1, d1]
          refine ⟨fun _ => by omega, fun h => absurd h (zio_errno_toInt_ne_zero err),
            ⟨⟨⟨⟨g2, c2⟩, r2⟩, d2⟩, p2⟩, ⟨⟨⟨⟨g3, c3⟩, r3⟩, d3⟩, p3⟩⟩
        | none =>
          obtain ⟨k1, k2, k3⟩ := inert_facts _ (ti_kill_inert cset.trig cset.ti_addr)
            m cset.zdev_owner
          simp only [List.mem_append, not_or] at k2 k3
          obtain ⟨i1, i2, i3⟩ := inert_facts _ (trig_init_ctrl_inert ti.addr cset.chan)
            m cset.zdev_owner
          have f4 : ∀ d, ref_delta m [zio_event.device_rename ti.addr "trigger"] = 0 ∧
              zio_event.module_get d ∉ [zio_event.device_rename ti.addr "trigger"] ∧
              zio_event.module_put d ∉ [zio_event.device_rename ti.addr "trigger"] := by
            intro d; simp [ref_delta]
          have f3 : ∀ (c : Bool) d,
              ref_delta m (if c = true then [zio_event.arm_trigger] else []) = 0 ∧
              zio_event.module_get d ∉ (if c = true then [zio_event.arm_trigger] else []) ∧
              zio_event.module_put d ∉ (if c = true then [zio_event.arm_trigger] else []) := by
            intro c d; cases c <;> simp [ref_delta]
          simp only [zio_change_current_trigger, hname, hget, hc, hr, if_false,
            ref_delta_append, List.mem_append, not_or, g1, q1, c1, r1, k1, i1,
            (f4 cset.zdev_owner).1, (f3 _ cset.zdev_owner).1]
          refine ⟨fun h => absurd rfl h, fun _ => by omega,
            ⟨⟨⟨⟨⟨⟨g2, c2⟩, r2⟩, ⟨k2, q2⟩⟩, (f4 _).2.1⟩, i2⟩, (f3 _ _).2.1⟩,
            ⟨⟨⟨⟨⟨⟨g3, c3⟩, r3⟩, ⟨k3, q3⟩⟩, (f4 _).2.2⟩, i3⟩, (f3 _ _).2.2⟩⟩

/-! ## Claims on the module references -/

/-- C15: type references are released symmetrically on every path of both swap
operations. In registries whose entries record the owner of their type (what
`zobj_register` stores), for every module `m` and every outcome of
`zio_change_current_trigger` and of `zio_change_current_buffer`: if the call
fails, the net change of the reference count of `m` is zero; if it succeeds,
the net change is what the new type contributes minus what the old type
contributed, that is, the new type's owner gains one reference and the old
type's owner loses one, a type owned by the module that owns the device
counting for nothing; and no reference of the device's own module is taken or
dropped. -/
theorem swap_references_balanced {τ : Type} (env : zio_env τ) (cset : zio_cset τ)
    (name : String) (m : Nat)
    (hbuf : ∀ it ∈ env.all_buffer_types, it.owner = it.obj.owner)
    (htrig : ∀ it ∈ env.all_trigger_types, it.owner = it.obj.owner) :
    (((zio_change_current_trigger env cset name).1 ≠ 0 →
        ref_delta m (zio_change_current_trigger env cset name).2.2 = 0) ∧
      ((zio_change_current_trigger env cset name).1 = 0 →
        ref_delta m (zio_change_current_trigger env cset name).2.2 =
          owner_gain cset.zdev_owner m (zio_change_current_trigger env cset name).2.1.trig.owner
            - owner_gain cset.zdev_owner m cset.trig.owner) ∧
      zio_event.module_get cset.zdev_owner ∉ (zio_change_current_trigger env cset name).2.2 ∧
      zio_event.module_put cset.zdev_owner ∉ (zio_change_current_trigger env cset name).2.2) ∧
    (((zio_change_current_buffer env cset name).1 ≠ 0 →
        ref_delta m (zio_change_current_buffer env cset name).2.2 = 0) ∧
      ((zio_change_current_buffer env cset name).1 = 0 →
        ref_delta m (zio_change_current_buffer env cset name).2.2 =
          owner_gain cset.zdev_owner m (zio_change_current_buffer env cset name).2.1.zbuf.owner
            - owner_gain cset.zdev_owner m cset.zbuf.owner) ∧
      zio_event.module_get cset.zdev_owner ∉ (zio_change_current_buffer env cset name).2.2 ∧
      zio_event.module_put cset.zdev_owner ∉ (zio_change_current_buffer env cset name).2.2) :=
  ⟨change_trigger_references env cset name m htrig,
   change_buffer_references env cset name m hbuf⟩

theorem swap_references_balanced_witness :
    ref_delta 4 (zio_change_current_trigger (sample_env true none none none) (sample_cset 0 0)
      "timer").2.2 = 1 ∧
    ref_delta 3 (zio_change_current_trigger (sample_env true none none none) (sample_cset 0 0)
      "timer").2.2 = -1 ∧
    ref_delta 2 (zio_change_current_buffer (sample_env true none none none) (sample_cset 0 0)
      "kmalloc").2.2 = 1 ∧
    ref_delta 2 (zio_change_current_buffer (sample_env true none none (some 1)) (sample_cset 0 0)
      "kmalloc").2.2 = 0 :=
  ⟨((swap_references_balanced (sample_env true none none none) (sample_cset 0 0) "timer" 4
      (by simp [sample_env, kmalloc_type, vmalloc_type])
      (by simp [sample_env, timer_trig, user_trig])).1.2.1 (by decide)).trans (by decide),
   ((swap_references_balanced (sample_env true none none none) (sample_cset 0 0) "timer" 3
      (by simp [sample_env, kmalloc_type, vmalloc_type])
      (by simp [sample_env, timer_trig, user_trig])).1.2.1 (by decide)).trans (by decide),
   ((swap_references_balanced (sample_env true none none none) (sample_cset 0 0) "kmalloc" 2
      (by simp [sample_env, kmalloc_type, vmalloc_type])
      (by simp [sample_env, timer_trig, user_trig])).2.2.1 (by decide)).trans (by decide),
   (swap_references_balanced (sample_env true none none (some 1)) (sample_cset 0 0) "kmalloc" 2
      (by simp [sample_env, kmalloc_type, vmalloc_type])
      (by simp [sample_env, timer_trig, user_trig])).2.1 (by decide)⟩

/-! ## Claims on the enable flags around a transport swap -/

/-- C13 does not hold of the code. When the creation of the new instance fails
at channel 1, `zio_change_current_buffer` returns `-ENOMEM` before any quiesce,
and the two old instances, enabled before the call, are left disabled. When a
transfer is in flight, it returns `-EBUSY` and the instance of channel 0,
disabled before the call, is left enabled. -/
theorem failed_swap_changes_enable_flags :
    (zio_change_current_buffer (sample_env true (some 1) none none) (sample_cset 0 0)
      "kmalloc").1 = -ENOMEM ∧
    zio_event.trigger_abort_disable ∉
      (zio_change_current_buffer (sample_env true (some 1) none none) (sample_cset 0 0)
        "kmalloc").2.2 ∧
    disabled_bits (sample_cset 0 0) = [0, 0] ∧
    disabled_bits (zio_change_current_buffer (sample_env true (some 1) none none)
      (sample_cset 0 0) "kmalloc").2.1 = [1, 1] ∧
    (zio_change_current_buffer (sample_env true none none none) sample_cset_mixed
      "kmalloc").1 = -EBUSY ∧
    disabled_bits sample_cset_mixed = [1, 0] ∧
    disabled_bits (zio_change_current_buffer (sample_env true none none none)
      sample_cset_mixed "kmalloc").2.1 = [0, 0] := by
  refine ⟨by decide, by decide, by decide, by decide, by decide, by decide, by decide⟩

theorem mask_testBit (j : Nat) :
    (2 ^ 64 - 1 - 1 : Nat).testBit j = (decide (1 ≤ j) && decide (j < 64)) := by
  have h : (2 ^ 64 - 1 - 1 : Nat) = (2 ^ 63 - 1) <<< 1 := by decide
  rw [h, Nat.testBit_shiftLeft, Nat.testBit_two_pow_sub_one]
  by_cases h1 : 1 ≤ j
  · simp [h1]; omega
  · simp [h1]

/-- Clearing `ZIO_DISABLED` on flags that have it set and putting the saved
status bit back gives the flags again. -/
theorem restore_flags (f : Nat) (hf : f < ULONG_MOD) :
    ((f ||| ZIO_DISABLED) &&& (ULONG_MOD - 1 - ZIO_DISABLED)) ||| (f &&& ZIO_STATUS) = f := by
  unfold ULONG_MOD at hf
  unfold ULONG_MOD ZIO_DISABLED ZIO_STATUS
  apply Nat.eq_of_testBit_eq
  intro j
  simp only [Nat.testBit_or, Nat.testBit_and, mask_testBit]
  by_cases h0 : j = 0
  · subst h0
    simp
  · have h1 : 1 ≤ j := Nat.one_le_iff_ne_zero.mpr h0
    have hone : (1 : Nat).testBit j = false := by
      cases h : (1 : Nat).testBit j with
      | false => rfl
      | true => exact absurd (Nat.testBit_one_eq_true_iff_self_eq_zero.mp h) h0
    by_cases h64 : j < 64
    · simp [h1, h64, hone]
    · have : f.testBit j = false :=
        Nat.testBit_eq_false_of_lt
          (lt_of_lt_of_le hf (Nat.pow_le_pow_right (by decide) (by omega)))
      simp [h1, h64, hone, this]

/-- C19 as stated fails: a swap to the current transport type succeeds on a
self-timed channel set without invoking the arm operation. -/
theorem same_buffer_swap_skips_arm :
    (zio_change_current_buffer (sample_env true none none none) sample_cset_self_timed
      "vmalloc").1 = 0 ∧
    (sample_env true none none none).zio_cset_is_self_timed
      (zio_change_current_buffer (sample_env true none none none) sample_cset_self_timed
        "vmalloc").2.1 = true ∧
    zio_event.arm_trigger ∉
      (zio_change_current_buffer (sample_env true none none none) sample_cset_self_timed
        "vmalloc").2.2 := by
  refine ⟨by decide, by decide, by decide⟩

/-- C19 amended: a successful transport swap to a type other than the current
one restores the timing instance's prior enabled state. Assuming that the
quiesce operation returns the prior status bit and leaves the instance with
`ZIO_DISABLED` set and its other flags as they were, if
`zio_change_current_buffer` returns 0 for a name different from the current
type's name, then the flags of the timing instance when the swap is done with
it are the flags on entry (`ZIO_DISABLED` and every other bit); the arm
operation is then invoked, as the last call and only there, exactly when the
channel set is self-timed; and if arming keeps the flags, the flags on return
are the flags on entry. -/
theorem change_buffer_restores_trigger_state {τ : Type} (env : zio_env τ) (cset : zio_cset τ)
    (name : String) (hname : name ≠ cset.zbuf.name)
    (hflags : cset.ti.flags < ULONG_MOD)
    (hq1 : (env.zio_trigger_abort_disable cset.ti).1 = cset.ti.flags &&& ZIO_STATUS)
    (hq2 : (env.zio_trigger_abort_disable cset.ti).2.flags = cset.ti.flags ||| ZIO_DISABLED)
    (hok : (zio_change_current_buffer env cset name).1 = 0) :
    ∃ (ti1 : zio_ti τ) (pre : List zio_event),
      ti1.flags = cset.ti.flags ∧
      (zio_change_current_buffer env cset name).2.1.ti =
        (if env.zio_cset_is_self_timed
            { (zio_change_current_buffer env cset name).2.1 with ti := ti1 } = true
         then env.zio_arm_trigger ti1 else ti1) ∧
      (zio_change_current_buffer env cset name).2.2 = pre ++
        (if env.zio_cset_is_self_timed
            { (zio_change_current_buffer env cset name).2.1 with ti := ti1 } = true
         then [zio_event.arm_trigger] else []) ∧
      zio_event.arm_trigger ∉ pre ∧
      ((∀ t, (env.zio_arm_trigger t).flags = t.flags) →
        (zio_change_current_buffer env cset name).2.1.ti.flags = cset.ti.flags) := by
  rcases hget : zio_buffer_get env cset (some name) with ⟨r, ev0⟩
  cases r with
  | error e =>
    have hne := zio_buffer_get_error env cset (some name) e ev0 hget
    simp [zio_change_current_buffer, hname, hget, hne] at hok
  | ok zbuf =>
    have hev0 := zio_buffer_get_events env cset (some name)
    rw [hget] at hev0
    simp only at hev0
    cases hk : env.kzalloc with
    | false =>
      simp only [zio_change_current_buffer, hname, hget, hk, if_true, if_false] at hok
      exact absurd hok (by decide)
    | true =>
      by_cases hj : (busy_mark cset.chan 0).2 = 0
      · cases hcr : (create_instances env zbuf cset.chan).err with
        | some err =>
          simp only [zio_change_current_buffer, hname, hget, hk, hj, busy_clear_zero,
            create_instances_busy_mark, hcr, if_false, ne_eq, not_true_eq_false,
            Bool.true_eq_false] at hok
          exact absurd hok (zio_errno_toInt_ne_zero err)
        | none =>
          have hfl : ((env.zio_trigger_abort_disable cset.ti).2.flags &&&
              (ULONG_MOD - 1 - ZIO_DISABLED)) ||| (env.zio_trigger_abort_disable cset.ti).1
              = cset.ti.flags := by
            rw [hq1, hq2]
            exact restore_flags _ hflags
          simp only [zio_change_current_buffer, hname, hget, hk, hj, busy_clear_zero,
            create_instances_busy_mark, hcr, if_false, ne_eq, not_true_eq_false,
            Bool.true_eq_false]
          refine ⟨{ (env.zio_trigger_abort_disable cset.ti).2 with
              flags := ((env.zio_trigger_abort_disable cset.ti).2.flags &&&
                (ULONG_MOD - 1 - ZIO_DISABLED)) ||| (env.zio_trigger_abort_disable cset.ti).1 },
            _, hfl, rfl, rfl, ?_, ?_⟩
          · simp only [List.mem_append, not_or]
            refine ⟨⟨⟨⟨⟨?_, ?_⟩, ?_⟩, ?_⟩, ?_⟩, ?_⟩
            · intro h
              obtain ⟨m, hm⟩ := hev0 _ h
              exact absurd hm (by simp)
            · intro h
              have := create_instances_calls env zbuf cset.chan _ h
              exact absurd this (by decide)
            · simp
            · intro h
              have := replace_instances_calls env cset.zbuf (busy_mark cset.chan 0).1
                (create_instances env zbuf cset.chan).bi_vector _ h
              exact absurd this (by decide)
            · simp
            · intro h
              have := zio_buffer_put_events cset.zbuf cset.zdev_owner _ h
              exact absurd this (by simp)
          · intro harm
            split_ifs
            · rw [harm]; exact hfl
            · exact hfl
      · simp only [zio_change_current_buffer, hname, hget, hk, hj, if_true, if_false,
          ne_eq, not_false_eq_true, Bool.true_eq_false] at hok
        exact absurd hok (by decide)

theorem change_buffer_restores_trigger_state_witness :
    (zio_change_current_buffer (sample_env true none none none) sample_cset_self_timed
      "kmalloc").2.1.ti.flags = sample_cset_self_timed.ti.flags ∧
    (zio_change_current_buffer (sample_env true none none none) sample_cset_self_timed
      "kmalloc").1 = 0 := by
  obtain ⟨_, _, _, _, _, _, h⟩ :=
    change_buffer_restores_trigger_state (sample_env true none none none)
      sample_cset_self_timed "kmalloc" (by decide) (by decide) (by decide) (by decide)
      (by decide)
  exact ⟨h (fun _ => rfl), by decide⟩

/-! ## Theorems: type registries -/

theorem find_by_name_cons {α : Type} (x : zio_object_list_item α)
    (xs : List (zio_object_list_item α)) (n : String) :
    __find_by_name (x :: xs) (some n) =
      if x.name = n then some x else __find_by_name xs (some n) := by
  unfold __find_by_name
  simp only [List.find?_cons]
  by_cases h : x.name = n
  · simp [h]
  · have hb : (x.name == n) = false := by simpa using h
    simp [h, hb]

theorem find_by_name_absent {α : Type} (xs : List (zio_object_list_item α)) (n : String)
    (h : n ∉ registry_names xs) : __find_by_name xs (some n) = none := by
  induction xs with
  | nil => rfl
  | cons x xs ih =>
    simp only [registry_names, List.map_cons, List.mem_cons, not_or] at h
    rw [find_by_name_cons, if_neg (fun e => h.1 e.symm)]
    exact ih h.2

/-- After `zobj_unregister`, in a list whose names are pairwise distinct, the
name of the object is not found any more and every other name is found as
before. -/
theorem zobj_unregister_lookup {α : Type} [DecidableEq α]
    (zlist : List (zio_object_list_item α)) (h : α) (n : String)
    (hnodup : (registry_names zlist).Nodup)
    (hmem : ∃ it ∈ zlist, it.obj = h)
    (hname : ∀ it ∈ zlist, it.obj = h → it.name = n) :
    __find_by_name (zobj_unregister zlist (some h)) (some n) = none ∧
    ∀ n', n' ≠ n →
      __find_by_name (zobj_unregister zlist (some h)) (some n') =
        __find_by_name zlist (some n') := by
  induction zlist with
  | nil =>
    obtain ⟨it, hit, _⟩ := hmem
    cases hit
  | cons x xs ih =>
    simp only [registry_names, List.map_cons, List.nodup_cons] at hnodup
    obtain ⟨hx, hxs⟩ := hnodup
    by_cases hobj : x.obj = h
    · have hxn := hname x (List.mem_cons_self _ _) hobj
      have he : zobj_unregister (x :: xs) (some h) = xs := by
        simp [zobj_unregister, List.eraseP_cons, hobj]
      rw [he]
      refine ⟨find_by_name_absent xs n (by rw [← hxn]; exact hx), ?_⟩
      intro n' hn'
      rw [find_by_name_cons, if_neg (fun e => hn' (by rw [← e, hxn]))]
    · have he : zobj_unregister (x :: xs) (some h) = x :: zobj_unregister xs (some h) := by
        simp [zobj_unregister, List.eraseP_cons, hobj]
      obtain ⟨it, hit, hio⟩ := hmem
      have hit' : it ∈ xs := by
        rcases List.mem_cons.mp hit with h1 | h1
        · subst h1; exact absurd hio hobj
        · exact h1
      have hitn := hname it hit hio
      have hxne : x.name ≠ n := by
        intro hx'
        apply hx
        rw [hx', ← hitn]
        exact List.mem_map_of_mem _ hit'
      obtain ⟨ih1, ih2⟩ := ih hxs ⟨it, hit', hio⟩
        (fun y hy => hname y (List.mem_cons_of_mem _ hy))
      rw [he]
      refine ⟨?_, ?_⟩
      · rw [find_by_name_cons, if_neg hxne]
        exact ih1
      · intro n' hn'
        rw [find_by_name_cons, find_by_name_cons, ih2 n' hn']

theorem utf8_bytes_length (c : Char) : (utf8_bytes c).length = c.utf8Size := by
  unfold utf8_bytes Char.utf8Size
  have h1 : (c.val ≤ UInt32.ofNatCore 127 (by decide)) ↔ c.toNat < 0x80 := by
    change c.val.toNat ≤ _ ↔ c.val.toNat < _
    exact Nat.lt_succ_iff.symm
  have h2 : (c.val ≤ UInt32.ofNatCore 2047 (by decide)) ↔ c.toNat < 0x800 := by
    change c.val.toNat ≤ _ ↔ c.val.toNat < _
    exact Nat.lt_succ_iff.symm
  have h3 : (c.val ≤ UInt32.ofNatCore 65535 (by decide)) ↔ c.toNat < 0x10000 := by
    change c.val.toNat ≤ _ ↔ c.val.toNat < _
    exact Nat.lt_succ_iff.symm
  simp only [h1, h2, h3]
  split_ifs <;> rfl

/-- The bytes `c_str` reads are as many as the size in bytes of the text that
`zio_buffer_get` and `zio_trigger_get` compare with `ZIO_OBJ_NAME_LEN`. -/
theorem utf8_bytes_size (l : List Char) :
    (l.flatMap utf8_bytes).length = String.utf8ByteSize ⟨l⟩ := by
  induction l with
  | nil => rfl
  | cons c cs ih =>
    simp only [List.flatMap_cons, List.length_append, ih, utf8_bytes_length]
    simp [String.utf8ByteSize, String.utf8ByteSize.go]
    omega

/-- An ASCII text without a zero is its own C string. -/
theorem c_str_ascii (l : List Char) (h : ∀ c ∈ l, c.toNat ≠ 0 ∧ c.toNat < 0x80) :
    c_str ⟨l⟩ = ⟨l⟩ := by
  unfold c_str
  congr 1
  induction l with
  | nil => rfl
  | cons c cs ih =>
    obtain ⟨h0, h1⟩ := h c (List.mem_cons_self _ _)
    have hb : utf8_bytes c = [c.toNat] := by simp [utf8_bytes, h1]
    simp only [List.flatMap_cons, hb, List.singleton_append, List.takeWhile_cons, ne_eq, h0,
      not_false_eq_true, decide_True, if_true, List.map_cons, Char.ofNat_toNat]
    rw [ih (fun x hx => h x (List.mem_cons_of_mem _ hx))]

/-- One object registered three times, under the names `a`, `b` and `a`: each
call finds no conflict, because the two older entries read the name the head
bears at the time of the third call, which is `b`. -/
theorem same_object_registered_again :
    (register_again sample_zobj_env [] (some (fresh_buffer 1 1)) ["a", "b", "a"]).1
      = [0, 0, 0] ∧
    registry_names
      (register_again sample_zobj_env [] (some (fresh_buffer 1 1)) ["a", "b", "a"]).2
      = ["a", "b", "a"] := by
  refine ⟨by decide, by decide⟩

theorem strncpy_take (dst src : String) (n : Nat) :
    (strncpy dst src n).data.take n = src.data.take n := by
  unfold strncpy
  split_ifs with h
  · rfl
  · have hlen : n ≤ src.data.length := Nat.not_lt.mp h
    have : (src.data.take n).length = n := List.length_take_of_le hlen
    simp only
    rw [List.take_append_of_le_length (by omega)]
    rw [List.take_take, Nat.min_self]

/-! ## Claims on the type registries -/

/-- C14 does not hold of the code. With `ZIO_OBJ_NAME_LEN = 12`, two buffer
types registered one after the other under the same 16-character name are both
accepted (`zio_register_buf` returns 0 twice, no `-EBUSY`), and the registry
then holds two entries with the same name, the first 12 characters; the same
happens with two trigger types and `zio_register_trig`. Under a 7-character
name the second registration is refused with `-EBUSY` and adds nothing. -/
theorem long_name_registered_twice :
    (zio_register_buf sample_zobj_env [] (some (fresh_buffer 1 1))
      (some "abcdefghijklmnop")).1 = 0 ∧
    (zio_register_buf sample_zobj_env
      (zio_register_buf sample_zobj_env [] (some (fresh_buffer 1 1))
        (some "abcdefghijklmnop")).2.2
      (some (fresh_buffer 2 2)) (some "abcdefghijklmnop")).1 = 0 ∧
    registry_names (zio_register_buf sample_zobj_env
      (zio_register_buf sample_zobj_env [] (some (fresh_buffer 1 1))
        (some "abcdefghijklmnop")).2.2
      (some (fresh_buffer 2 2)) (some "abcdefghijklmnop")).2.2
      = ["abcdefghijkl", "abcdefghijkl"] ∧
    (zio_register_trig sample_zobj_env [] (some (fresh_trigger 3 3))
      (some "abcdefghijklmnop")).1 = 0 ∧
    (zio_register_trig sample_zobj_env
      (zio_register_trig sample_zobj_env [] (some (fresh_trigger 3 3))
        (some "abcdefghijklmnop")).2.2
      (some (fresh_trigger 4 4)) (some "abcdefghijklmnop")).1 = 0 ∧
    registry_names (zio_register_trig sample_zobj_env
      (zio_register_trig sample_zobj_env [] (some (fresh_trigger 3 3))
        (some "abcdefghijklmnop")).2.2
      (some (fresh_trigger 4 4)) (some "abcdefghijklmnop")).2.2
      = ["abcdefghijkl", "abcdefghijkl"] ∧
    (zio_register_buf sample_zobj_env
      (zio_register_buf sample_zobj_env [] (some (fresh_buffer 1 1)) (some "vmalloc")).2.2
      (some (fresh_buffer 2 2)) (some "vmalloc")).1 = -EBUSY ∧
    registry_names (zio_register_buf sample_zobj_env
      (zio_register_buf sample_zobj_env [] (some (fresh_buffer 1 1)) (some "vmalloc")).2.2
      (some (fresh_buffer 2 2)) (some "vmalloc")).2.2 = ["vmalloc"] := by
  refine ⟨by decide, by decide, by decide, by decide, by decide, by decide, by decide,
    by decide⟩

/-- C17 as stated fails: `vmalloc_type` and `user_trig` are in their
registries and have live instances on their lists; `zio_unregister_buf` and
`zio_unregister_trig` take them off the registries all the same, and a later
lookup by name finds nothing. -/
theorem unregister_with_live_instances :
    vmalloc_in_use.list ≠ [] ∧
    (__find_by_name (sample_env true none none none).all_buffer_types
      (some "vmalloc")).isSome = true ∧
    (__find_by_name (zio_unregister_buf (sample_env true none none none).all_buffer_types
      (some vmalloc_in_use)).2 (some "vmalloc")).isNone = true ∧
    user_trig_in_use.list ≠ [] ∧
    (__find_by_name (sample_env true none none none).all_trigger_types
      (some "user")).isSome = true ∧
    (__find_by_name (zio_unregister_trig (sample_env true none none none).all_trigger_types
      (some user_trig_in_use)) (some "user")).isNone = true := by
  refine ⟨by decide, by decide, by decide, by decide, by decide, by decide⟩

/-- C17 amended: unregistration does not look at the instance list. In a
registry whose names are pairwise distinct and which holds the type under the
name `n`, `zio_unregister_buf` (respectively `zio_unregister_trig`) takes the
type off the registry whatever instances are on its list: a later lookup of
`n` finds nothing, and the lookup of any other name gives what it gave
before. -/
theorem unregister_removes_type
    (all_buffer_types : List (zio_object_list_item zio_buffer_type))
    (all_trigger_types : List (zio_object_list_item zio_trigger_type))
    (zbuf : zio_buffer_descr) (trig : zio_trigger_descr) (n t : String)
    (hb1 : (registry_names all_buffer_types).Nodup)
    (hb2 : ∃ it ∈ all_buffer_types, it.obj = zbuf.type)
    (hb3 : ∀ it ∈ all_buffer_types, it.obj = zbuf.type → it.name = n)
    (ht1 : (registry_names all_trigger_types).Nodup)
    (ht2 : ∃ it ∈ all_trigger_types, it.obj = trig.type)
    (ht3 : ∀ it ∈ all_trigger_types, it.obj = trig.type → it.name = t) :
    (__find_by_name (zio_unregister_buf all_buffer_types (some zbuf)).2 (some n) = none ∧
      ∀ n', n' ≠ n →
        __find_by_name (zio_unregister_buf all_buffer_types (some zbuf)).2 (some n') =
          __find_by_name all_buffer_types (some n')) ∧
    (__find_by_name (zio_unregister_trig all_trigger_types (some trig)) (some t) = none ∧
      ∀ n', n' ≠ t →
        __find_by_name (zio_unregister_trig all_trigger_types (some trig)) (some n') =
          __find_by_name all_trigger_types (some n')) :=
  ⟨zobj_unregister_lookup all_buffer_types zbuf.type n hb1 hb2 hb3,
   zobj_unregister_lookup all_trigger_types trig.type t ht1 ht2 ht3⟩

theorem unregister_removes_type_witness :
    __find_by_name (zio_unregister_buf (sample_env true none none none).all_buffer_types
      (some ⟨kmalloc_type, true, true, [200, 201]⟩)).2 (some "kmalloc") = none ∧
    __find_by_name (zio_unregister_trig (sample_env true none none none).all_trigger_types
      (some ⟨timer_trig, some (420, 0), [400]⟩)) (some "timer") = none :=
  ⟨(unregister_removes_type (sample_env true none none none).all_buffer_types
      (sample_env true none none none).all_trigger_types
      ⟨kmalloc_type, true, true, [200, 201]⟩ ⟨timer_trig, some (420, 0), [400]⟩
      "kmalloc" "timer" (by decide)
      ⟨⟨"kmalloc", 2, kmalloc_type⟩, by simp [sample_env], rfl⟩
      (by simp [sample_env, kmalloc_type, vmalloc_type]) (by decide)
      ⟨⟨"timer", 4, timer_trig⟩, by simp [sample_env], rfl⟩
      (by simp [sample_env, timer_trig, user_trig])).1.1,
   (unregister_removes_type (sample_env true none none none).all_buffer_types
      (sample_env true none none none).all_trigger_types
      ⟨kmalloc_type, true, true, [200, 201]⟩ ⟨timer_trig, some (420, 0), [400]⟩
      "kmalloc" "timer" (by decide)
      ⟨⟨"kmalloc", 2, kmalloc_type⟩, by simp [sample_env], rfl⟩
      (by simp [sample_env, kmalloc_type, vmalloc_type]) (by decide)
      ⟨⟨"timer", 4, timer_trig⟩, by simp [sample_env], rfl⟩
      (by simp [sample_env, timer_trig, user_trig])).2.1⟩

/-- C18 as stated fails: with `ZIO_OBJ_NAME_LEN = 12`, a name of 16 characters
(16 bytes) is not refused; `zio_register_buf` and `zio_register_trig` return 0
and add an entry to the empty registry. -/
theorem long_name_not_refused :
    sample_zobj_env.ZIO_OBJ_NAME_LEN < "abcdefghijklmnop".length ∧
    sample_zobj_env.ZIO_OBJ_NAME_LEN < (c_str "abcdefghijklmnop").length ∧
    (zio_register_buf sample_zobj_env [] (some (fresh_buffer 1 1))
      (some "abcdefghijklmnop")).1 = 0 ∧
    (zio_register_buf sample_zobj_env [] (some (fresh_buffer 1 1))
      (some "abcdefghijklmnop")).2.2.length = 1 ∧
    (zio_register_trig sample_zobj_env [] (some (fresh_trigger 3 3))
      (some "abcdefghijklmnop")).1 = 0 ∧
    (zio_register_trig sample_zobj_env [] (some (fresh_trigger 3 3))
      (some "abcdefghijklmnop")).2.2.length = 1 := by
  refine ⟨by decide, by decide, by decide, by decide, by decide, by decide⟩

theorem zobj_unique_name_empty {α : Type} (f : α → String)
    (l : List (zio_object_list_item α)) (n : String) (h : (c_str n).length = 0) :
    zobj_unique_name f l (some n) = -EINVAL := by
  simp [zobj_unique_name, h]

theorem einval_facts : (-EINVAL ≠ 0) ∧ (-EINVAL < 0) := by decide

/-- The name `zobj_register` gives the item of a head whose name `strncpy` has
just written from the C string `src`. -/
theorem item_name_of_strncpy (dst src tail : String) (n : Nat) :
    (src.length < n →
      (if (strncpy dst src n).length < n then strncpy dst src n
        else ⟨(strncpy dst src n).data.take n ++ tail.data⟩) = src) ∧
    (n ≤ src.length →
      (if (strncpy dst src n).length < n then strncpy dst src n
        else ⟨(strncpy dst src n).data.take n ++ tail.data⟩)
        = ⟨src.data.take n ++ tail.data⟩) := by
  refine ⟨?_, ?_⟩
  · intro h
    have h1 : strncpy dst src n = src := by simp [strncpy, h]
    rw [h1, if_pos h]
  · intro h
    have h1 : ¬ (strncpy dst src n).length < n := by
      have h2 : ¬ src.length < n := Nat.not_lt.mpr h
      have h3 : n ≤ src.data.length := h
      unfold strncpy
      rw [if_neg h2]
      simp only [String.length, List.length_append, List.length_take, Nat.min_eq_left h3]
      omega
    rw [if_neg h1, strncpy_take]

/-- C18 amended: registration refuses an empty name and does not refuse a long
one. A name that is empty as a C string makes `zio_register_buf` and
`zio_register_trig` return `-EINVAL` and leave the registry as it is, for
every descriptor. A name that is not empty is not refused for its length: for
a valid descriptor (file operations given, respectively a pre- or post-sample
attribute; an owner), when no registered object bears the name and nothing
fails in the helpers, the call returns 0 and puts one new entry at the front
of the registry (whose older entries, where they point to this object, read
its new head name). The head name is what `strncpy` leaves of the name. The
entry is named by the name itself when that has fewer than `ZIO_OBJ_NAME_LEN`
bytes; otherwise its name is the first `ZIO_OBJ_NAME_LEN` bytes of the name
with no terminator, that is, followed by the bytes that happen to follow in
the item's memory. -/
theorem register_name_validation (env : zobj_env)
    (all_buffer_types : List (zio_object_list_item zio_buffer_type))
    (all_trigger_types : List (zio_object_list_item zio_trigger_type))
    (zbuf : zio_buffer_descr) (trig : zio_trigger_descr) (name : String) :
    ((c_str name).length = 0 →
      (∀ z, (zio_register_buf env all_buffer_types z (some name)).1 = -EINVAL ∧
        (zio_register_buf env all_buffer_types z (some name)).2.2 = all_buffer_types) ∧
      (∀ t, (zio_register_trig env all_trigger_types t (some name)).1 = -EINVAL ∧
        (zio_register_trig env all_trigger_types t (some name)).2.2 = all_trigger_types)) ∧
    ((c_str name).length ≠ 0 → zbuf.f_op = true → zbuf.type.owner ≠ 0 →
      env.kmalloc = true →
      env.zio_init_buffer_fops
        { zbuf.type with
          name := strncpy zbuf.type.name (c_str name) env.ZIO_OBJ_NAME_LEN } = none →
      zobj_unique_name (fun z => z.name) all_buffer_types (some name) = 0 →
      (zio_register_buf env all_buffer_types (some zbuf) (some name)).1 = 0 ∧
      ∃ item_name,
        (zio_register_buf env all_buffer_types (some zbuf) (some name)).2.2 =
          ⟨item_name, zbuf.type.owner,
            { zbuf.type with
              name := strncpy zbuf.type.name (c_str name) env.ZIO_OBJ_NAME_LEN }⟩
            :: zobj_head_written all_buffer_types zbuf.type
              { zbuf.type with
                name := strncpy zbuf.type.name (c_str name) env.ZIO_OBJ_NAME_LEN } ∧
        ((c_str name).length < env.ZIO_OBJ_NAME_LEN → item_name = c_str name) ∧
        (env.ZIO_OBJ_NAME_LEN ≤ (c_str name).length →
          item_name =
            ⟨(c_str name).data.take env.ZIO_OBJ_NAME_LEN ++ env.item_tail.data⟩)) ∧
    ((c_str name).length ≠ 0 →
      (∃ post pre, trig.std_zattr = some (post, pre) ∧ ¬ (post = 0 ∧ pre = 0)) →
      trig.type.owner ≠ 0 → env.kmalloc = true →
      zobj_unique_name (fun z => z.name) all_trigger_types (some name) = 0 →
      (zio_register_trig env all_trigger_types (some trig) (some name)).1 = 0 ∧
      ∃ item_name,
        (zio_register_trig env all_trigger_types (some trig) (some name)).2.2 =
          ⟨item_name, trig.type.owner,
            { trig.type with
              name := strncpy trig.type.name (c_str name) env.ZIO_OBJ_NAME_LEN }⟩
            :: zobj_head_written all_trigger_types trig.type
              { trig.type with
                name := strncpy trig.type.name (c_str name) env.ZIO_OBJ_NAME_LEN } ∧
        ((c_str name).length < env.ZIO_OBJ_NAME_LEN → item_name = c_str name) ∧
        (env.ZIO_OBJ_NAME_LEN ≤ (c_str name).length →
          item_name =
            ⟨(c_str name).data.take env.ZIO_OBJ_NAME_LEN ++ env.item_tail.data⟩)) := by
  obtain ⟨e1, e2⟩ := einval_facts
  refine ⟨?_, ?_, ?_⟩
  · intro hemp
    refine ⟨?_, ?_⟩
    · intro z
      cases z with
      | none => exact ⟨rfl, rfl⟩
      | some z =>
        unfold zio_register_buf
        simp only [zobj_unique_name_empty _ _ name hemp]
        split_ifs <;> exact ⟨rfl, rfl⟩
    · intro t
      cases t with
      | none => exact ⟨rfl, rfl⟩
      | some t =>
        unfold zio_register_trig
        simp only [zobj_unique_name_empty _ _ name hemp]
        split
        · exact ⟨rfl, rfl⟩
        · split_ifs <;> exact ⟨rfl, rfl⟩
  · intro _ hf ho hk hi hu
    obtain ⟨k1, k2⟩ := item_name_of_strncpy zbuf.type.name (c_str name) env.item_tail
      env.ZIO_OBJ_NAME_LEN
    simp only [zio_register_buf, hf, hu, hi, zobj_register, ho, hk,
      Bool.true_eq_false, if_false, ne_eq, not_true_eq_false]
    exact ⟨trivial, _, rfl, k1, k2⟩
  · intro _ hz ho hk hu
    obtain ⟨post, pre, hz1, hz2⟩ := hz
    obtain ⟨k1, k2⟩ := item_name_of_strncpy trig.type.name (c_str name) env.item_tail
      env.ZIO_OBJ_NAME_LEN
    simp only [zio_register_trig, hz1, hz2, hu, zobj_register, ho, hk,
      Bool.true_eq_false, if_false, ne_eq, not_true_eq_false]
    exact ⟨trivial, _, rfl, k1, k2⟩

theorem register_name_validation_witness :
    (zio_register_buf sample_zobj_env [] (some (fresh_buffer 2 2)) (some "")).1 = -EINVAL ∧
    (zio_register_buf sample_zobj_env [] (some (fresh_buffer 2 2))
      (some "zio-kmalloc-buffer")).1 = 0 ∧
    (zio_register_trig sample_zobj_env [] (some (fresh_trigger 4 4))
      (some "zio-hrtimer-trigger")).1 = 0 ∧
    (zio_register_buf sample_zobj_env [] (some (fresh_buffer 2 2))
      (some "zio-kmalloc-buffer")).2.2 = [⟨"zio-kmalloc-", 2, ⟨"zio-kmalloc-", 2, 2⟩⟩] ∧
    (zio_register_buf { sample_zobj_env with item_tail := "\x01\x7f" } []
      (some (fresh_buffer 2 2)) (some "zio-kmalloc-buffer")).2.2
      = [⟨"zio-kmalloc-\x01\x7f", 2, ⟨"zio-kmalloc-", 2, 2⟩⟩] :=
  ⟨(((register_name_validation sample_zobj_env [] [] (fresh_buffer 2 2) (fresh_trigger 4 4)
      "").1 (by decide)).1 (some (fresh_buffer 2 2))).1,
   ((register_name_validation sample_zobj_env [] [] (fresh_buffer 2 2) (fresh_trigger 4 4)
      "zio-kmalloc-buffer").2.1 (by decide) rfl (by decide) rfl rfl (by decide)).1,
   ((register_name_validation sample_zobj_env [] [] (fresh_buffer 2 2) (fresh_trigger 4 4)
      "zio-hrtimer-trigger").2.2 (by decide) ⟨420, 0, rfl, by decide⟩ (by decide) rfl
      (by decide)).1,
   rfl, rfl⟩

/-! ## Theorems: construction of a channel set -/

theorem zio_buffer_get_for_eq {τ : Type} (env : zio_env τ) (cset : zio_cset τ)
    (name : Option String) :
    zio_buffer_get env cset name = zio_buffer_get_for env cset.zdev_owner name := rfl

theorem zio_trigger_get_for_eq {τ : Type} (env : zio_env τ) (cset : zio_cset τ)
    (name : Option String) :
    zio_trigger_get env cset name = zio_trigger_get_for env cset.zdev_owner name := rfl

theorem ti_create_and_init_for_eq {τ : Type} (env : zio_env τ) (trig : zio_trigger_type)
    (cset : zio_cset τ) :
    __ti_create_and_init env trig cset = __ti_create_and_init_for env trig cset.flags := rfl

theorem bi_create_and_init_for_eq {τ : Type} (env : zio_env τ) (zbuf : zio_buffer_type)
    (chan : zio_channel) :
    __bi_create_and_init env zbuf chan =
      __bi_create_and_init_for env zbuf chan.index chan.flags := rfl

theorem bi_register_for_eq {τ : Type} (env : zio_env τ) (zbuf : zio_buffer_type)
    (chan : zio_channel) (bi : zio_bi) (name : String) :
    __bi_register env zbuf chan bi name = __bi_register_for env zbuf chan.index bi name := rfl

/-! ## Claims on the construction of a channel set -/

/-- C16 does not hold of the code. When the allocation of the vector of
channels fails, `cset_register` undoes what it had built (the timing instance
is unregistered and destroyed, the references to the two types are dropped,
the device is unregistered, the attributes and the minors are released) and
returns 0, the value of a success, with no channel set left registered. By
contrast, when the control of channel 1 cannot be allocated the call returns
`-ENOMEM`, and when nothing fails it returns 0 with the channel set built. And
when no trigger type can be found, the unwinding reads the owner of the
`NULL` pointer `cset->trig`: the call does not return. -/
theorem cset_register_alloc_failure_returns_zero :
    (cset_register (sample_cset_env false none) sample_cset_new).map
        (fun r => (r.1, r.2.1.isSome, r.2.2)) =
      some (0, false,
        [cset_event.zio_minorbase_get, cset_event.cset_zattr_set_copy,
         cset_event.cset_zattr_set_create, cset_event.cset_check_dev_zattr,
         cset_event.cset_device_register,
         cset_event.call (zio_event.module_get 2),
         cset_event.call (zio_event.module_get 3),
         cset_event.call (zio_event.t_create 3 (some 400)),
         cset_event.call (zio_event.zattr_set_copy 400),
         cset_event.call (zio_event.ctrl_update_nsamples 400),
         cset_event.call (zio_event.dev_set_name 400 "trigger"),
         cset_event.call (zio_event.zattr_set_create 400),
         cset_event.call (zio_event.device_register 400),
         cset_event.call (zio_event.list_add 3 400),
         cset_event.kzalloc_chan,
         cset_event.call (zio_event.list_del 3 400),
         cset_event.call (zio_event.device_unregister 400),
         cset_event.call (zio_event.zattr_set_remove 400),
         cset_event.call (zio_event.t_destroy 3 400),
         cset_event.call (zio_event.zattr_set_free 400),
         cset_event.call (zio_event.module_put 3),
         cset_event.call (zio_event.module_put 2),
         cset_event.cset_device_unregister, cset_event.cset_zattr_set_remove,
         cset_event.cset_zattr_set_free, cset_event.zio_minorbase_put]) ∧
    (cset_register (sample_cset_env true (some 1)) sample_cset_new).map
        (fun r => (r.1, r.2.1.isSome)) = some (-ENOMEM, false) ∧
    (cset_register (sample_cset_env true none) sample_cset_new).map
        (fun r => (r.1, r.2.1.isSome)) = some (0, true) ∧
    (cset_register { sample_cset_env true none with ZIO_DEFAULT_TRIGGER := "none" }
        sample_cset_new).isNone = true := by
  refine ⟨by decide, by decide, by decide, by decide⟩

/-! ## Theorems: region bounds of the ring allocator -/

theorem ring_chain_append (size : Nat) (q : List (Nat × Nat)) (t head off len : Nat)
    (h : ring_chain size t q head) (ho : off = 0 ∨ off = head) (hb : off + len ≤ size) :
    ring_chain size t (q ++ [(off, len)]) (off + len) := by
  induction q generalizing t with
  | nil =>
    simp only [ring_chain] at h
    subst h
    exact ⟨ho, hb, rfl⟩
  | cons a q ih =>
    obtain ⟨o, l⟩ := a
    obtain ⟨h1, h2, h3⟩ := h
    exact ⟨h1, h2, ih _ h3⟩

theorem ring_chain_bounds (size : Nat) (q : List (Nat × Nat)) (t head : Nat)
    (h : ring_chain size t q head) : ∀ a ∈ q, a.1 + a.2 ≤ size := by
  induction q generalizing t with
  | nil => intro a ha; cases ha
  | cons b q ih =>
    obtain ⟨o, l⟩ := b
    obtain ⟨_, h2, h3⟩ := h
    intro a ha
    rcases List.mem_cons.mp ha with e | e
    · subst e; exact h2
    · exact ih _ h3 a e

/-- An allocation whose sum `head + len` fits the machine word, made on a ring
whose `head` and `tail` are within the region, returns an offset that is `0`
or the old `head`, a range within the region, and a `head` at its end. -/
theorem zbk_alloc_data_in_region (s : zbk_ring) (len off : Nat) (r : zbk_ring)
    (hh : s.head ≤ s.size) (ht : s.tail ≤ s.size) (hno : s.head + len < ULONG_MOD)
    (ha : zbk_alloc_data s len = (some off, r)) :
    (off = 0 ∨ off = s.head) ∧ off + len ≤ s.size ∧ r.head = off + len ∧
      r.tail = s.tail ∧ r.size = s.size := by
  obtain ⟨size, head, tail⟩ := s
  simp only at hh ht hno
  unfold ULONG_MOD at hno
  have hmod : (head + len) % 2 ^ 64 = head + len := Nat.mod_eq_of_lt hno
  unfold zbk_alloc_data at ha
  simp only [ULONG_MOD, hmod] at ha
  split_ifs at ha with h1 h2 h3 h4 <;>
    simp only [Prod.mk.injEq, Option.some.injEq, reduceCtorEq, false_and] at ha <;>
    obtain ⟨e1, e2⟩ := ha <;> subst e1 <;> subst e2 <;> simp only <;>
    refine ⟨?_, ?_, ?_, ?_, ?_⟩ <;>
    first
      | trivial
      | omega
      | exact Or.inl trivial
      | exact Or.inl rfl
      | exact Or.inr trivial

theorem zbk_alloc_data_none (s : zbk_ring) (len : Nat) (r : zbk_ring)
    (ha : zbk_alloc_data s len = (none, r)) : r = s := by
  unfold zbk_alloc_data at ha
  simp only at ha
  split_ifs at ha <;>
    simp only [Prod.mk.injEq, reduceCtorEq, false_and, true_and] at ha <;> exact ha.symm

/-- One client step keeps the bounds and the chain of outstanding
allocations. -/
theorem ring_step_in_region (size : Nat) (st st' : zbk_ring × List (Nat × Nat))
    (op : ring_op) (hsize : size < ULONG_MOD)
    (hno : ∀ len, op = ring_op.alloc len → st.1.head + len < ULONG_MOD)
    (hs : st.1.size = size) (hh : st.1.head ≤ size) (ht : st.1.tail ≤ size)
    (hc : ring_chain size st.1.tail st.2 st.1.head)
    (hstep : ring_step st op = some st') :
    st'.1.size = size ∧ st'.1.head ≤ size ∧ st'.1.tail ≤ size ∧
      ring_chain size st'.1.tail st'.2 st'.1.head := by
  obtain ⟨s, q⟩ := st
  simp only at hs hh ht hc hno
  cases op with
  | alloc len =>
    simp only [ring_step] at hstep
    rcases ha : zbk_alloc_data s len with ⟨ro, r⟩
    rw [ha] at hstep
    cases ro with
    | none =>
      have hr := zbk_alloc_data_none s len r ha
      simp only [Option.some.injEq] at hstep
      subst hstep
      subst hr
      exact ⟨hs, hh, ht, hc⟩
    | some off =>
      simp only [Option.some.injEq] at hstep
      subst hstep
      obtain ⟨a1, a2, a3, a4, a5⟩ := zbk_alloc_data_in_region s len off r
        (by rw [hs]; exact hh) (by rw [hs]; exact ht) (hno len rfl) ha
      rw [hs] at a2 a5
      simp only
      rw [a3, a4]
      exact ⟨a5, a2, ht, ring_chain_append size q s.tail s.head off len hc a1 a2⟩
  | free =>
    cases q with
    | nil => simp [ring_step] at hstep
    | cons p q =>
      obtain ⟨o, l⟩ := p
      simp only [ring_step, Option.some.injEq] at hstep
      subst hstep
      obtain ⟨c1, c2, c3⟩ := hc
      unfold ULONG_MOD at hsize
      have htail : (zbk_free_data s o l).tail = o + l := by
        unfold zbk_free_data
        split_ifs with h0
        · simp only; omega
        · simp only [ULONG_MOD]
          rcases c1 with e | e
          · exact absurd e h0
          · rw [← e]; exact Nat.mod_eq_of_lt (by omega)
      have hhead : (zbk_free_data s o l).head = s.head := by
        unfold zbk_free_data; split_ifs <;> rfl
      have hsz : (zbk_free_data s o l).size = s.size := by
        unfold zbk_free_data; split_ifs <;> rfl
      simp only
      rw [htail, hhead, hsz]
      exact ⟨hs, hh, c2, c3⟩

theorem ring_run_in_region (size : Nat) (ops : List ring_op)
    (st st' : zbk_ring × List (Nat × Nat)) (hsize : size < ULONG_MOD)
    (hno : ring_no_overflow st ops = true)
    (hs : st.1.size = size) (hh : st.1.head ≤ size) (ht : st.1.tail ≤ size)
    (hc : ring_chain size st.1.tail st.2 st.1.head)
    (hrun : ring_run st ops = some st') :
    st'.1.size = size ∧ st'.1.head ≤ size ∧ st'.1.tail ≤ size ∧
      ring_chain size st'.1.tail st'.2 st'.1.head := by
  induction ops generalizing st with
  | nil =>
    simp only [ring_run, Option.some.injEq] at hrun
    subst hrun
    exact ⟨hs, hh, ht, hc⟩
  | cons op ops ih =>
    simp only [ring_run] at hrun
    simp only [ring_no_overflow, Bool.and_eq_true] at hno
    cases hstep : ring_step st op with
    | none => rw [hstep] at hrun; simp at hrun
    | some st1 =>
      rw [hstep] at hrun
      simp only [hstep] at hno
      have hno1 : ∀ len, op = ring_op.alloc len → st.1.head + len < ULONG_MOD := by
        intro len e
        subst e
        simpa using hno.1
      obtain ⟨i1, i2, i3, i4⟩ := ring_step_in_region size st st1 op hsize hno1 hs hh ht hc hstep
      exact ih st1 hno.2 i1 i2 i3 i4 hrun

theorem ring_no_overflow_take (ops : List ring_op) (st : zbk_ring × List (Nat × Nat))
    (k : Nat) (hno : ring_no_overflow st ops = true) :
    ring_no_overflow st (ops.take k) = true := by
  induction ops generalizing st k with
  | nil => simp [ring_no_overflow]
  | cons op ops ih =>
    cases k with
    | zero => simp [ring_no_overflow]
    | succ k =>
      simp only [List.take_succ_cons, ring_no_overflow, Bool.and_eq_true] at hno ⊢
      refine ⟨hno.1, ?_⟩
      cases hstep : ring_step st op with
      | none => rfl
      | some st1 =>
        simp only [hstep] at hno ⊢
        exact ih st1 k hno.2

/-! ## Claims on the outstanding allocations of the ring -/

/-- C24 does not hold of the code. On a fresh ring of 100 bytes, allocate 90,
free it, allocate 20 and allocate 85: every call obeys the client contract,
the allocation of 20 bytes at offset 0 is still outstanding, and the
allocation of 85 bytes is given offset 0 as well, so the two ranges overlap.
The wrapping branch of `zbk_alloc_data` only asks for `tail >= size`, also
when `head` is already below `tail`. -/
theorem ring_alloc_overlaps_live_data :
    ring_run (zbk_fresh 100, []) [ring_op.alloc 90, ring_op.free, ring_op.alloc 20] =
      some (⟨100, 20, 90⟩, [(0, 20)]) ∧
    zbk_alloc_data ⟨100, 20, 90⟩ 85 = (some 0, ⟨100, 85, 90⟩) ∧
    ring_run (zbk_fresh 100, [])
      [ring_op.alloc 90, ring_op.free, ring_op.alloc 20, ring_op.alloc 85] =
      some (⟨100, 85, 90⟩, [(0, 20), (0, 85)]) ∧
    ranges_overlap (0, 20) (0, 85) = true := by
  refine ⟨by decide, by decide, by decide, by decide⟩

/-- C25: allocations stay inside the region. Start from a fresh ring of `size`
bytes (an `unsigned long`) and run any sequence of allocations and of frees of
the oldest outstanding allocation, with its own offset and length, in which
no sum `head + len` exceeds the machine word. After every operation (after the
first `k` of them, for every `k`): `head <= size` and `tail <= size`; every
outstanding allocation, that is, every range a successful `zbk_alloc_data` has
returned and that is not yet freed, has `offset + len <= size`; and an
allocation made in that state returns, when it succeeds, an offset with
`offset + len <= size` and leaves `head <= size` and `tail <= size`. -/
theorem ring_stays_in_region (size : Nat) (ops : List ring_op) (k : Nat)
    (st : zbk_ring × List (Nat × Nat))
    (hsize : size < ULONG_MOD)
    (hno : ring_no_overflow (zbk_fresh size, []) ops = true)
    (hrun : ring_run (zbk_fresh size, []) (ops.take k) = some st) :
    st.1.head ≤ size ∧ st.1.tail ≤ size ∧
    (∀ a ∈ st.2, a.1 + a.2 ≤ size) ∧
    (∀ len off r, st.1.head + len < ULONG_MOD →
      zbk_alloc_data st.1 len = (some off, r) →
      off + len ≤ size ∧ r.head ≤ size ∧ r.tail ≤ size) := by
  obtain ⟨i1, i2, i3, i4⟩ := ring_run_in_region size (ops.take k) (zbk_fresh size, []) st
    hsize (ring_no_overflow_take ops _ k hno) rfl (Nat.zero_le _) (Nat.zero_le _) rfl hrun
  refine ⟨i2, i3, ring_chain_bounds size st.2 st.1.tail st.1.head i4, ?_⟩
  intro len off r hlen ha
  obtain ⟨_, a2, a3, a4, _⟩ := zbk_alloc_data_in_region st.1 len off r
    (by rw [i1]; exact i2) (by rw [i1]; exact i3) hlen ha
  rw [i1] at a2
  refine ⟨a2, ?_, ?_⟩
  · rw [a3]; exact a2
  · rw [a4]; exact i3

theorem ring_stays_in_region_witness :
    (∀ a ∈ [((600 : Nat), (300 : Nat)), (0, 500)], a.1 + a.2 ≤ 1024) ∧
    (∀ len off r, (500 : Nat) + len < ULONG_MOD →
      zbk_alloc_data ⟨1024, 500, 600⟩ len = (some off, r) →
      off + len ≤ 1024 ∧ r.head ≤ 1024 ∧ r.tail ≤ 1024) :=
  (ring_stays_in_region 1024
    [ring_op.alloc 600, ring_op.alloc 300, ring_op.free, ring_op.alloc 500, ring_op.free] 4
    (⟨1024, 500, 600⟩, [(600, 300), (0, 500)]) (by decide) (by decide) (by decide)).2.2

/-! ## Theorems: blocks of the vmalloc buffer -/

/-- `zbk_store_block` only queues blocks that carry a control. -/
theorem zbk_store_block_keeps_controls {τ : Type} (bi : zbk_instance τ) (block : zio_block)
    (h : ∀ b ∈ bi.list, zio_get_ctrl b ≠ 0) :
    ∀ b ∈ (zbk_store_block bi block).2.1.list, zio_get_ctrl b ≠ 0 := by
  by_cases hc : zio_get_ctrl block = 0
  · unfold zbk_store_block
    rw [if_pos hc]
    exact h
  · rcases zbk_store_block_list bi block hc with h1 | ⟨_, _, h1⟩
    · rw [h1]
      intro b hb
      rcases List.mem_append.mp hb with h2 | h2
      · exact h b h2
      · simp only [List.mem_singleton] at h2
        subst h2
        exact hc
    · rw [h1]
      intro b hb
      cases hb

theorem zbk_destroy_loop_spec {τ : Type} (mem_offset : Nat → Nat) (blocks : List zio_block)
    (bi : zbk_instance τ) (h : ∀ b ∈ blocks, zio_get_ctrl b ≠ 0) :
    ∃ bi1, zbk_destroy_loop mem_offset bi blocks = some (bi1, free_block_calls blocks) ∧
      bi1.data = bi.data := by
  induction blocks generalizing bi with
  | nil => exact ⟨bi, rfl, rfl⟩
  | cons b bs ih =>
    have hb : zio_get_ctrl b ≠ 0 := h b (List.mem_cons_self _ _)
    obtain ⟨bi2, h2, h3⟩ := ih
      { bi with ring := zbk_free_data bi.ring (mem_offset (zio_get_ctrl b)) b.datalen }
      (fun x hx => h x (List.mem_cons_of_mem _ hx))
    refine ⟨bi2, ?_, h3⟩
    simp only [zbk_destroy_loop, zbk_free_block, hb, if_false, h2, free_block_calls,
      List.flatMap_cons]

theorem freed_blocks_calls (blocks : List zio_block) :
    freed_blocks (free_block_calls blocks) = blocks := by
  induction blocks with
  | nil => rfl
  | cons b bs ih =>
    simp only [free_block_calls, List.flatMap_cons] at ih ⊢
    simp only [freed_blocks, List.cons_append, List.nil_append, List.filterMap_cons] at ih ⊢
    rw [ih]

/-! ## Claims on the blocks of the vmalloc buffer -/

/-- C21: destruction drains the queue. For every vmalloc instance whose queued
blocks carry a control (what `zbk_store_block` ensures), `zbk_destroy` makes
the calls of `zbk_free_block` (release of the control, release of the item) on
each block of the ready list, once, in queue order, and on no other block,
and only then releases the data region and the instance. -/
theorem zbk_destroy_drains {τ : Type} (mem_offset : Nat → Nat) (bi : zbk_instance τ)
    (hctrl : ∀ b ∈ bi.list, zio_get_ctrl b ≠ 0) :
    zbk_destroy mem_offset bi =
      some (free_block_calls bi.list ++ [zbk_mem_event.vfree bi.data, zbk_mem_event.kfree]) ∧
    freed_blocks (free_block_calls bi.list) = bi.list ∧
    (∀ e ∈ free_block_calls bi.list,
      e ≠ zbk_mem_event.vfree bi.data ∧ e ≠ zbk_mem_event.kfree) := by
  obtain ⟨bi1, h1, h2⟩ := zbk_destroy_loop_spec mem_offset bi.list bi hctrl
  refine ⟨?_, freed_blocks_calls bi.list, ?_⟩
  · simp only [zbk_destroy, h1, h2]
  · intro e he
    simp only [free_block_calls, List.mem_flatMap, List.mem_cons, List.mem_singleton,
      List.not_mem_nil, or_false] at he
    obtain ⟨b, _, hb⟩ := he
    rcases hb with hb | hb <;> subst hb <;> exact ⟨by simp, by simp⟩

theorem zbk_destroy_drains_witness :
    zbk_destroy (fun _ => 0)
        (store_blocks (counting_instance ZIO_DIR_INPUT ZIO_ENABLED [])
          [blockA, blockB, blockC]) =
      some [zbk_mem_event.zio_free_control 0x1000, zbk_mem_event.kmem_cache_free blockA,
        zbk_mem_event.zio_free_control 0x2000, zbk_mem_event.kmem_cache_free blockB,
        zbk_mem_event.zio_free_control 0x3000, zbk_mem_event.kmem_cache_free blockC,
        zbk_mem_event.vfree 0, zbk_mem_event.kfree] :=
  (zbk_destroy_drains (fun _ => 0)
    (store_blocks (counting_instance ZIO_DIR_INPUT ZIO_ENABLED []) [blockA, blockB, blockC])
    (by decide)).1

/-- C26 does not hold of the code. When the allocation of the item fails and
the ring has room, `zbk_alloc_block` returns `-ENOMEM` after `zbk_alloc_data`
has moved `head` from 0 to 16, and nothing moves it back. With an item, the
same call returns the block with `data` at base plus offset, `datalen` 16, the
control attached with its completion flag clear, and `mem_offset` 0. -/
theorem zbk_alloc_block_failure_moves_head :
    (zbk_alloc_block output_accepting none 0x1000 16).1 = Except.error (-ENOMEM) ∧
    output_accepting.ring.head = 0 ∧
    (zbk_alloc_block output_accepting none 0x1000 16).2.1.ring.head = 16 ∧
    (zbk_alloc_block output_accepting none 0x1000 16).2.2 =
      [zbk_mem_event.kmem_cache_free_item none] ∧
    (zbk_alloc_block output_accepting (some 0x5000) 0x1000 16).1 =
      Except.ok (⟨0x1000, 0, 16, 0⟩, 0) := by
  refine ⟨rfl, by decide, by decide, by decide, rfl⟩

/-! ## Claims on the creation of a vmalloc instance -/

/-- C22 as stated fails: the instance that `__bi_create_and_init` returns over
`zbk_create`, here for channel 0 of the sample channel set, has the status
flag `ZIO_ENABLED`, not `ZIO_DISABLED`: `kzalloc` zeroes the flags and nothing
sets the bit. -/
theorem vmalloc_instance_starts_enabled :
    zbk_create_and_init (sample_env true none none none) (some 0x500) (some 0x10000)
        (1024 * 128) vmalloc_type ⟨0, ZIO_DIR_INPUT, ⟨100, 0, 0, 1, "buffer", some 0⟩⟩ =
      (Except.ok ⟨⟨0x500, 0, 0, 1, "", none⟩, ⟨1024 * 128, 0, 0⟩, [], 0x10000⟩,
        [zio_event.b_create 1 0 (some 0x500), zio_event.zattr_set_copy 0x500]) ∧
    (0 : Nat) &&& ZIO_STATUS = ZIO_ENABLED ∧ ZIO_ENABLED ≠ ZIO_DISABLED := by
  refine ⟨rfl, by decide, by decide⟩

/-- C22 amended: a newly created instance starts enabled. For every channel,
the instance returned by `__bi_create_and_init` over the vmalloc buffer
(`zbk_create`) has its status flag at `ZIO_ENABLED` (the default), its
`use_count` at 0, the direction of the channel, a ring allocator with
`head = tail = 0` over the size computed, and an empty ready list. -/
theorem vmalloc_instance_initial_state {τ : Type} (env : zio_env τ)
    (kzalloc vmalloc : Option Nat) (size : Nat) (zbuf : zio_buffer_type) (chan : zio_channel)
    (zbki : zbk_created) (ev : List zio_event)
    (h : zbk_create_and_init env kzalloc vmalloc size zbuf chan = (.ok zbki, ev)) :
    zbki.bi.flags &&& ZIO_STATUS = ZIO_ENABLED ∧
    zbki.bi.use_count = 0 ∧
    zbki.bi.flags &&& ZIO_DIR = chan.flags &&& ZIO_DIR ∧
    zbki.ring = ⟨size, 0, 0⟩ ∧
    zbki.list = [] := by
  have hbit1 : ∀ f : Nat, (0 ||| (f &&& ZIO_DIR)) &&& ZIO_STATUS = ZIO_ENABLED := by
    intro f
    rw [Nat.zero_or, Nat.and_assoc]
    have : ZIO_DIR &&& ZIO_STATUS = 0 := by decide
    rw [this, Nat.and_zero]
    rfl
  have hbit2 : ∀ f : Nat, (0 ||| (f &&& ZIO_DIR)) &&& ZIO_DIR = f &&& ZIO_DIR := by
    intro f
    rw [Nat.zero_or, Nat.and_assoc, Nat.and_self]
  cases kzalloc with
  | none => simp [zbk_create_and_init, zbk_create] at h
  | some a =>
    cases vmalloc with
    | none => simp [zbk_create_and_init, zbk_create] at h
    | some d =>
      simp only [zbk_create_and_init, zbk_create, __bi_create_and_init, with_zbk_create] at h
      split at h <;> simp only [Prod.mk.injEq, Except.ok.injEq, reduceCtorEq, false_and] at h
      obtain ⟨h1, _⟩ := h
      subst h1
      rename_i hz hb _
      simp only [Except.ok.injEq] at hz
      subst hz
      split at hb <;> simp only [Prod.mk.injEq, Except.ok.injEq, reduceCtorEq, false_and] at hb
      obtain ⟨h2, _⟩ := hb
      subst h2
      exact ⟨hbit1 _, rfl, hbit2 _, rfl, rfl⟩

theorem vmalloc_instance_initial_state_witness :
    (⟨⟨0x500, 2, 0, 1, "", none⟩, ⟨1024 * 128, 0, 0⟩, [], 0x10000⟩ : zbk_created).bi.flags
        &&& ZIO_STATUS = ZIO_ENABLED ∧
    (⟨⟨0x500, 2, 0, 1, "", none⟩, ⟨1024 * 128, 0, 0⟩, [], 0x10000⟩ : zbk_created).bi.flags
        &&& ZIO_DIR = ZIO_DIR_OUTPUT :=
  ⟨(vmalloc_instance_initial_state (sample_env true none none none) (some 0x500)
      (some 0x10000) (1024 * 128) vmalloc_type
      ⟨1, ZIO_DIR_OUTPUT, ⟨101, 0, 0, 1, "buffer", some 1⟩⟩
      ⟨⟨0x500, 2, 0, 1, "", none⟩, ⟨1024 * 128, 0, 0⟩, [], 0x10000⟩
      [zio_event.b_create 1 1 (some 0x500), zio_event.zattr_set_copy 0x500] rfl).1,
   (vmalloc_instance_initial_state (sample_env true none none none) (some 0x500)
      (some 0x10000) (1024 * 128) vmalloc_type
      ⟨1, ZIO_DIR_OUTPUT, ⟨101, 0, 0, 1, "buffer", some 1⟩⟩
      ⟨⟨0x500, 2, 0, 1, "", none⟩, ⟨1024 * 128, 0, 0⟩, [], 0x10000⟩
      [zio_event.b_create 1 1 (some 0x500), zio_event.zattr_set_copy 0x500] rfl).2.2.1⟩

/-! ## Claims on the page faults of a mapping -/

/-- C28 does not hold of the code. With pages of 4096 bytes and a region of
128 kB on the data device, the fault at page offset 32 has the byte offset
`off = 32 * 4096`, equal to the size of the region, and `zbk_fault` resolves
the page of the address `data + size`, the first byte after the region: the
test is `off > size`. One page further, and on the control device, it returns
`VM_FAULT_SIGBUS`. -/
theorem zbk_fault_at_region_end :
    32 * 4096 = 1024 * 128 ∧
    zbk_fault 4096 false 0xffffc90000000000 (1024 * 128) 32 =
      zbk_fault_result.page (0xffffc90000000000 + 1024 * 128) ∧
    zbk_fault 4096 false 0xffffc90000000000 (1024 * 128) 33 = zbk_fault_result.sigbus ∧
    zbk_fault 4096 true 0xffffc90000000000 (1024 * 128) 0 = zbk_fault_result.sigbus := by
  refine ⟨by decide, by decide, by decide, by decide⟩

/-! ## Theorems: enabled channels of a set -/

theorem chan_for_each_from {τ : Type} (cset : zio_cset τ) (hlen : cset.chan.length < UINT_MOD)
    (l : List zio_channel) :
    ∀ (pre : List zio_channel), cset.chan = pre ++ l → indexed_from pre.length l = true →
      ∀ fuel, l.length < fuel →
        chan_for_each cset fuel pre.length =
          some ((l.filter chan_enabled).map (fun chan => chan.index)) := by
  induction l with
  | nil =>
    intro pre hpre _ fuel hfuel
    cases fuel with
    | zero => exact absurd hfuel (Nat.not_lt_zero _)
    | succ f =>
      have hn : cset.chan.length = pre.length := by rw [hpre]; simp
      simp [chan_for_each, zio_first_enabled_chan, hn]
  | cons c rest ih =>
    intro pre hpre hidx fuel hfuel
    simp only [indexed_from, Bool.and_eq_true, decide_eq_true_eq] at hidx
    obtain ⟨hci, hrest⟩ := hidx
    have hpre1 : cset.chan = (pre ++ [c]) ++ rest := by rw [hpre]; simp
    have hlen1 : (pre ++ [c]).length = pre.length + 1 := by simp
    have hn : cset.chan.length = pre.length + (rest.length + 1) := by rw [hpre]; simp
    have hdrop : cset.chan.drop pre.length = c :: rest := by rw [hpre]; simp
    have hdrop1 : cset.chan.drop (pre.length + 1) = rest := by
      rw [hpre1, ← hlen1]; simp
    have ih1 := ih (pre ++ [c]) hpre1 (by rw [hlen1]; exact hrest)
    rw [hlen1] at ih1
    cases fuel with
    | zero => exact absurd hfuel (Nat.not_lt_zero _)
    | succ f =>
      simp only [List.length_cons] at hfuel
      have hnge : ¬ pre.length ≥ cset.chan.length := by omega
      by_cases hen : c.flags &&& ZIO_DISABLED = 0
      · have hce : chan_enabled c = true := by simp [chan_enabled, hen]
        have hfirst : zio_first_enabled_chan cset pre.length = some (some pre.length) := by
          simp [zio_first_enabled_chan, hnge, hdrop, first_enabled_scan, hen]
        simp only [chan_for_each, hfirst, ih1 f (by omega), List.filter_cons, hce, if_true,
          List.map_cons, hci]
      · have hce : chan_enabled c = false := by simp [chan_enabled, hen]
        have hstep : zio_first_enabled_chan cset pre.length =
            zio_first_enabled_chan cset (pre.length + 1) := by
          unfold UINT_MOD at hlen
          have hmod : (pre.length + 1) % 2 ^ 32 = pre.length + 1 :=
            Nat.mod_eq_of_lt (by omega)
          simp only [zio_first_enabled_chan, hnge, hdrop, hdrop1, first_enabled_scan, hen,
            if_false, hci, UINT_MOD, hmod]
          cases rest with
          | nil =>
            have h1 : pre.length + 1 = cset.chan.length := by rw [hn]; rfl
            have h2 : pre.length + 1 ≥ cset.chan.length := by omega
            simp [h1, h2]
          | cons r rs =>
            have h1 : ¬ pre.length + 1 = cset.chan.length := by
              rw [hn]; simp only [List.length_cons]; omega
            have h2 : ¬ pre.length + 1 ≥ cset.chan.length := by
              rw [hn]; simp only [List.length_cons]; omega
            simp [h1, h2]
        have hrun : chan_for_each cset (f + 1) pre.length =
            chan_for_each cset (f + 1) (pre.length + 1) := by
          simp only [chan_for_each, hstep]
        rw [hrun, ih1 (f + 1) (by omega)]
        simp only [List.filter_cons, hce]
        rfl

theorem enabled_indexes_increasing (l : List zio_channel) :
    ∀ p, indexed_from p l = true →
      List.Pairwise (fun a b => a < b) ((l.filter chan_enabled).map (fun chan => chan.index)) ∧
      ∀ x ∈ (l.filter chan_enabled).map (fun chan => chan.index), p ≤ x ∧ x < p + l.length := by
  induction l with
  | nil => intro p _; simp
  | cons c rest ih =>
    intro p hidx
    simp only [indexed_from, Bool.and_eq_true, decide_eq_true_eq] at hidx
    obtain ⟨hci, hrest⟩ := hidx
    obtain ⟨i1, i2⟩ := ih (p + 1) hrest
    by_cases hce : chan_enabled c = true
    · simp only [List.filter_cons, hce, if_true, List.map_cons, List.pairwise_cons,
        List.mem_cons, List.length_cons]
      refine ⟨⟨fun x hx => by have := i2 x hx; omega, i1⟩, ?_⟩
      intro x hx
      rcases hx with e | e
      · omega
      · have := i2 x e; omega
    · simp only [List.filter_cons, hce, List.length_cons]
      refine ⟨i1, fun x hx => by have := i2 x hx; omega⟩

/-! ## Claims on the enabled channels of a set -/

/-- C23: `zio_get_n_chan_enabled` counts the enabled channels. For every
channel set (of fewer than `2 ^ 32` channels, `n_chan` being an `unsigned
int`; `n_chan = 0` included) whose channels carry index fields equal to their
array positions, the `chan_for_each` iteration ends, as soon as it may
evaluate its condition once more than there are channels: its body runs on
the enabled channels and on no other, once each, in the order of the array,
which is the increasing order of the indexes; and `zio_get_n_chan_enabled`
returns the number of channels whose `ZIO_DISABLED` flag is clear. -/
theorem zio_get_n_chan_enabled_counts {τ : Type} (cset : zio_cset τ) (fuel : Nat)
    (hlen : cset.chan.length < UINT_MOD)
    (hidx : indexed_from 0 cset.chan = true)
    (hfuel : cset.chan.length < fuel) :
    chan_for_each cset fuel 0 =
      some ((cset.chan.filter chan_enabled).map (fun chan => chan.index)) ∧
    List.Pairwise (fun a b => a < b)
      ((cset.chan.filter chan_enabled).map (fun chan => chan.index)) ∧
    zio_get_n_chan_enabled cset fuel = some (cset.chan.countP chan_enabled) := by
  have h := chan_for_each_from cset hlen cset.chan [] rfl hidx fuel hfuel
  simp only [List.length_nil] at h
  refine ⟨h, (enabled_indexes_increasing cset.chan 0 hidx).1, ?_⟩
  simp only [zio_get_n_chan_enabled, h, List.length_map]
  have hle : (cset.chan.filter chan_enabled).length ≤ cset.chan.length :=
    List.length_filter_le _ _
  rw [Nat.mod_eq_of_lt (by omega), List.countP_eq_length_filter]

theorem zio_get_n_chan_enabled_counts_witness :
    chan_for_each sample_cset_four 5 0 = some [0, 2] ∧
    zio_get_n_chan_enabled sample_cset_four 5 = some 2 :=
  ⟨(zio_get_n_chan_enabled_counts sample_cset_four 5 (by decide) (by decide)
      (by decide)).1,
   (zio_get_n_chan_enabled_counts sample_cset_four 5 (by decide) (by decide)
      (by decide)).2.2⟩

/-! ## Claims on the timing instance of the channels -/

/-- C27 does not hold of the code. A successful `cset_register` leaves the
channels pointing to the timing instance of the set, at address 403. A
successful `zio_change_current_trigger` to the type "timer" then destroys
that instance and sets `cset->ti` to the new one, at address 404, while
`chan[0].ti` and `chan[1].ti` still hold 403, the address of the instance
destroyed. A successful `zio_change_current_buffer`, by contrast, leaves
`cset->ti` and the pointers of the channels at 403. -/
theorem channels_keep_destroyed_trigger :
    (cset_register_links sample_cset_env_addr sample_cset_new).map
        (fun r => (r.1, r.2.1.map (fun st => (st.cset.ti_addr, st.chan_ti)))) =
      some (0, some (403, [403, 403])) ∧
    ((cset_register_links sample_cset_env_addr sample_cset_new).bind
        (fun r => r.2.1)).map
        (fun st =>
          ((zio_change_current_trigger_links sample_cset_env_addr.zio st "timer").1,
           (zio_change_current_trigger_links sample_cset_env_addr.zio st "timer").2.1.cset.ti_addr,
           (zio_change_current_trigger_links sample_cset_env_addr.zio st "timer").2.1.chan_ti,
           ti_destroyed_addrs
             (zio_change_current_trigger_links sample_cset_env_addr.zio st "timer").2.2)) =
      some (0, 404, [403, 403], [403]) ∧
    ((cset_register_links sample_cset_env_addr sample_cset_new).bind
        (fun r => r.2.1)).map
        (fun st =>
          ((zio_change_current_buffer_links sample_cset_env_addr.zio st "vmalloc").1,
           (zio_change_current_buffer_links sample_cset_env_addr.zio st "vmalloc").2.1.cset.ti_addr,
           (zio_change_current_buffer_links sample_cset_env_addr.zio st "vmalloc").2.1.chan_ti)) =
      some (0, 403, [403, 403]) := by
  refine ⟨by decide, by decide, by decide⟩

end Zio
